import Mathlib

/-!
# Cab Booking Application: dispatch core

A shallow embedding of `Cab Booking Application/main.go` and the properties of its
ride path.

Modelling conventions.

* Go `int` is 64 bits wide, as on every 64-bit target.  Coordinates, ages and earnings
  are `Int`; the results of the subtractions of line 143 and of the addition of line 190
  are reduced to the `int64` range by `wrapInt64`, as two's-complement arithmetic does.
* A Go `map[string]*T` is the list of its entries.  A lookup returns the first entry
  with the key, an assignment `m[k] = v` replaces that entry or appends a new one, and
  a write through the pointer found by a lookup rewrites that entry.  `range` visits the
  entries in list order (Go leaves the order unspecified).  Keys of a real map are
  distinct; `Map.WF` says so and every operation preserves it.
* A slice `[]*Driver` is `Option (List Driver)`, `none` being the `nil` slice.
* `float64` values are never negative here and, when not zero, at least one and below
  `2 ^ 130`.  Such a value is represented exactly by its numerator over `2 ^ 64` (`F64`).
  Every float64 operation computes the exact result and rounds it to 53 significant bits,
  to nearest, ties to even (`round53`), as IEEE 754 prescribes for conversion, product,
  sum and square root; `math.Pow(x, 2)` is the rounded product `x * x`.  Converting a
  float64 beyond the `int64` range to `int` yields `-2 ^ 63`, as on amd64 (the language
  leaves that result to the implementation).
* Mutexes are dropped: every operation runs atomically.  Log output is dropped.
* A buffered channel is its buffer, capacity and closed flag; the unbuffered channel
  `Event` is the pair of its queues of parked receivers and parked senders.
* A call that touches a channel ends in an `Outcome`: it returns, parks or panics.
* The worker goroutine is a step function on the state and the worker's program counter;
  other goroutines act between its steps.
* `fmt.Sscanf` is a parameter of `AddUser` and `AddDriver` (`Scanner`); `fmtScanner` is the
  instance that follows `fmt/scan.go`.
-/

set_option maxRecDepth 100000

namespace CabBooking

/-- Go's `[2]int`. -/
abbrev Point := Int × Int

/-! ## Machine arithmetic -/

/-- Go's `int` on a 64-bit target: the value of an integer expression reduced to the range
of `int64`, as two's-complement arithmetic does. -/
def wrapInt64 (x : Int) : Int :=
  (x + 2 ^ 63) % 2 ^ 64 - 2 ^ 63

/-- The number of binary digits of `q`; the first argument bounds the recursion. -/
def bitLenAux : Nat → Nat → Nat
  | 0, _ => 0
  | fuel + 1, q => if q = 0 then 0 else bitLenAux fuel (q / 2) + 1

/-- The number of binary digits of `q`. -/
def bitLen (q : Nat) : Nat :=
  bitLenAux q q

/-- Rounding to the 53 significant bits of a float64, to nearest, ties to even.  The exact
value is `q` plus a fraction below one, which is not zero exactly when `sticky` is set.
A `q` of at most 53 bits is returned as it is: such a `q` stands for a value below
`2 ^ -11`, and the only one that arises here is zero. -/
def round53 (q : Nat) (sticky : Bool) : Nat :=
  if bitLen q ≤ 53 then q
  else
    if q % 2 ^ (bitLen q - 53) < 2 ^ (bitLen q - 54) then
      q / 2 ^ (bitLen q - 53) * 2 ^ (bitLen q - 53)
    else if q % 2 ^ (bitLen q - 53) = 2 ^ (bitLen q - 54) ∧ sticky = false ∧
        q / 2 ^ (bitLen q - 53) % 2 = 0 then
      q / 2 ^ (bitLen q - 53) * 2 ^ (bitLen q - 53)
    else (q / 2 ^ (bitLen q - 53) + 1) * 2 ^ (bitLen q - 53)

/-- The integer square root, bit by bit from the top. -/
def isqrtAux : Nat → Nat → Nat → Nat
  | 0, _, r => r
  | k + 1, t, r =>
    if (r + 2 ^ k) * (r + 2 ^ k) ≤ t then isqrtAux k t (r + 2 ^ k) else isqrtAux k t r

/-- The integer square root of `t`. -/
def isqrt (t : Nat) : Nat :=
  isqrtAux (bitLen t) t 0

/-- A float64 that is zero or at least one, as all float64 values of this program are
(an integer, a product or sum of such, a square root of such, ten times such): the value
is `num / 2 ^ 64`. -/
structure F64 where
  num : Nat
deriving DecidableEq, Repr

/-- The conversion `float64(n)` of a non-negative integer, and the float64 value of a
non-negative integer constant. -/
def F64.ofNat (n : Nat) : F64 :=
  ⟨round53 (n * 2 ^ 64) false⟩

/-- The product `a * b`. -/
def F64.mul (a b : F64) : F64 :=
  ⟨round53 (a.num * b.num / 2 ^ 64) (decide (a.num * b.num % 2 ^ 64 ≠ 0))⟩

/-- The sum `a + b`. -/
def F64.add (a b : F64) : F64 :=
  ⟨round53 (a.num + b.num) false⟩

/-- The square root `math.Sqrt(a)`. -/
def F64.sqrt (a : F64) : F64 :=
  ⟨round53 (isqrt (a.num * 2 ^ 64))
    (decide (isqrt (a.num * 2 ^ 64) * isqrt (a.num * 2 ^ 64) ≠ a.num * 2 ^ 64))⟩

/-- The comparison `a <= b`. -/
def F64.le (a b : F64) : Bool :=
  decide (a.num ≤ b.num)

/-- The conversion `int(a)`: the fraction is dropped; a value of `2 ^ 63` or more yields
`-2 ^ 63`. -/
def F64.toInt (a : F64) : Int :=
  if a.num / 2 ^ 64 < 2 ^ 63 then ((a.num / 2 ^ 64 : Nat) : Int) else -2 ^ 63

/-- The square `math.Pow(float64(x), 2)` of an `int`: `float64(x)` is `float64(|x|)` with
the sign of `x`, and the sign cancels in the product. -/
def F64.powTwo (x : Int) : F64 :=
  F64.mul (F64.ofNat x.natAbs) (F64.ofNat x.natAbs)

/-! ## Geometry -/

/-- Source lines 142-144:
`math.Sqrt(math.Pow(float64(destination[0]-source[0]), 2) + math.Pow(float64(destination[1]-source[1]), 2))`. -/
def calculateDistance (source destination : Point) : F64 :=
  F64.sqrt
    (F64.add (F64.powTwo (wrapInt64 (destination.1 - source.1)))
      (F64.powTwo (wrapInt64 (destination.2 - source.2))))

/-! ## Records -/

/-- Source lines 11-16. -/
structure User where
  Name : String
  Gender : String
  Age : Int
  Location : Point
deriving DecidableEq, Repr

/-- Source lines 18-28 (the mutex `Lock` carries no data). -/
structure Driver where
  Name : String
  Gender : String
  Age : Int
  Vehicle : String
  VehicleNumber : String
  Location : Point
  Status : Bool
  Earning : Int
deriving DecidableEq, Repr

/-- Source lines 40-45. -/
structure RideRequest where
  Username : String
  Source : Point
  Destination : Point
  DriverName : String
deriving DecidableEq, Repr

/-! ## Go maps -/

/-- The lookup `m[k]` with its `exists` flag. -/
def Map.get {V : Type} (k : String) : List (String × V) → Option V
  | [] => none
  | (k', v) :: rest => if k' = k then some v else Map.get k rest

/-- The assignment `m[k] = v`, also the write through the pointer `m[k]`. -/
def Map.set {V : Type} (k : String) (v : V) : List (String × V) → List (String × V)
  | [] => [(k, v)]
  | (k', v') :: rest => if k' = k then (k, v) :: rest else (k', v') :: Map.set k v rest

/-- The keys of a map, in iteration order. -/
def Map.keys {V : Type} (m : List (String × V)) : List String :=
  m.map Prod.fst

/-- Keys of a Go map are pairwise distinct. -/
def Map.WF {V : Type} (m : List (String × V)) : Prop :=
  (Map.keys m).Nodup

/-! ## Channels -/

/-- How a call ends: it returns, it parks at a channel operation that cannot proceed, or
it panics.  Each case carries the application state at that point. -/
inductive Outcome (σ : Type) where
  | returned (s : σ)
  | blocked (s : σ)
  | panicked (s : σ)
deriving DecidableEq, Repr

/-- The state a call leaves behind, however it ended. -/
def Outcome.state {σ : Type} : Outcome σ → σ
  | .returned s => s
  | .blocked s => s
  | .panicked s => s

/-- A buffered channel: `make(chan α, cap)`. -/
structure Chan (α : Type) where
  buf : List α
  cap : Nat
  closed : Bool
deriving DecidableEq, Repr

/-- The send `c <- v`: panics on a closed channel, parks on a full one. -/
def Chan.send {α : Type} (c : Chan α) (v : α) : Outcome (Chan α) :=
  if c.closed then .panicked c
  else if c.buf.length < c.cap then .returned { c with buf := c.buf ++ [v] }
  else .blocked c

/-- The call `close(c)`: panics on a closed channel. -/
def Chan.close {α : Type} (c : Chan α) : Outcome (Chan α) :=
  if c.closed then .panicked c else .returned { c with closed := true }

/-- An unbuffered channel: the number of goroutines parked in a receive and the number
parked in a send (at most one of the two is non-zero). -/
structure SyncChan where
  recvq : Nat
  sendq : Nat
deriving DecidableEq, Repr

/-- The send `c <- v` on an unbuffered channel: it hands the value to a parked receiver
and returns, or parks. -/
def SyncChan.send (c : SyncChan) : Outcome SyncChan :=
  if 0 < c.recvq then .returned { c with recvq := c.recvq - 1 }
  else .blocked { c with sendq := c.sendq + 1 }

/-- A goroutine starts a receive `<-c`: it releases a parked sender, or parks. -/
def SyncChan.recv (c : SyncChan) : SyncChan :=
  if 0 < c.sendq then { c with sendq := c.sendq - 1 } else { c with recvq := c.recvq + 1 }

/-! ## The application -/

/-- Source lines 30-38 (the two directory locks carry no data). -/
structure CabBookingApplication where
  Users : List (String × User)
  Drivers : List (String × Driver)
  RideRequestQueue : Chan RideRequest
  Running : Bool
  Event : SyncChan
deriving DecidableEq, Repr

/-- Source lines 47-55. -/
def NewCabBookingApplication : CabBookingApplication :=
  { Users := [],
    Drivers := [],
    RideRequestQueue := { buf := [], cap := 10, closed := false },
    Running := true,
    Event := { recvq := 0, sendq := 0 } }

/-- What the two `fmt.Sscanf` calls of `AddUser` and `AddDriver` leave in their
zero-initialised target variables.  `fmt` is the Go standard library, not part of the
repository, so the scanner is a parameter: `person d` is `(name, gender, age)` after
`Sscanf(d, "%s, %s, %d", ...)` and `vehicle d` is `(vehicle, vehicleNumber)` after
`Sscanf(d, "%s, %s", ...)`. -/
structure Scanner where
  person : String → String × String × Int
  vehicle : String → String × String

/-- Source lines 57-66. -/
def AddUser (sc : Scanner) (app : CabBookingApplication) (userDetail : String) :
    CabBookingApplication :=
  let scanned := sc.person userDetail
  let name := scanned.1
  let gender := scanned.2.1
  let age := scanned.2.2
  let user : User := { Name := name, Gender := gender, Age := age, Location := (0, 0) }
  { app with Users := Map.set name user app.Users }

/-- Source lines 68-75. -/
def UpdateUserLocation (app : CabBookingApplication) (username : String) (location : Point) :
    CabBookingApplication :=
  match Map.get username app.Users with
  | some user =>
    { app with Users := Map.set username { user with Location := location } app.Users }
  | none => app

/-- Source lines 77-88. -/
def AddDriver (sc : Scanner) (app : CabBookingApplication) (driverDetails vehicleDetails : String)
    (currentLocation : Point) : CabBookingApplication :=
  let scanned := sc.person driverDetails
  let name := scanned.1
  let gender := scanned.2.1
  let age := scanned.2.2
  let scannedVehicle := sc.vehicle vehicleDetails
  let vehicle := scannedVehicle.1
  let vehicleNumber := scannedVehicle.2
  let driver : Driver :=
    { Name := name, Gender := gender, Age := age, Vehicle := vehicle,
      VehicleNumber := vehicleNumber, Location := currentLocation, Status := true,
      Earning := 0 }
  { app with Drivers := Map.set name driver app.Drivers }

/-- Source lines 90-99. -/
def UpdateDriverLocation (app : CabBookingApplication) (driverName : String) (location : Point) :
    CabBookingApplication :=
  match Map.get driverName app.Drivers with
  | some driver =>
    { app with Drivers := Map.set driverName { driver with Location := location } app.Drivers }
  | none => app

/-- Source lines 101-110. -/
def ChangeDriverStatus (app : CabBookingApplication) (driverName : String) (status : Bool) :
    CabBookingApplication :=
  match Map.get driverName app.Drivers with
  | some driver =>
    { app with Drivers := Map.set driverName { driver with Status := status } app.Drivers }
  | none => app

/-- Source lines 112-140.  The arguments `source` and `destination` are only logged. -/
def FindRide (app : CabBookingApplication) (username : String) (_source _destination : Point) :
    Option (List Driver) :=
  match Map.get username app.Users with
  | none => none
  | some user =>
    let availableRides : List Driver :=
      (app.Drivers.filter fun e =>
        e.2.Status && F64.le (calculateDistance e.2.Location user.Location) (F64.ofNat 5)).map
        Prod.snd
    if availableRides.length > 0 then some availableRides else none

/-- Source lines 146-160. -/
def ChooseRide (app : CabBookingApplication) (_username driverName : String) : String :=
  match Map.get driverName app.Drivers with
  | none => "Driver not found"
  | some driver => if !driver.Status then "Driver is not available" else "Ride started"

/-- Source lines 162-168. -/
def CalculateBill (_app : CabBookingApplication) (_username : String)
    (source destination : Point) : Int :=
  let distance := calculateDistance source destination
  let totalAmount := (F64.mul distance (F64.ofNat 10)).toInt
  totalAmount

/-- Source lines 183-196: the body of `ProcessRideRequest`, before the deferred send.
The lookup of line 188 yields a nil pointer when the key is absent and line 190 then
panics. -/
def processRide (app : CabBookingApplication) (request : RideRequest) :
    Outcome CabBookingApplication :=
  let rideResult := ChooseRide app request.Username request.DriverName
  if rideResult = "Ride started" then
    let bill := CalculateBill app request.Username request.Source request.Destination
    match Map.get request.DriverName app.Drivers with
    | none => .panicked app
    | some driver =>
      let app1 : CabBookingApplication :=
        { app with
          Drivers :=
            Map.set request.DriverName
              { driver with Earning := wrapInt64 (driver.Earning + bill) } app.Drivers }
      let app2 := UpdateDriverLocation app1 request.DriverName request.Destination
      let app3 := ChangeDriverStatus app2 request.DriverName false
      .returned app3
  else .returned app

/-- Source line 182: the deferred `app.Event <- true`, which runs when the body returns
and when it panics. -/
def signalEvent (o : Outcome CabBookingApplication) : Outcome CabBookingApplication :=
  match o with
  | .returned app =>
    match app.Event.send with
    | .returned ev => .returned { app with Event := ev }
    | .blocked ev => .blocked { app with Event := ev }
    | .panicked ev => .panicked { app with Event := ev }
  | .panicked app =>
    match app.Event.send with
    | .returned ev => .panicked { app with Event := ev }
    | .blocked ev => .blocked { app with Event := ev }
    | .panicked ev => .panicked { app with Event := ev }
  | .blocked app => .blocked app

/-- Source lines 181-197. -/
def ProcessRideRequest (app : CabBookingApplication) (request : RideRequest) :
    Outcome CabBookingApplication :=
  signalEvent (processRide app request)

/-- Source lines 212-216. -/
def StopWorker (app : CabBookingApplication) : Outcome CabBookingApplication :=
  let app1 := { app with Running := false }
  match app1.RideRequestQueue.close with
  | .returned q => .returned { app1 with RideRequestQueue := q }
  | .blocked q => .blocked { app1 with RideRequestQueue := q }
  | .panicked q => .panicked { app1 with RideRequestQueue := q }

/-- Source lines 218-229.  Indexing an empty non-nil slice at line 222 would panic. -/
def RequestRide (app : CabBookingApplication) (username : String) (source destination : Point) :
    Outcome CabBookingApplication :=
  match FindRide app username source destination with
  | some availableRides =>
    match availableRides.head? with
    | none => .panicked app
    | some driver =>
      let request : RideRequest :=
        { Username := username, Source := source, Destination := destination,
          DriverName := driver.Name }
      match app.RideRequestQueue.send request with
      | .returned q => .returned { app with RideRequestQueue := q }
      | .blocked q => .blocked { app with RideRequestQueue := q }
      | .panicked q => .panicked { app with RideRequestQueue := q }
  | none => .returned app

/-- A goroutine starts to receive from `Event`, as `main` does at lines 261-265. -/
def awaitEvent (app : CabBookingApplication) : CabBookingApplication :=
  { app with Event := app.Event.recv }

/-! ## Sequences of operations -/

/-- A call of one of the operations above. -/
inductive Op where
  | addUser (userDetail : String)
  | updateUserLocation (username : String) (location : Point)
  | addDriver (driverDetails vehicleDetails : String) (currentLocation : Point)
  | updateDriverLocation (driverName : String) (location : Point)
  | changeDriverStatus (driverName : String) (status : Bool)
  | findRide (username : String) (source destination : Point)
  | requestRide (username : String) (source destination : Point)
  | processRideRequest (request : RideRequest)
  | await
deriving DecidableEq, Repr

/-- The state one operation leaves behind, whether the call returned, parked at a
channel or panicked. -/
def Op.apply (sc : Scanner) (app : CabBookingApplication) : Op → CabBookingApplication
  | .addUser d => AddUser sc app d
  | .updateUserLocation u l => UpdateUserLocation app u l
  | .addDriver d v l => AddDriver sc app d v l
  | .updateDriverLocation n l => UpdateDriverLocation app n l
  | .changeDriverStatus n s => ChangeDriverStatus app n s
  | .findRide _ _ _ => app
  | .requestRide u s t => (RequestRide app u s t).state
  | .processRideRequest r => (ProcessRideRequest app r).state
  | .await => awaitEvent app

/-- The state after a sequence of operations, applied one after the other. -/
def execOps (sc : Scanner) (app : CabBookingApplication) (ops : List Op) : CabBookingApplication :=
  ops.foldl (Op.apply sc) app

/-- The driver record after a started ride: fare added, moved to the destination, busy. -/
def settle (d : Driver) (bill : Int) (destination : Point) : Driver :=
  { d with Earning := wrapInt64 (d.Earning + bill), Location := destination, Status := false }

/-- Whether an operation can make driver `d` available again: `ChangeDriverStatus(d, true)`
or an `AddDriver` whose scanned name is `d`. -/
def reactivates (sc : Scanner) (d : String) : Op → Bool
  | .changeDriverStatus n s => decide (n = d) && s
  | .addDriver details _ _ => decide ((sc.person details).1 = d)
  | _ => false

/-- Whether an operation is an `AddDriver` whose scanned name is `d`. -/
def addsDriver (sc : Scanner) (d : String) : Op → Bool
  | .addDriver details _ _ => decide ((sc.person details).1 = d)
  | _ => false

/-- The fare an operation settles for driver `d` when applied in state `app`: the bill of
a processed request that names `d` and finds `d` available, and nothing otherwise. -/
def settledFare (d : String) (app : CabBookingApplication) : Op → Int
  | .processRideRequest r =>
    if r.DriverName = d ∧ ChooseRide app r.Username r.DriverName = "Ride started" then
      CalculateBill app r.Username r.Source r.Destination
    else 0
  | _ => 0

/-- The sum of the fares settled for driver `d` along a sequence of operations that
starts in state `app`. -/
def settledFares (sc : Scanner) (d : String) : CabBookingApplication → List Op → Int
  | _, [] => 0
  | app, op :: ops => settledFare d app op + settledFares sc d (Op.apply sc app op) ops

/-! ## Sample states

The fleet of `main` (lines 245-247) under the names `main` uses, one rider and one
request. -/

/-- A scanner in the manner of the verb `%s`: the first variable receives the input up to
the first white space and the others keep their zero values. -/
def sampleScanner : Scanner :=
  { person := fun s => (String.mk (s.data.takeWhile fun c => !c.isWhitespace), "", 0),
    vehicle := fun s => (String.mk (s.data.takeWhile fun c => !c.isWhitespace), "") }

/-- The driver of line 245. -/
def driver1 : Driver :=
  { Name := "Driver1", Gender := "M", Age := 22, Vehicle := "Swift",
    VehicleNumber := "KA-01-12345", Location := (10, 1), Status := true, Earning := 0 }

/-- The driver of line 246. -/
def driver2 : Driver :=
  { Name := "Driver2", Gender := "M", Age := 29, Vehicle := "Swift",
    VehicleNumber := "KA-01-12345", Location := (11, 10), Status := true, Earning := 0 }

/-- The driver of line 247. -/
def driver3 : Driver :=
  { Name := "Driver3", Gender := "M", Age := 24, Vehicle := "Swift",
    VehicleNumber := "KA-01-12345", Location := (5, 3), Status := true, Earning := 0 }

/-- A rider standing at `(10, 0)`. -/
def rider1 : User :=
  { Name := "Thu", Gender := "F", Age := 22, Location := (10, 0) }

/-- One rider, three drivers, an empty open queue, nobody waiting on `Event`. -/
def sampleApp : CabBookingApplication :=
  { NewCabBookingApplication with
    Users := [("Thu", rider1)],
    Drivers := [("Driver1", driver1), ("Driver2", driver2), ("Driver3", driver3)] }

/-- The request of line 257, assigned to `Driver1`. -/
def sampleRequest : RideRequest :=
  { Username := "Thu", Source := (10, 0), Destination := (15, 3), DriverName := "Driver1" }

/-- A second request assigned to `Driver1`. -/
def secondRequest : RideRequest :=
  { Username := "Blue", Source := (15, 6), Destination := (20, 4), DriverName := "Driver1" }

/-- A request assigned to `Driver3`. -/
def thirdRequest : RideRequest :=
  { Username := "Blue", Source := (15, 6), Destination := (20, 4), DriverName := "Driver3" }

/-- Operations that leave the availability of `Driver1` alone. -/
def sampleOps : List Op :=
  [Op.requestRide "Thu" (10, 0) (15, 3), Op.updateDriverLocation "Driver1" (1, 1),
    Op.changeDriverStatus "Driver2" false, Op.addDriver "Driver4, M, 30" "Swift, KA" (0, 0),
    Op.processRideRequest thirdRequest, Op.await]

/-- A rider at the western end of the `int` range. -/
def farRider : User :=
  { Name := "Thu", Gender := "F", Age := 22, Location := (-2 ^ 63, 0) }

/-- A driver at the eastern end of the `int` range. -/
def farDriver : Driver :=
  { Name := "Driver1", Gender := "M", Age := 22, Vehicle := "Swift",
    VehicleNumber := "KA-01-12345", Location := (2 ^ 63 - 1, 0), Status := true, Earning := 0 }

/-- The two of them, as far apart as `int` coordinates allow. -/
def farApp : CabBookingApplication :=
  { NewCabBookingApplication with
    Users := [("Thu", farRider)],
    Drivers := [("Driver1", farDriver)] }

/-- A request for a driver nobody registered. -/
def strayRequest : RideRequest :=
  { Username := "Thu", Source := (10, 0), Destination := (15, 3), DriverName := "Driver9" }

/-- Two rides for `Driver1`, with a reactivation between them and a ride for `Driver3`
interleaved. -/
def rideOps : List Op :=
  [Op.processRideRequest sampleRequest, Op.processRideRequest thirdRequest,
    Op.processRideRequest secondRequest, Op.changeDriverStatus "Driver1" true,
    Op.requestRide "Thu" (10, 0) (15, 3), Op.processRideRequest secondRequest]

/-! ## The worker

`RideRequestWorker` (lines 199-210) as a step function on the application state and the
worker's program counter.  Reads and writes of `Running` are taken as atomic. -/

/-- The result of a receive `<-c` on a buffered channel: a buffered value, the zero value
of a closed and drained channel, or nothing yet. -/
inductive Recv (α : Type) where
  | value (v : α) (c : Chan α)
  | closedEmpty
  | wouldBlock
deriving DecidableEq, Repr

/-- The receive `<-c`: the oldest buffered value first, also on a closed channel. -/
def Chan.recv {α : Type} (c : Chan α) : Recv α :=
  match c.buf with
  | v :: rest => .value v { c with buf := rest }
  | [] => if c.closed then .closedEmpty else .wouldBlock

/-- The zero value `RideRequest{}`, which a receive on a closed, drained channel yields. -/
def zeroRequest : RideRequest :=
  { Username := "", Source := (0, 0), Destination := (0, 0), DriverName := "" }

/-- Where the worker goroutine stands. -/
inductive WorkerPc where
  | check
  | select
  | processing (request : RideRequest)
  | parked
  | stopped
  | crashed
deriving DecidableEq, Repr

/-- One step of `RideRequestWorker`.

* `check`: the loop condition `app.Running` (line 201).
* `select`: lines 202-207; with nothing to receive the timer fires and the loop goes round.
* `processing r`: the call `app.ProcessRideRequest(r)` of line 205.
* `parked`: inside `ProcessRideRequest`, at the deferred send with no receiver; the worker
  stays here until `receiveEvent` releases it.
* `stopped`: line 209.  `crashed`: after a panic. -/
def workerStep : CabBookingApplication × WorkerPc → CabBookingApplication × WorkerPc
  | (app, .check) => if app.Running then (app, .select) else (app, .stopped)
  | (app, .select) =>
    match app.RideRequestQueue.recv with
    | .value request q => ({ app with RideRequestQueue := q }, .processing request)
    | .closedEmpty => (app, .processing zeroRequest)
    | .wouldBlock => (app, .check)
  | (app, .processing request) =>
    match ProcessRideRequest app request with
    | .returned app1 => (app1, .check)
    | .blocked app1 => (app1, .parked)
    | .panicked app1 => (app1, .crashed)
  | (app, .parked) => (app, .parked)
  | (app, .stopped) => (app, .stopped)
  | (app, .crashed) => (app, .crashed)

/-- The worker takes `n` steps with nothing else running in between. -/
def workerRun : Nat → CabBookingApplication × WorkerPc → CabBookingApplication × WorkerPc
  | 0, s => s
  | n + 1, s => workerRun n (workerStep s)

/-- The requests handed to `ProcessRideRequest` during the first `n` steps, in order. -/
def workerTrace : Nat → CabBookingApplication × WorkerPc → List RideRequest
  | 0, _ => []
  | n + 1, s =>
    match s.2 with
    | .processing request => request :: workerTrace n (workerStep s)
    | _ => workerTrace n (workerStep s)

/-- A goroutine receives from `Event` (lines 261-265) while the worker stands at `pc`: a
worker parked at the deferred send is released and returns to its loop. -/
def receiveEvent : CabBookingApplication × WorkerPc → CabBookingApplication × WorkerPc
  | (app, .parked) => (awaitEvent app, .check)
  | (app, pc) => (awaitEvent app, pc)

/-! ## Every entry point -/

/-- A call of an operation, of `StopWorker`, or a step of the worker standing at `pc`. -/
inductive Call where
  | op (o : Op)
  | stopWorker
  | worker (pc : WorkerPc)
deriving DecidableEq, Repr

/-- The state a call leaves behind. -/
def Call.apply (sc : Scanner) (app : CabBookingApplication) : Call → CabBookingApplication
  | .op o => Op.apply sc app o
  | .stopWorker => (StopWorker app).state
  | .worker pc => (workerStep (app, pc)).1

/-- The state after a sequence of calls. -/
def runCalls (sc : Scanner) (app : CabBookingApplication) (calls : List Call) :
    CabBookingApplication :=
  calls.foldl (Call.apply sc) app

/-- Whether a call is an `AddDriver` whose scanned name is `d`. -/
def Call.addsDriver (sc : Scanner) (d : String) : Call → Bool
  | .op o => CabBooking.addsDriver sc d o
  | _ => false

/-! ## Scanning the registration strings

`fmt.Sscanf` belongs to the Go standard library.  The functions below follow
`fmt/scan.go` for the two formats of `AddUser` and `AddDriver`, up to and including the
first literal of the format; what the rest of the format would do is left to a parameter,
and `fmtSscanfPerson_eq` shows that it is never consulted. -/

/-- The white-space table `space` of `fmt/scan.go`. -/
def fmtIsSpace (c : Char) : Bool :=
  (0x0009 ≤ c.toNat && c.toNat ≤ 0x000d) || c.toNat == 0x0020 || c.toNat == 0x0085 ||
  c.toNat == 0x00a0 || c.toNat == 0x1680 || (0x2000 ≤ c.toNat && c.toNat ≤ 0x200a) ||
  (0x2028 ≤ c.toNat && c.toNat ≤ 0x2029) || c.toNat == 0x202f || c.toNat == 0x205f ||
  c.toNat == 0x3000

/-- `(*ss).SkipSpace` for `Sscanf`, where a newline is not white space: the input after the
leading spaces, or `none` for the error "unexpected newline". -/
def fmtSkipSpace : List Char → Option (List Char)
  | [] => some []
  | c :: cs =>
    if c = '\r' ∧ cs.head? = some '\n' then fmtSkipSpace cs
    else if c = '\n' then none
    else if fmtIsSpace c then fmtSkipSpace cs
    else some (c :: cs)

/-- The verb `%s`: skip leading spaces, fail at the end of the input, and take the runes up
to the next white space.  Returns the word and the input that remains. -/
def fmtScanString (input : List Char) : Option (String × List Char) :=
  match fmtSkipSpace input with
  | none => none
  | some [] => none
  | some (c :: cs) =>
    some (String.mk ((c :: cs).takeWhile fun x => !fmtIsSpace x),
      (c :: cs).dropWhile fun x => !fmtIsSpace x)

/-- `fmt.Sscanf(d, "%s, %s, %d", &name, &gender, &age)` on zero-initialised variables:
the variables afterwards and whether the scan succeeded in full.  The verb `%s` is
followed by the literal `,` of the format, which must be the next rune of the input;
`rest` stands for the remaining format ` %s, %d`. -/
def fmtSscanfPerson (rest : List Char → String × Int × Bool) (d : String) :
    String × String × Int × Bool :=
  match fmtScanString d.data with
  | none => ("", "", 0, false)
  | some (name, input) =>
    match input with
    | ',' :: input1 => (name, (rest input1).1, (rest input1).2.1, (rest input1).2.2)
    | _ => (name, "", 0, false)

/-- `fmt.Sscanf(d, "%s, %s", &vehicle, &vehicleNumber)` on zero-initialised variables:
the variables afterwards and whether the scan succeeded in full; `rest` stands for the
remaining format ` %s`. -/
def fmtSscanfVehicle (rest : List Char → String × Bool) (d : String) : String × String × Bool :=
  match fmtScanString d.data with
  | none => ("", "", false)
  | some (vehicle, input) =>
    match input with
    | ',' :: input1 => (vehicle, (rest input1).1, (rest input1).2)
    | _ => (vehicle, "", false)

/-- The scanner that `fmt.Sscanf` provides for the two formats. -/
def fmtScanner (restPerson : List Char → String × Int × Bool)
    (restVehicle : List Char → String × Bool) : Scanner :=
  { person := fun d =>
      ((fmtSscanfPerson restPerson d).1, (fmtSscanfPerson restPerson d).2.1,
        (fmtSscanfPerson restPerson d).2.2.1),
    vehicle := fun d =>
      ((fmtSscanfVehicle restVehicle d).1, (fmtSscanfVehicle restVehicle d).2.1) }

/-- A stand-in for the unreachable rest of the person format. -/
def noRestPerson : List Char → String × Int × Bool := fun _ => ("", 0, false)

/-- A stand-in for the unreachable rest of the vehicle format. -/
def noRestVehicle : List Char → String × Bool := fun _ => ("", false)

/-- A rider, a driver next to it, and then `StopWorker`. -/
def stopCalls : List Call :=
  [Call.op (Op.addUser "Thu"), Call.op (Op.updateUserLocation "Thu" (10, 0)),
    Call.op (Op.addDriver "Driver1" "Swift" (10, 1)), Call.stopWorker]

/-- The state after `stopCalls`, from the initial one. -/
def stoppedApp : CabBookingApplication :=
  runCalls (fmtScanner noRestPerson noRestVehicle) NewCabBookingApplication stopCalls

/-- The sample state with the request of line 257 waiting in the queue. -/
def queuedApp : CabBookingApplication :=
  { sampleApp with
    RideRequestQueue := { buf := [sampleRequest], cap := 10, closed := false } }

/-- The sample state with two requests waiting, the first for an unknown driver. -/
def twoQueuedApp : CabBookingApplication :=
  { sampleApp with
    RideRequestQueue := { buf := [strayRequest, sampleRequest], cap := 10, closed := false } }

/-- Three riders, each next to one of the three drivers, the worker running, an empty open
queue and three goroutines waiting on `Event`. -/
def fleetApp : CabBookingApplication :=
  { sampleApp with
    Users :=
      [("Thu", rider1),
        ("Blue", { Name := "Blue", Gender := "M", Age := 2, Location := (5, 6) }),
        ("Khanh", { Name := "Khanh", Gender := "M", Age := 23, Location := (11, 8) })],
    Event := { recvq := 3, sendq := 0 } }

/-- The fleet state with nobody waiting on `Event`, as the constructor leaves it. -/
def idleFleetApp : CabBookingApplication :=
  { fleetApp with Event := { recvq := 0, sendq := 0 } }

/-- Whether the endpoints of a request differ by at most two million along each axis. -/
def RideRequest.short (r : RideRequest) : Bool :=
  decide (|r.Destination.1 - r.Source.1| ≤ 2000000 ∧ |r.Destination.2 - r.Source.2| ≤ 2000000)

/-- Whether the request an operation hands to `ProcessRideRequest`, if any, is short. -/
def Op.short : Op → Bool
  | .processRideRequest r => r.short
  | _ => true

/-- Whether the request a call hands to `ProcessRideRequest`, if any, is short. -/
def Call.short : Call → Bool
  | .op o => o.short
  | .worker (.processing r) => r.short
  | _ => true

/-- A ride of `5 * 10 ^ 17` units for `Driver1`. -/
def longRequest : RideRequest :=
  { Username := "Thu", Source := (0, 0), Destination := (5 * 10 ^ 17, 0),
    DriverName := "Driver1" }

/-- Register `Driver1`, process one long ride and make the driver available again. -/
def longCalls : List Call :=
  [Call.op (Op.addDriver "Driver1" "Swift" (0, 0)), Call.op (Op.processRideRequest longRequest),
    Call.op (Op.changeDriverStatus "Driver1" true)]

/-- Three short rides by way of `ProcessRideRequest` and of the worker. -/
def shortCalls : List Call :=
  [Call.op (Op.addDriver "Driver1" "Swift" (10, 1)), Call.op (Op.processRideRequest sampleRequest),
    Call.op (Op.changeDriverStatus "Driver1" true), Call.worker (.processing secondRequest),
    Call.stopWorker]

/-! ## Maps: lookup after assignment -/

theorem Map.get_set_same {V : Type} (k : String) (v : V) (m : List (String × V)) :
    Map.get k (Map.set k v m) = some v := by
  induction m with
  | nil => simp [Map.set, Map.get]
  | cons e rest ih =>
    obtain ⟨k', v'⟩ := e
    by_cases h : k' = k
    · simp [Map.set, Map.get, h]
    · simp [Map.set, Map.get, h, ih]

theorem Map.get_set_ne {V : Type} (k j : String) (v : V) (m : List (String × V)) (h : j ≠ k) :
    Map.get j (Map.set k v m) = Map.get j m := by
  induction m with
  | nil => simp [Map.set, Map.get, Ne.symm h]
  | cons e rest ih =>
    obtain ⟨k', v'⟩ := e
    by_cases hk : k' = k
    · subst hk
      simp [Map.set, Map.get, Ne.symm h]
    · by_cases hj : k' = j
      · subst hj
        simp [Map.set, Map.get, hk]
      · simp [Map.set, Map.get, hk, hj, ih]

theorem Map.keys_set_of_get {V : Type} (k : String) (v w : V) (m : List (String × V))
    (h : Map.get k m = some w) : Map.keys (Map.set k v m) = Map.keys m := by
  induction m with
  | nil => simp [Map.get] at h
  | cons e rest ih =>
    obtain ⟨k', v'⟩ := e
    by_cases hk : k' = k
    · simp [Map.set, Map.keys, hk]
    · have h' : Map.get k rest = some w := by simpa [Map.get, hk] using h
      have := ih h'
      simp only [Map.keys] at this
      simp [Map.set, Map.keys, hk, this]

theorem Map.set_of_get {V : Type} (k : String) (v : V) (m : List (String × V))
    (h : Map.get k m = some v) : Map.set k v m = m := by
  induction m with
  | nil => simp [Map.get] at h
  | cons e rest ih =>
    obtain ⟨k', v'⟩ := e
    by_cases hk : k' = k
    · have : v' = v := by simpa [Map.get, hk] using h
      simp [Map.set, hk, this]
    · have h' : Map.get k rest = some v := by simpa [Map.get, hk] using h
      simp [Map.set, hk, ih h']

theorem Map.set_set {V : Type} (k : String) (v w : V) (m : List (String × V)) :
    Map.set k v (Map.set k w m) = Map.set k v m := by
  induction m with
  | nil => simp [Map.set]
  | cons e rest ih =>
    obtain ⟨k', v'⟩ := e
    by_cases hk : k' = k
    · simp [Map.set, hk]
    · simp [Map.set, hk, ih]

theorem Map.get_eq_none_iff {V : Type} (k : String) (m : List (String × V)) :
    Map.get k m = none ↔ k ∉ Map.keys m := by
  induction m with
  | nil => simp [Map.get, Map.keys]
  | cons e rest ih =>
    obtain ⟨k', v'⟩ := e
    by_cases hk : k' = k
    · simp [Map.get, Map.keys, hk]
    · simp only [Map.keys] at ih
      simp [Map.get, Map.keys, hk, ih, Ne.symm hk]

theorem Map.keys_set_of_none {V : Type} (k : String) (v : V) (m : List (String × V))
    (h : Map.get k m = none) : Map.keys (Map.set k v m) = Map.keys m ++ [k] := by
  induction m with
  | nil => simp [Map.set, Map.keys]
  | cons e rest ih =>
    obtain ⟨k', v'⟩ := e
    by_cases hk : k' = k
    · simp [Map.get, hk] at h
    · have h' : Map.get k rest = none := by simpa [Map.get, hk] using h
      have := ih h'
      simp only [Map.keys] at this
      simp [Map.set, Map.keys, hk, this]

theorem Map.WF_set {V : Type} (k : String) (v : V) (m : List (String × V)) (h : Map.WF m) :
    Map.WF (Map.set k v m) := by
  unfold Map.WF at *
  cases hg : Map.get k m with
  | some w => rw [Map.keys_set_of_get k v w m hg]; exact h
  | none =>
    rw [Map.keys_set_of_none k v m hg]
    have hk := (Map.get_eq_none_iff k m).1 hg
    exact List.Nodup.append h (List.nodup_singleton k) (by simpa using hk)

/-- In a well-formed map the lookup finds an entry exactly when it is an entry. -/
theorem Map.get_eq_some_iff {V : Type} (k : String) (v : V) (m : List (String × V))
    (h : Map.WF m) : Map.get k m = some v ↔ (k, v) ∈ m := by
  induction m with
  | nil => simp [Map.get]
  | cons e rest ih =>
    obtain ⟨k', v'⟩ := e
    have hrest : Map.WF rest := by
      unfold Map.WF Map.keys at *
      exact (List.nodup_cons.1 h).2
    have hnot : k' ∉ Map.keys rest := by
      unfold Map.WF Map.keys at *
      exact (List.nodup_cons.1 h).1
    by_cases hk : k' = k
    · subst hk
      have : ∀ w, (k', w) ∉ rest := by
        intro w hw
        exact hnot (List.mem_map_of_mem Prod.fst hw)
      simp [Map.get, this]
      exact eq_comm
    · simp [Map.get, hk, ih hrest, Ne.symm hk]

/-! ## Machine arithmetic: rounding and square roots -/

theorem bitLenAux_zero (fuel : Nat) : bitLenAux fuel 0 = 0 := by
  cases fuel <;> simp [bitLenAux]

theorem bitLenAux_spec (fuel : Nat) :
    ∀ q, q ≤ fuel → q ≠ 0 →
      0 < bitLenAux fuel q ∧ 2 ^ (bitLenAux fuel q - 1) ≤ q ∧ q < 2 ^ bitLenAux fuel q := by
  induction fuel with
  | zero => intro q h0 hq; omega
  | succ f ih =>
    intro q hle hq
    simp only [bitLenAux, hq, if_false]
    by_cases h2 : q / 2 = 0
    · have hq1 : q = 1 := by omega
      subst hq1
      simp [bitLenAux_zero]
    · have hle2 : q / 2 ≤ f := by omega
      obtain ⟨hpos, hlo, hhi⟩ := ih (q / 2) hle2 h2
      refine ⟨Nat.succ_pos _, ?_, ?_⟩
      · simp only [Nat.add_sub_cancel]
        have : 2 ^ bitLenAux f (q / 2) = 2 ^ (bitLenAux f (q / 2) - 1) * 2 := by
          rw [← pow_succ]
          congr 1
          omega
        rw [this]
        omega
      · rw [pow_succ]
        omega

theorem bitLen_zero : bitLen 0 = 0 := rfl

theorem bitLen_spec (q : Nat) (hq : q ≠ 0) :
    0 < bitLen q ∧ 2 ^ (bitLen q - 1) ≤ q ∧ q < 2 ^ bitLen q :=
  bitLenAux_spec q q (le_refl q) hq

theorem lt_two_pow_bitLen (q : Nat) : q < 2 ^ bitLen q := by
  by_cases hq : q = 0
  · subst hq; simp [bitLen_zero]
  · exact (bitLen_spec q hq).2.2

/-- The rounding error is at most one part in `2 ^ 53`. -/
theorem round53_error (q : Nat) (sticky : Bool) :
    ∃ h : Nat, h * 2 ^ 53 ≤ q ∧ q ≤ round53 q sticky + h ∧ round53 q sticky ≤ q + h := by
  unfold round53
  by_cases hb : bitLen q ≤ 53
  · exact ⟨0, by simp, by simp [hb], by simp [hb]⟩
  · have hq : q ≠ 0 := by
      intro h0
      rw [h0, bitLen_zero] at hb
      omega
    obtain ⟨-, hlo, -⟩ := bitLen_spec q hq
    have hsh : bitLen q - 53 = (bitLen q - 54) + 1 := by omega
    have hpow : (2 : Nat) ^ (bitLen q - 53) = 2 * 2 ^ (bitLen q - 54) := by
      rw [hsh, pow_succ]; ring
    have hb1 : (2 : Nat) ^ (bitLen q - 1) = 2 ^ (bitLen q - 54) * 2 ^ 53 := by
      rw [← pow_add]; congr 1; omega
    have hdm := Nat.div_add_mod q (2 ^ (bitLen q - 53))
    have hmod : q % 2 ^ (bitLen q - 53) < 2 ^ (bitLen q - 53) :=
      Nat.mod_lt _ (by positivity)
    refine ⟨2 ^ (bitLen q - 54), by rw [← hb1]; exact hlo, ?_, ?_⟩
    · simp only [hb, if_false]
      split
      · rw [mul_comm]; omega
      · split
        · rw [mul_comm]; omega
        · rw [add_mul, mul_comm]; omega
    · simp only [hb, if_false]
      split
      · rw [mul_comm]; omega
      · split
        · rw [mul_comm]; omega
        · rw [add_mul, mul_comm]; omega

/-- A number with at most 53 significant bits is not changed by the rounding. -/
theorem round53_exact (k j : Nat) (hk : k < 2 ^ 53) : round53 (k * 2 ^ j) false = k * 2 ^ j := by
  unfold round53
  by_cases hb : bitLen (k * 2 ^ j) ≤ 53
  · simp [hb]
  · have hq : k * 2 ^ j ≠ 0 := by
      intro h0
      rw [h0, bitLen_zero] at hb
      omega
    obtain ⟨-, hlo, -⟩ := bitLen_spec _ hq
    have hlt : k * 2 ^ j < 2 ^ (53 + j) := by
      rw [pow_add]
      exact Nat.mul_lt_mul_of_pos_right hk (by positivity)
    have hexp : bitLen (k * 2 ^ j) - 1 < 53 + j :=
      (Nat.pow_lt_pow_iff_right (by norm_num : 1 < 2)).1 (lt_of_le_of_lt hlo hlt)
    have hsh : bitLen (k * 2 ^ j) - 53 ≤ j := by omega
    have hdvd : 2 ^ (bitLen (k * 2 ^ j) - 53) ∣ k * 2 ^ j :=
      Dvd.dvd.mul_left (pow_dvd_pow 2 hsh) k
    have hmod : k * 2 ^ j % 2 ^ (bitLen (k * 2 ^ j) - 53) = 0 := Nat.mod_eq_zero_of_dvd hdvd
    have hpos : 0 < 2 ^ (bitLen (k * 2 ^ j) - 54) := by positivity
    simp only [hb, if_false, hmod, hpos, if_true]
    exact Nat.div_mul_cancel hdvd

theorem isqrtAux_spec (k : Nat) :
    ∀ t r, r * r ≤ t → t < (r + 2 ^ k) * (r + 2 ^ k) →
      isqrtAux k t r * isqrtAux k t r ≤ t ∧
        t < (isqrtAux k t r + 1) * (isqrtAux k t r + 1) := by
  induction k with
  | zero =>
    intro t r h1 h2
    simpa [isqrtAux] using ⟨h1, h2⟩
  | succ n ih =>
    intro t r h1 h2
    simp only [isqrtAux]
    split
    · rename_i hle
      apply ih _ _ hle
      have : r + 2 ^ n + 2 ^ n = r + 2 ^ (n + 1) := by rw [pow_succ]; ring
      rw [this]
      exact h2
    · rename_i hnle
      exact ih _ _ h1 (not_le.1 hnle)

theorem isqrt_eq_sqrt (t : Nat) : isqrt t = Nat.sqrt t := by
  have hlt := lt_two_pow_bitLen t
  have hsq : t < (0 + 2 ^ bitLen t) * (0 + 2 ^ bitLen t) := by
    have h1 : 1 ≤ 2 ^ bitLen t := Nat.one_le_two_pow
    calc t < 2 ^ bitLen t := hlt
      _ = 2 ^ bitLen t * 1 := (mul_one _).symm
      _ ≤ 2 ^ bitLen t * 2 ^ bitLen t := Nat.mul_le_mul_left _ h1
      _ = (0 + 2 ^ bitLen t) * (0 + 2 ^ bitLen t) := by simp
  obtain ⟨h1, h2⟩ := isqrtAux_spec (bitLen t) t 0 (by simp) hsq
  exact Nat.eq_sqrt.2 ⟨h1, h2⟩

theorem sq_mod_hundred (n : Nat) (h : n * n % 100 = 0) : n % 10 = 0 := by
  have h1 : n * n % 100 = (n % 100) * (n % 100) % 100 := Nat.mul_mod n n 100
  rw [h1] at h
  have h2 : n % 100 < 100 := Nat.mod_lt _ (by norm_num)
  have h3 : n % 10 = n % 100 % 10 := (Nat.mod_mod_of_dvd n (by norm_num : 10 ∣ 100)).symm
  rw [h3]
  generalize n % 100 = r at h h2
  interval_cases r <;> simp_all


theorem fare_lower_aux (n Q : Nat) (hn : n ≤ 27 * 2 ^ 20)
    (h10 : 10 * (Q + 1) ≤ n * 2 ^ 64 + 61 * 2 ^ 31 + 9)
    (h : (n * n + 1) * (2 ^ 64 * 2 ^ 64) < (10 * (Q + 1)) * (10 * (Q + 1))) : False := by
  have h1 := Nat.mul_le_mul h10 h10
  have e1 : (n * 2 ^ 64 + 61 * 2 ^ 31 + 9) * (n * 2 ^ 64 + 61 * 2 ^ 31 + 9) =
      n * n * (2 ^ 64 * 2 ^ 64) + n * (2 * (61 * 2 ^ 31 + 9) * 2 ^ 64) +
        (61 * 2 ^ 31 + 9) * (61 * 2 ^ 31 + 9) := by ring
  have e2 : (n * n + 1) * (2 ^ 64 * 2 ^ 64) = n * n * (2 ^ 64 * 2 ^ 64) + 2 ^ 64 * 2 ^ 64 := by
    ring
  have e3 : n * (2 * (61 * 2 ^ 31 + 9) * 2 ^ 64) ≤
      27 * 2 ^ 20 * (2 * (61 * 2 ^ 31 + 9) * 2 ^ 64) := Nat.mul_le_mul_right _ hn
  have e4 : 27 * 2 ^ 20 * (2 * (61 * 2 ^ 31 + 9) * 2 ^ 64) +
      (61 * 2 ^ 31 + 9) * (61 * 2 ^ 31 + 9) < 2 ^ 64 * 2 ^ 64 := by norm_num
  rw [e1] at h1
  rw [e2] at h
  generalize n * n * (2 ^ 64 * 2 ^ 64) = X at *
  generalize n * (2 * (61 * 2 ^ 31 + 9) * 2 ^ 64) = Y at *
  omega

theorem fare_upper_aux (n Q : Nat) (hn : n + 1 ≤ 27 * 2 ^ 20)
    (h10 : (n + 1) * 2 ^ 64 ≤ 10 * Q + 61 * 2 ^ 31)
    (h : (10 * Q) * (10 * Q) + 2 ^ 64 * 2 ^ 64 ≤ (n + 1) * (n + 1) * (2 ^ 64 * 2 ^ 64)) :
    False := by
  have h1 := Nat.mul_le_mul h10 h10
  have e1 : (10 * Q + 61 * 2 ^ 31) * (10 * Q + 61 * 2 ^ 31) =
      (10 * Q) * (10 * Q) + (10 * Q) * (2 * (61 * 2 ^ 31)) + (61 * 2 ^ 31) * (61 * 2 ^ 31) := by
    ring
  have e2 : (n + 1) * 2 ^ 64 * ((n + 1) * 2 ^ 64) = (n + 1) * (n + 1) * (2 ^ 64 * 2 ^ 64) := by
    ring
  -- 10 * Q < (n + 1) * 2 ^ 64
  have h3 : 10 * Q < (n + 1) * 2 ^ 64 := by
    by_contra hcon
    have h4 : (n + 1) * 2 ^ 64 ≤ 10 * Q := not_lt.1 hcon
    have h5 := Nat.mul_le_mul h4 h4
    rw [e2] at h5
    have : 0 < 2 ^ 64 * 2 ^ 64 := by norm_num
    omega
  have h6 : (10 * Q) * (2 * (61 * 2 ^ 31)) ≤ (n + 1) * 2 ^ 64 * (2 * (61 * 2 ^ 31)) :=
    Nat.mul_le_mul_right _ (Nat.le_of_lt h3)
  have h7 : (n + 1) * 2 ^ 64 * (2 * (61 * 2 ^ 31)) ≤
      27 * 2 ^ 20 * 2 ^ 64 * (2 * (61 * 2 ^ 31)) :=
    Nat.mul_le_mul_right _ (Nat.mul_le_mul_right _ hn)
  have e4 : 27 * 2 ^ 20 * 2 ^ 64 * (2 * (61 * 2 ^ 31)) + (61 * 2 ^ 31) * (61 * 2 ^ 31) <
      2 ^ 64 * 2 ^ 64 := by norm_num
  rw [e1, e2] at h1
  generalize (n + 1) * (n + 1) * (2 ^ 64 * 2 ^ 64) = X at *
  generalize (10 * Q) * (10 * Q) = Y at *
  generalize (10 * Q) * (2 * (61 * 2 ^ 31)) = Z at *
  generalize (n + 1) * 2 ^ 64 * (2 * (61 * 2 ^ 31)) = W at *
  omega

/-- The two roundings of `int(math.Sqrt(N) * 10)` do not reach the next integer as long as
`N` is at most `8 * 10 ^ 12`: the result is the integer square root of `100 * N`. -/
theorem fare_core (N : Nat) (hN : N ≤ 8 * 10 ^ 12) (sticky : Bool)
    (hst : sticky = decide (Nat.sqrt (N * 2 ^ 64 * 2 ^ 64) * Nat.sqrt (N * 2 ^ 64 * 2 ^ 64) ≠
      N * 2 ^ 64 * 2 ^ 64)) :
    round53 (round53 (Nat.sqrt (N * 2 ^ 64 * 2 ^ 64)) sticky * 10) false / 2 ^ 64 =
      Nat.sqrt (100 * N) := by
  by_cases hsq : Nat.sqrt N * Nat.sqrt N = N
  · -- a perfect square: every step is exact
    have hk49 : Nat.sqrt N < 2 ^ 49 := by
      have h1 : Nat.sqrt N ≤ N := Nat.sqrt_le_self N
      have e : 8 * 10 ^ 12 < 2 ^ 49 := by norm_num
      omega
    have hk : Nat.sqrt N < 2 ^ 53 := by
      have e : (2 : Nat) ^ 49 < 2 ^ 53 := by norm_num
      omega
    have hQ : Nat.sqrt (N * 2 ^ 64 * 2 ^ 64) = Nat.sqrt N * 2 ^ 64 := by
      have : N * 2 ^ 64 * 2 ^ 64 = (Nat.sqrt N * 2 ^ 64) * (Nat.sqrt N * 2 ^ 64) := by
        nth_rewrite 1 [← hsq]; ring
      rw [this, Nat.sqrt_eq]
    have hs : sticky = false := by
      rw [hst, hQ]
      have : Nat.sqrt N * 2 ^ 64 * (Nat.sqrt N * 2 ^ 64) = N * 2 ^ 64 * 2 ^ 64 := by
        nth_rewrite 3 [← hsq]; ring
      rw [this]; simp
    have hn : Nat.sqrt (100 * N) = 10 * Nat.sqrt N := by
      have : 100 * N = (10 * Nat.sqrt N) * (10 * Nat.sqrt N) := by
        nth_rewrite 1 [← hsq]; ring
      rw [this, Nat.sqrt_eq]
    have hk10 : Nat.sqrt N * 10 < 2 ^ 53 := by
      have e : (2 : Nat) ^ 49 * 10 < 2 ^ 53 := by norm_num
      omega
    rw [hQ, hs, round53_exact _ _ hk, hn]
    have : Nat.sqrt N * 2 ^ 64 * 10 = (Nat.sqrt N * 10) * 2 ^ 64 := by ring
    rw [this, round53_exact _ _ hk10, Nat.mul_div_cancel _ (by positivity)]
    ring
  · -- not a perfect square: the error bounds leave room
    obtain ⟨h, hh1, hh2, hh3⟩ := round53_error (Nat.sqrt (N * 2 ^ 64 * 2 ^ 64)) sticky
    obtain ⟨g, hg1, hg2, hg3⟩ :=
      round53_error (round53 (Nat.sqrt (N * 2 ^ 64 * 2 ^ 64)) sticky * 10) false
    have hq1 := Nat.sqrt_le (N * 2 ^ 64 * 2 ^ 64)
    have hq2 := Nat.lt_succ_sqrt (N * 2 ^ 64 * 2 ^ 64)
    have hn1 := Nat.sqrt_le (100 * N)
    have hn2 := Nat.lt_succ_sqrt (100 * N)
    clear hst
    generalize Nat.sqrt (N * 2 ^ 64 * 2 ^ 64) = Q at *
    generalize round53 Q sticky = R at *
    generalize round53 (R * 10) false = P at *
    generalize hnn : Nat.sqrt (100 * N) = n at *
    simp only [Nat.succ_eq_add_one] at hq2 hn2
    -- 100 * N is no perfect square either
    have hne : n * n ≠ 100 * N := by
      intro heq
      have h10 : n % 10 = 0 := sq_mod_hundred n (by rw [heq]; simp)
      obtain ⟨m, rfl⟩ : ∃ m, n = 10 * m := ⟨n / 10, by omega⟩
      have hm : m * m = N := by
        have : 100 * (m * m) = 100 * N := by rw [← heq]; ring
        omega
      have : Nat.sqrt N = m := by rw [← hm, Nat.sqrt_eq]
      rw [this] at hsq
      exact hsq hm
    have hn1' : n * n + 1 ≤ 100 * N := by omega
    -- size bounds
    have hQb : Q < 3 * 2 ^ 84 := by
      by_contra hcon
      have h2 : 3 * 2 ^ 84 ≤ Q := not_lt.1 hcon
      have h3 := Nat.mul_le_mul h2 h2
      have h4 : N * 2 ^ 64 * 2 ^ 64 ≤ 8 * 10 ^ 12 * 2 ^ 64 * 2 ^ 64 := by
        apply Nat.mul_le_mul_right; apply Nat.mul_le_mul_right; exact hN
      have e : 8 * 10 ^ 12 * 2 ^ 64 * 2 ^ 64 < 3 * 2 ^ 84 * (3 * 2 ^ 84) := by norm_num
      omega
    have hnb : n + 1 ≤ 27 * 2 ^ 20 := by
      by_contra hcon
      have h2 : 27 * 2 ^ 20 ≤ n := by omega
      have h3 := Nat.mul_le_mul h2 h2
      have e : 100 * (8 * 10 ^ 12) < 27 * 2 ^ 20 * (27 * 2 ^ 20) := by norm_num
      omega
    have hhb : h < 3 * 2 ^ 31 := by
      by_contra hcon
      have h2 : 3 * 2 ^ 31 ≤ h := not_lt.1 hcon
      have := Nat.mul_le_mul_right (2 ^ 53) h2
      have e : 3 * 2 ^ 31 * 2 ^ 53 = 3 * 2 ^ 84 := by norm_num
      omega
    have hRb : R < 3 * 2 ^ 84 + 3 * 2 ^ 31 := by omega
    have hgb : g < 31 * 2 ^ 31 := by
      by_contra hcon
      have h2 : 31 * 2 ^ 31 ≤ g := not_lt.1 hcon
      have := Nat.mul_le_mul_right (2 ^ 53) h2
      have e : 31 * 2 ^ 31 * 2 ^ 53 = 31 * 2 ^ 84 := by norm_num
      omega
    apply Nat.div_eq_of_lt_le
    · -- n * 2 ^ 64 ≤ P
      by_contra hcon
      have hP : P < n * 2 ^ 64 := not_le.1 hcon
      have h10 : 10 * (Q + 1) ≤ n * 2 ^ 64 + 61 * 2 ^ 31 + 9 := by
        omega
      refine fare_lower_aux n Q (by omega) h10 ?_
      have h1 : (n * n + 1) * (2 ^ 64 * 2 ^ 64) ≤ 100 * N * (2 ^ 64 * 2 ^ 64) :=
        Nat.mul_le_mul_right _ hn1'
      have h3 : 100 * (N * 2 ^ 64 * 2 ^ 64) < 100 * ((Q + 1) * (Q + 1)) :=
        Nat.mul_lt_mul_of_pos_left hq2 (by norm_num)
      have h4 : 100 * ((Q + 1) * (Q + 1)) = (10 * (Q + 1)) * (10 * (Q + 1)) := by ring
      have h5 : 100 * N * (2 ^ 64 * 2 ^ 64) = 100 * (N * 2 ^ 64 * 2 ^ 64) := by ring
      rw [h5] at h1
      rw [h4] at h3
      exact lt_of_le_of_lt h1 h3
    · -- P < (n + 1) * 2 ^ 64
      by_contra hcon
      have hP : (n + 1) * 2 ^ 64 ≤ P := not_lt.1 hcon
      have h10 : (n + 1) * 2 ^ 64 ≤ 10 * Q + 61 * 2 ^ 31 := by
        omega
      refine fare_upper_aux n Q hnb h10 ?_
      have h3 : 100 * (Q * Q) ≤ 100 * (N * 2 ^ 64 * 2 ^ 64) := Nat.mul_le_mul_left _ hq1
      have h4 : 100 * N + 1 ≤ (n + 1) * (n + 1) := by omega
      have h5 := Nat.mul_le_mul_right (2 ^ 64 * 2 ^ 64) h4
      have e1 : (100 * N + 1) * (2 ^ 64 * 2 ^ 64) =
          100 * (N * 2 ^ 64 * 2 ^ 64) + 2 ^ 64 * 2 ^ 64 := by ring
      have e2 : (10 * Q) * (10 * Q) = 100 * (Q * Q) := by ring
      rw [e1] at h5
      rw [e2]
      omega

/-! ## Machine arithmetic: the distance and the fare -/

theorem wrapInt64_eq (x : Int) (h1 : -2 ^ 63 ≤ x) (h2 : x < 2 ^ 63) : wrapInt64 x = x := by
  unfold wrapInt64
  omega

theorem wrapInt64_range (x : Int) : -2 ^ 63 ≤ wrapInt64 x ∧ wrapInt64 x < 2 ^ 63 := by
  unfold wrapInt64
  omega

theorem wrapInt64_add (a b : Int) : wrapInt64 (wrapInt64 a + b) = wrapInt64 (a + b) := by
  unfold wrapInt64
  omega

theorem F64.ofNat_num (n : Nat) (h : n < 2 ^ 53) : (F64.ofNat n).num = n * 2 ^ 64 :=
  round53_exact n 64 h

theorem F64.powTwo_num (x : Int) (h : x.natAbs * x.natAbs < 2 ^ 53) :
    (F64.powTwo x).num = x.natAbs * x.natAbs * 2 ^ 64 := by
  have hx : x.natAbs < 2 ^ 53 := by
    rcases Nat.eq_zero_or_pos x.natAbs with h0 | h0
    · rw [h0]; norm_num
    · calc x.natAbs ≤ x.natAbs * x.natAbs := Nat.le_mul_of_pos_left _ h0
        _ < 2 ^ 53 := h
  unfold F64.powTwo F64.mul
  simp only [F64.ofNat_num _ hx]
  have e : x.natAbs * 2 ^ 64 * (x.natAbs * 2 ^ 64) = x.natAbs * x.natAbs * 2 ^ 64 * 2 ^ 64 := by
    ring
  rw [e, Nat.mul_div_cancel _ (by positivity), Nat.mul_mod_left]
  simpa using round53_exact _ 64 h

/-- With both differences below `2 ^ 26` the squares and their sum are exact, and the
distance is the rounded square root of the exact sum of squares. -/
theorem hypot_num (x y : Int) (hx : x.natAbs < 2 ^ 26) (hy : y.natAbs < 2 ^ 26) :
    (F64.sqrt (F64.add (F64.powTwo x) (F64.powTwo y))).num =
      round53 (Nat.sqrt ((x.natAbs * x.natAbs + y.natAbs * y.natAbs) * 2 ^ 64 * 2 ^ 64))
        (decide (Nat.sqrt ((x.natAbs * x.natAbs + y.natAbs * y.natAbs) * 2 ^ 64 * 2 ^ 64) *
            Nat.sqrt ((x.natAbs * x.natAbs + y.natAbs * y.natAbs) * 2 ^ 64 * 2 ^ 64) ≠
          (x.natAbs * x.natAbs + y.natAbs * y.natAbs) * 2 ^ 64 * 2 ^ 64)) := by
  have hxx : x.natAbs * x.natAbs < 2 ^ 52 := by
    have := Nat.mul_lt_mul'' hx hx
    have e : (2 : Nat) ^ 26 * 2 ^ 26 = 2 ^ 52 := by norm_num
    omega
  have hyy : y.natAbs * y.natAbs < 2 ^ 52 := by
    have := Nat.mul_lt_mul'' hy hy
    have e : (2 : Nat) ^ 26 * 2 ^ 26 = 2 ^ 52 := by norm_num
    omega
  have e52 : (2 : Nat) ^ 52 + 2 ^ 52 = 2 ^ 53 := by norm_num
  have hs : x.natAbs * x.natAbs + y.natAbs * y.natAbs < 2 ^ 53 := by omega
  unfold F64.sqrt F64.add
  simp only [F64.powTwo_num x (by omega), F64.powTwo_num y (by omega)]
  have e : x.natAbs * x.natAbs * 2 ^ 64 + y.natAbs * y.natAbs * 2 ^ 64 =
      (x.natAbs * x.natAbs + y.natAbs * y.natAbs) * 2 ^ 64 := by ring
  rw [e, round53_exact _ 64 hs, isqrt_eq_sqrt]

theorem F64.mul_ten_num (d : F64) :
    (F64.mul d (F64.ofNat 10)).num = round53 (d.num * 10) false := by
  unfold F64.mul
  simp only [F64.ofNat_num 10 (by norm_num)]
  have e : d.num * (10 * 2 ^ 64) = d.num * 10 * 2 ^ 64 := by ring
  rw [e, Nat.mul_div_cancel _ (by positivity), Nat.mul_mod_left]
  simp

/-- Within two million units per axis the fare is the integer square root of a hundred
times the squared distance. -/
theorem fare_eq_sqrt (x y : Int) (hx : x.natAbs ≤ 2000000) (hy : y.natAbs ≤ 2000000) :
    (F64.mul (F64.sqrt (F64.add (F64.powTwo x) (F64.powTwo y))) (F64.ofNat 10)).toInt =
      (Nat.sqrt (100 * (x.natAbs * x.natAbs + y.natAbs * y.natAbs)) : Int) := by
  have hN : x.natAbs * x.natAbs + y.natAbs * y.natAbs ≤ 8 * 10 ^ 12 := by
    have h1 := Nat.mul_le_mul hx hx
    have h2 := Nat.mul_le_mul hy hy
    have e : 2000000 * 2000000 + 2000000 * 2000000 = 8 * 10 ^ 12 := by norm_num
    omega
  have e26 : 2000000 < 2 ^ 26 := by norm_num
  have hcore := fare_core _ hN _ rfl
  have hb : Nat.sqrt (100 * (x.natAbs * x.natAbs + y.natAbs * y.natAbs)) < 2 ^ 63 := by
    have h1 := Nat.sqrt_le_self (100 * (x.natAbs * x.natAbs + y.natAbs * y.natAbs))
    have e2 : 100 * (8 * 10 ^ 12) < 2 ^ 63 := by norm_num
    omega
  unfold F64.toInt
  rw [F64.mul_ten_num, hypot_num x y (by omega) (by omega), hcore, if_pos hb]

/-- The fare within two million units per axis stays below `2 ^ 25`. -/
theorem sqrt_fare_lt (a b : Nat) (ha : a ≤ 2000000) (hb : b ≤ 2000000) :
    Nat.sqrt (100 * (a * a + b * b)) < 2 ^ 25 := by
  rw [Nat.sqrt_lt']
  have h1 := Nat.mul_le_mul ha ha
  have h2 := Nat.mul_le_mul hb hb
  have e : 100 * (2000000 * 2000000 + 2000000 * 2000000) < (2 ^ 25) ^ 2 := by norm_num
  omega

/-- Rounding loses less than one part in `2 ^ 53`. -/
theorem round53_ge (X c : Nat) (sticky : Bool) (hc : c ≤ 2 ^ 53) (h : c * 2 ^ 54 ≤ X) :
    (c - 1) * 2 ^ 54 ≤ round53 X sticky := by
  obtain ⟨g, hg1, hg2, -⟩ := round53_error X sticky
  rcases Nat.eq_zero_or_pos c with h0 | h0
  · subst h0; simp
  · obtain ⟨k, rfl⟩ : ∃ k, c = k + 1 := ⟨c - 1, by omega⟩
    simp only [Nat.add_sub_cancel]
    by_contra hcon
    have h1 : round53 X sticky < k * 2 ^ 54 := not_le.1 hcon
    have h2 : (k + 1) * 2 ^ 54 = k * 2 ^ 54 + 2 ^ 54 := by ring
    have h3 : 2 ^ 54 < g := by omega
    have h4 : X < k * 2 ^ 54 + g := by omega
    have h5 : k * 2 ^ 54 < 2 ^ 53 * 2 ^ 54 := by
      apply Nat.mul_lt_mul_of_pos_right _ (by positivity)
      omega
    have h6 : g * 2 ^ 53 < k * 2 ^ 54 + g := by omega
    have h7 : 2 ^ 54 * 2 ^ 53 < g * 2 ^ 53 := Nat.mul_lt_mul_of_pos_right h3 (by positivity)
    have h8 : g * 2 ^ 53 = g + g * (2 ^ 53 - 1) := by
      have : (2 : Nat) ^ 53 = 1 + (2 ^ 53 - 1) := by norm_num
      nth_rewrite 1 [this]; ring
    have h9 : 2 ^ 54 * (2 ^ 53 - 1) < g * (2 ^ 53 - 1) :=
      Nat.mul_lt_mul_of_pos_right h3 (by norm_num)
    have e1 : (2 : Nat) ^ 53 * 2 ^ 54 ≤ 2 ^ 54 * (2 ^ 53 - 1) + 2 ^ 54 := by norm_num
    omega

/-- A difference of six or more along the first axis puts the distance above five. -/
theorem hypot_far_left (x y : Int) (h : 6 ≤ x.natAbs) :
    5 * 2 ^ 64 < (F64.sqrt (F64.add (F64.powTwo x) (F64.powTwo y))).num := by
  -- float64(|x|) is at least 6143 / 1024
  have hA : 6143 * 2 ^ 54 ≤ (F64.ofNat x.natAbs).num := by
    have := round53_ge (x.natAbs * 2 ^ 64) 6144 false (by norm_num) (by
      have e : 6144 * 2 ^ 54 = 6 * 2 ^ 64 := by norm_num
      rw [e]
      exact Nat.mul_le_mul_right _ h)
    simpa [F64.ofNat] using this
  -- its square is at least 36851 / 1024
  have hP : 36851 * 2 ^ 54 ≤ (F64.powTwo x).num := by
    unfold F64.powTwo F64.mul
    simp only
    generalize (F64.ofNat x.natAbs).num = A at hA
    have h2 := Nat.mul_le_mul hA hA
    have := round53_ge (A * A / 2 ^ 64) 36852 (decide (A * A % 2 ^ 64 ≠ 0)) (by norm_num) (by
      rw [Nat.le_div_iff_mul_le (by positivity)]
      have e : 36852 * 2 ^ 54 * 2 ^ 64 ≤ 6143 * 2 ^ 54 * (6143 * 2 ^ 54) := by norm_num
      omega)
    simpa using this
  -- so is the sum
  have hS : 36850 * 2 ^ 54 ≤ (F64.add (F64.powTwo x) (F64.powTwo y)).num := by
    unfold F64.add
    simp only
    have := round53_ge ((F64.powTwo x).num + (F64.powTwo y).num) 36851 false (by norm_num)
      (by omega)
    simpa using this
  generalize (F64.add (F64.powTwo x) (F64.powTwo y)) = s at hS
  unfold F64.sqrt
  simp only [isqrt_eq_sqrt]
  have hQ : 5184 * 2 ^ 54 ≤ Nat.sqrt (s.num * 2 ^ 64) := by
    rw [Nat.le_sqrt]
    have e : 5184 * 2 ^ 54 * (5184 * 2 ^ 54) ≤ 36850 * 2 ^ 54 * 2 ^ 64 := by norm_num
    have := Nat.mul_le_mul_right (2 ^ 64) hS
    omega
  have := round53_ge (Nat.sqrt (s.num * 2 ^ 64)) 5184
    (decide (Nat.sqrt (s.num * 2 ^ 64) * Nat.sqrt (s.num * 2 ^ 64) ≠ s.num * 2 ^ 64))
    (by norm_num) hQ
  have e : 5 * 2 ^ 64 < (5184 - 1) * 2 ^ 54 := by norm_num
  omega

/-- A difference of six or more along the second axis puts the distance above five. -/
theorem hypot_far_right (x y : Int) (h : 6 ≤ y.natAbs) :
    5 * 2 ^ 64 < (F64.sqrt (F64.add (F64.powTwo x) (F64.powTwo y))).num := by
  have := hypot_far_left y x h
  have e : F64.add (F64.powTwo x) (F64.powTwo y) = F64.add (F64.powTwo y) (F64.powTwo x) := by
    simp [F64.add, Nat.add_comm]
  rw [e]
  exact this

/-- Differences of at most five along both axes: the comparison with five is exact. -/
theorem hypot_near (a b : Nat) (ha : a ≤ 5) (hb : b ≤ 5) :
    F64.le (F64.sqrt (F64.add (F64.powTwo (a : Int)) (F64.powTwo (b : Int)))) (F64.ofNat 5) =
      decide (a * a + b * b ≤ 25) := by
  interval_cases a <;> interval_cases b <;> decide

/-- The test of line 126 on the differences the program computes: the float64 distance is
at most five exactly when the sum of the squares is at most 25. -/
theorem hypot_le_five_iff (x y : Int) :
    F64.le (F64.sqrt (F64.add (F64.powTwo x) (F64.powTwo y))) (F64.ofNat 5) = true ↔
      x * x + y * y ≤ 25 := by
  have h5 : (F64.ofNat 5).num = 5 * 2 ^ 64 := F64.ofNat_num 5 (by norm_num)
  have hxx : x * x = ((x.natAbs * x.natAbs : Nat) : Int) := by
    rw [Nat.cast_mul]; exact (Int.natAbs_mul_self' x).symm
  have hyy : y * y = ((y.natAbs * y.natAbs : Nat) : Int) := by
    rw [Nat.cast_mul]; exact (Int.natAbs_mul_self' y).symm
  by_cases hx : 6 ≤ x.natAbs
  · have hf := hypot_far_left x y hx
    have h36 := Nat.mul_le_mul hx hx
    constructor
    · intro hle
      simp only [F64.le, decide_eq_true_eq, h5] at hle
      omega
    · intro hle
      rw [hxx, hyy] at hle
      omega
  by_cases hy : 6 ≤ y.natAbs
  · have hf := hypot_far_right x y hy
    have h36 := Nat.mul_le_mul hy hy
    constructor
    · intro hle
      simp only [F64.le, decide_eq_true_eq, h5] at hle
      omega
    · intro hle
      rw [hxx, hyy] at hle
      omega
  have hn := hypot_near x.natAbs y.natAbs (by omega) (by omega)
  have ex : F64.powTwo (x.natAbs : Int) = F64.powTwo x := by
    unfold F64.powTwo; rw [Int.natAbs_ofNat]
  have ey : F64.powTwo (y.natAbs : Int) = F64.powTwo y := by
    unfold F64.powTwo; rw [Int.natAbs_ofNat]
  rw [ex, ey] at hn
  rw [hn, hxx, hyy]
  simp only [decide_eq_true_eq]
  omega


/-! ## Claiming a driver and processing one request -/

theorem ChooseRide_started_iff (app : CabBookingApplication) (u n : String) :
    ChooseRide app u n = "Ride started" ↔
      ∃ d, Map.get n app.Drivers = some d ∧ d.Status = true := by
  unfold ChooseRide
  cases hg : Map.get n app.Drivers with
  | none => simp
  | some d =>
    cases hs : d.Status with
    | true => simp [hs]
    | false => simp [hs]

theorem processRide_started (app : CabBookingApplication) (r : RideRequest) (d : Driver)
    (hreg : Map.get r.DriverName app.Drivers = some d) (hav : d.Status = true) :
    processRide app r = .returned
      { app with
        Drivers :=
          Map.set r.DriverName
            (settle d (CalculateBill app r.Username r.Source r.Destination) r.Destination)
            app.Drivers } := by
  have hc : ChooseRide app r.Username r.DriverName = "Ride started" :=
    (ChooseRide_started_iff app _ _).2 ⟨d, hreg, hav⟩
  simp only [processRide, hc, if_true, hreg, UpdateDriverLocation, ChangeDriverStatus,
    Map.get_set_same, Map.set_set, settle]

theorem processRide_dropped (app : CabBookingApplication) (r : RideRequest)
    (h : ∀ d, Map.get r.DriverName app.Drivers = some d → d.Status = false) :
    processRide app r = .returned app := by
  have hc : ChooseRide app r.Username r.DriverName ≠ "Ride started" := by
    intro hc
    obtain ⟨d, hd, hs⟩ := (ChooseRide_started_iff app _ _).1 hc
    rw [h d hd] at hs
    exact Bool.noConfusion hs
  simp [processRide, hc]

theorem signalEvent_returned (app : CabBookingApplication) :
    signalEvent (.returned app) =
      if 0 < app.Event.recvq then
        .returned { app with Event := { app.Event with recvq := app.Event.recvq - 1 } }
      else .blocked { app with Event := { app.Event with sendq := app.Event.sendq + 1 } } := by
  unfold signalEvent SyncChan.send
  by_cases h : 0 < app.Event.recvq
  · simp [h]
  · simp [h]

/-- C1. When the request names a registered driver whose `Status` is true,
`ProcessRideRequest` leaves a state in which that driver has earned the fare
`CalculateBill(r.Source, r.Destination)` on top of the old earnings (the sum of line 190,
an `int`; it is the plain sum whenever that fits the `int` range), stands at the ride's
destination and is unavailable, with all other fields of the record kept; every other
driver record, the set of driver keys and every rider record are unchanged, and so are the
queue and the `Running` flag.  The call does not panic: it returns when a receiver is
parked on `Event` and otherwise parks at the deferred send, after the updates. -/
theorem ProcessRideRequest_started (app : CabBookingApplication) (r : RideRequest) (d : Driver)
    (hreg : Map.get r.DriverName app.Drivers = some d) (hav : d.Status = true) :
    ∃ app1 : CabBookingApplication,
      (ProcessRideRequest app r = .returned app1 ∨ ProcessRideRequest app r = .blocked app1) ∧
      (0 < app.Event.recvq → ProcessRideRequest app r = .returned app1) ∧
      Map.get r.DriverName app1.Drivers =
        some { d with
          Earning := wrapInt64 (d.Earning + CalculateBill app r.Username r.Source r.Destination),
          Location := r.Destination,
          Status := false } ∧
      (-2 ^ 63 ≤ d.Earning + CalculateBill app r.Username r.Source r.Destination →
        d.Earning + CalculateBill app r.Username r.Source r.Destination < 2 ^ 63 →
        Map.get r.DriverName app1.Drivers =
          some { d with
            Earning := d.Earning + CalculateBill app r.Username r.Source r.Destination,
            Location := r.Destination,
            Status := false }) ∧
      (∀ k, k ≠ r.DriverName → Map.get k app1.Drivers = Map.get k app.Drivers) ∧
      Map.keys app1.Drivers = Map.keys app.Drivers ∧
      app1.Users = app.Users ∧
      app1.RideRequestQueue = app.RideRequestQueue ∧
      app1.Running = app.Running := by
  have hp := processRide_started app r d hreg hav
  unfold ProcessRideRequest
  rw [hp, signalEvent_returned]
  by_cases hq : 0 < app.Event.recvq
  · simp only [hq, if_true]
    refine ⟨_, Or.inl rfl, fun _ => rfl, ?_, ?_, ?_, ?_, rfl, rfl, rfl⟩
    · simp [Map.get_set_same, settle]
    · intro h1 h2
      simp [Map.get_set_same, settle, wrapInt64_eq _ h1 h2]
    · intro k hk
      exact Map.get_set_ne _ _ _ _ hk
    · exact Map.keys_set_of_get _ _ _ _ hreg
  · simp only [hq, if_false]
    refine ⟨_, Or.inr rfl, fun h => h.elim, ?_, ?_, ?_, ?_, rfl, rfl, rfl⟩
    · simp [Map.get_set_same, settle]
    · intro h1 h2
      simp [Map.get_set_same, settle, wrapInt64_eq _ h1 h2]
    · intro k hk
      exact Map.get_set_ne _ _ _ _ hk
    · exact Map.keys_set_of_get _ _ _ _ hreg

/-- C2. When the request names no registered driver, or a registered driver whose `Status`
is false, `ProcessRideRequest` drops it: the driver directory and the rider directory are
exactly as before (so no earnings, location or status changed), and so are the queue and
the `Running` flag.  The call does not panic. -/
theorem ProcessRideRequest_dropped (app : CabBookingApplication) (r : RideRequest)
    (h : Map.get r.DriverName app.Drivers = none ∨
      ∃ d, Map.get r.DriverName app.Drivers = some d ∧ d.Status = false) :
    ∃ app1 : CabBookingApplication,
      (ProcessRideRequest app r = .returned app1 ∨ ProcessRideRequest app r = .blocked app1) ∧
      app1.Drivers = app.Drivers ∧
      app1.Users = app.Users ∧
      app1.RideRequestQueue = app.RideRequestQueue ∧
      app1.Running = app.Running := by
  have hd : ∀ d, Map.get r.DriverName app.Drivers = some d → d.Status = false := by
    intro d hd
    rcases h with h | ⟨e, he, hs⟩
    · rw [h] at hd
      exact Option.noConfusion hd
    · rw [he] at hd
      cases hd
      exact hs
  unfold ProcessRideRequest
  rw [processRide_dropped app r hd, signalEvent_returned]
  by_cases hq : 0 < app.Event.recvq
  · simp only [hq, if_true]
    exact ⟨_, Or.inl rfl, rfl, rfl, rfl, rfl⟩
  · simp only [hq, if_false]
    exact ⟨_, Or.inr rfl, rfl, rfl, rfl, rfl⟩

theorem ProcessRideRequest_started_witness :
    Map.get sampleRequest.DriverName sampleApp.Drivers = some driver1 ∧ driver1.Status = true ∧
    ∃ app1 : CabBookingApplication,
      (ProcessRideRequest sampleApp sampleRequest = .returned app1 ∨
        ProcessRideRequest sampleApp sampleRequest = .blocked app1) ∧
      (0 < sampleApp.Event.recvq → ProcessRideRequest sampleApp sampleRequest = .returned app1) ∧
      Map.get sampleRequest.DriverName app1.Drivers =
        some { driver1 with
          Earning := wrapInt64 (driver1.Earning +
            CalculateBill sampleApp sampleRequest.Username sampleRequest.Source
              sampleRequest.Destination),
          Location := sampleRequest.Destination,
          Status := false } ∧
      (-2 ^ 63 ≤ driver1.Earning + CalculateBill sampleApp sampleRequest.Username
          sampleRequest.Source sampleRequest.Destination →
        driver1.Earning + CalculateBill sampleApp sampleRequest.Username
          sampleRequest.Source sampleRequest.Destination < 2 ^ 63 →
        Map.get sampleRequest.DriverName app1.Drivers =
          some { driver1 with
            Earning := driver1.Earning +
              CalculateBill sampleApp sampleRequest.Username sampleRequest.Source
                sampleRequest.Destination,
            Location := sampleRequest.Destination,
            Status := false }) ∧
      (∀ k, k ≠ sampleRequest.DriverName →
        Map.get k app1.Drivers = Map.get k sampleApp.Drivers) ∧
      Map.keys app1.Drivers = Map.keys sampleApp.Drivers ∧
      app1.Users = sampleApp.Users ∧
      app1.RideRequestQueue = sampleApp.RideRequestQueue ∧
      app1.Running = sampleApp.Running :=
  ⟨by decide, by decide,
    ProcessRideRequest_started sampleApp sampleRequest driver1 (by decide) (by decide)⟩

theorem ProcessRideRequest_dropped_witness :
    (Map.get strayRequest.DriverName sampleApp.Drivers = none ∨
      ∃ d, Map.get strayRequest.DriverName sampleApp.Drivers = some d ∧ d.Status = false) ∧
    ∃ app1 : CabBookingApplication,
      (ProcessRideRequest sampleApp strayRequest = .returned app1 ∨
        ProcessRideRequest sampleApp strayRequest = .blocked app1) ∧
      app1.Drivers = sampleApp.Drivers ∧
      app1.Users = sampleApp.Users ∧
      app1.RideRequestQueue = sampleApp.RideRequestQueue ∧
      app1.Running = sampleApp.Running :=
  ⟨Or.inl (by decide), ProcessRideRequest_dropped sampleApp strayRequest (Or.inl (by decide))⟩

/-! ## What each operation does to one driver record -/

theorem Map.get_set {V : Type} (k j : String) (v : V) (m : List (String × V)) :
    Map.get j (Map.set k v m) = if k = j then some v else Map.get j m := by
  by_cases h : k = j
  · subst h
    simp [Map.get_set_same]
  · simp [h, Map.get_set_ne k j v m (Ne.symm h)]

theorem signalEvent_state (o : Outcome CabBookingApplication) :
    (signalEvent o).state.Drivers = o.state.Drivers ∧
    (signalEvent o).state.Users = o.state.Users ∧
    (signalEvent o).state.RideRequestQueue = o.state.RideRequestQueue ∧
    (signalEvent o).state.Running = o.state.Running := by
  cases o with
  | returned app =>
    unfold signalEvent SyncChan.send
    by_cases h : 0 < app.Event.recvq <;> simp [h, Outcome.state]
  | blocked app => simp [signalEvent, Outcome.state]
  | panicked app =>
    unfold signalEvent SyncChan.send
    by_cases h : 0 < app.Event.recvq <;> simp [h, Outcome.state]

theorem UpdateDriverLocation_get (app : CabBookingApplication) (m n : String) (loc : Point) :
    Map.get n (UpdateDriverLocation app m loc).Drivers =
      if m = n then (Map.get n app.Drivers).map fun d => { d with Location := loc }
      else Map.get n app.Drivers := by
  unfold UpdateDriverLocation
  by_cases h : m = n
  · subst h
    cases hg : Map.get m app.Drivers with
    | none => simp [hg]
    | some d => simp [Map.get_set_same]
  · cases hg : Map.get m app.Drivers with
    | none => simp [h]
    | some d => simp [h, Map.get_set]

theorem ChangeDriverStatus_get (app : CabBookingApplication) (m n : String) (st : Bool) :
    Map.get n (ChangeDriverStatus app m st).Drivers =
      if m = n then (Map.get n app.Drivers).map fun d => { d with Status := st }
      else Map.get n app.Drivers := by
  unfold ChangeDriverStatus
  by_cases h : m = n
  · subst h
    cases hg : Map.get m app.Drivers with
    | none => simp [hg]
    | some d => simp [Map.get_set_same]
  · cases hg : Map.get m app.Drivers with
    | none => simp [h]
    | some d => simp [h, Map.get_set]

theorem RequestRide_state (app : CabBookingApplication) (u : String) (s t : Point) :
    (RequestRide app u s t).state.Drivers = app.Drivers ∧
    (RequestRide app u s t).state.Users = app.Users ∧
    (RequestRide app u s t).state.Running = app.Running ∧
    (RequestRide app u s t).state.Event = app.Event := by
  unfold RequestRide
  cases hf : FindRide app u s t with
  | none => simp [Outcome.state]
  | some rides =>
    cases hh : rides.head? with
    | none => simp [hh, Outcome.state]
    | some driver =>
      simp only [Chan.send]
      by_cases hc : app.RideRequestQueue.closed = true
      · simp [hh, hc, Outcome.state]
      · by_cases hl : app.RideRequestQueue.buf.length < app.RideRequestQueue.cap
        · simp [hh, hc, hl, Outcome.state]
        · simp [hh, hc, hl, Outcome.state]

theorem processRide_state_Users (app : CabBookingApplication) (r : RideRequest) :
    (processRide app r).state.Users = app.Users := by
  unfold processRide
  by_cases hc : ChooseRide app r.Username r.DriverName = "Ride started"
  · obtain ⟨d, hd, -⟩ := (ChooseRide_started_iff app _ _).1 hc
    simp [hc, hd, Outcome.state, UpdateDriverLocation, ChangeDriverStatus, Map.get_set_same]
  · simp [hc, Outcome.state]

/-- The record of driver `n` after one request has been processed. -/
theorem ProcessRideRequest_get (app : CabBookingApplication) (r : RideRequest) (n : String) :
    Map.get n (ProcessRideRequest app r).state.Drivers =
      if r.DriverName = n then
        (Map.get n app.Drivers).map fun d =>
          if d.Status then
            settle d (CalculateBill app r.Username r.Source r.Destination) r.Destination
          else d
      else Map.get n app.Drivers := by
  unfold ProcessRideRequest
  rw [(signalEvent_state _).1]
  cases hg : Map.get r.DriverName app.Drivers with
  | none =>
    rw [processRide_dropped app r (by intro d hd; rw [hg] at hd; exact Option.noConfusion hd)]
    by_cases h : r.DriverName = n
    · subst h
      simp [Outcome.state, hg]
    · simp [Outcome.state, h]
  | some d =>
    cases hs : d.Status with
    | true =>
      rw [processRide_started app r d hg hs]
      by_cases h : r.DriverName = n
      · subst h
        simp [Outcome.state, hg, hs, Map.get_set_same]
      · simp [Outcome.state, h, Map.get_set]
    | false =>
      rw [processRide_dropped app r (by intro e he; rw [hg] at he; cases he; exact hs)]
      by_cases h : r.DriverName = n
      · subst h
        simp [Outcome.state, hg, hs]
      · simp [Outcome.state, h]

theorem ProcessRideRequest_state_Users (app : CabBookingApplication) (r : RideRequest) :
    (ProcessRideRequest app r).state.Users = app.Users := by
  unfold ProcessRideRequest
  rw [(signalEvent_state _).2.1, processRide_state_Users]

theorem ProcessRideRequest_state_frame (app : CabBookingApplication) (r : RideRequest) :
    (ProcessRideRequest app r).state.RideRequestQueue = app.RideRequestQueue ∧
    (ProcessRideRequest app r).state.Running = app.Running := by
  unfold ProcessRideRequest
  rw [(signalEvent_state _).2.2.1, (signalEvent_state _).2.2.2]
  unfold processRide
  by_cases hc : ChooseRide app r.Username r.DriverName = "Ride started"
  · obtain ⟨d, hd, -⟩ := (ChooseRide_started_iff app _ _).1 hc
    simp [hc, hd, Outcome.state, UpdateDriverLocation, ChangeDriverStatus, Map.get_set_same]
  · simp [hc, Outcome.state]

theorem AddDriver_get (sc : Scanner) (app : CabBookingApplication) (dd vd : String) (loc : Point)
    (n : String) (h : (sc.person dd).1 ≠ n) :
    Map.get n (AddDriver sc app dd vd loc).Drivers = Map.get n app.Drivers := by
  simp [AddDriver, Map.get_set, h]

/-! ## No double claim -/

theorem ProcessRideRequest_state_Drivers_dropped (app : CabBookingApplication) (r : RideRequest)
    (h : ∀ d, Map.get r.DriverName app.Drivers = some d → d.Status = false) :
    (ProcessRideRequest app r).state.Drivers = app.Drivers := by
  unfold ProcessRideRequest
  rw [(signalEvent_state _).1, processRide_dropped app r h]
  rfl

/-- A busy driver stays busy, with the same earnings, under every operation that does not
reactivate it. -/
theorem busy_step (sc : Scanner) (app : CabBookingApplication) (op : Op) (n : String) (d : Driver)
    (hreg : Map.get n app.Drivers = some d) (hbusy : d.Status = false)
    (hop : reactivates sc n op = false) :
    ∃ e, Map.get n (Op.apply sc app op).Drivers = some e ∧ e.Status = false ∧
      e.Earning = d.Earning := by
  cases op with
  | addUser dd => exact ⟨d, by simpa [Op.apply, AddUser] using hreg, hbusy, rfl⟩
  | updateUserLocation u l =>
    refine ⟨d, ?_, hbusy, rfl⟩
    simp only [Op.apply, UpdateUserLocation]
    cases Map.get u app.Users <;> simpa using hreg
  | addDriver dd vd l =>
    have hne : (sc.person dd).1 ≠ n := by simpa [reactivates] using hop
    exact ⟨d, by simpa [Op.apply, AddDriver_get sc app dd vd l n hne] using hreg, hbusy, rfl⟩
  | updateDriverLocation m l =>
    simp only [Op.apply, UpdateDriverLocation_get, hreg]
    by_cases h : m = n
    · exact ⟨{ d with Location := l }, by simp [h], hbusy, rfl⟩
    · exact ⟨d, by simp [h], hbusy, rfl⟩
  | changeDriverStatus m st =>
    simp only [Op.apply, ChangeDriverStatus_get, hreg]
    by_cases h : m = n
    · have hst : st = false := by
        cases st with
        | false => rfl
        | true => simp [reactivates, h] at hop
      exact ⟨{ d with Status := st }, by simp [h], hst, rfl⟩
    · exact ⟨d, by simp [h], hbusy, rfl⟩
  | findRide u s t => exact ⟨d, hreg, hbusy, rfl⟩
  | requestRide u s t =>
    exact ⟨d, by simpa [Op.apply, (RequestRide_state app u s t).1] using hreg, hbusy, rfl⟩
  | processRideRequest r =>
    refine ⟨d, ?_, hbusy, rfl⟩
    simp only [Op.apply, ProcessRideRequest_get, hreg]
    by_cases h : r.DriverName = n <;> simp [h, hbusy]
  | await => exact ⟨d, hreg, hbusy, rfl⟩

theorem busy_execOps (sc : Scanner) (ops : List Op) (app : CabBookingApplication) (n : String)
    (d : Driver) (hreg : Map.get n app.Drivers = some d) (hbusy : d.Status = false)
    (hops : ∀ op ∈ ops, reactivates sc n op = false) :
    ∃ e, Map.get n (execOps sc app ops).Drivers = some e ∧ e.Status = false ∧
      e.Earning = d.Earning := by
  induction ops generalizing app d with
  | nil => exact ⟨d, hreg, hbusy, rfl⟩
  | cons op rest ih =>
    obtain ⟨e, he, hs, hearn⟩ :=
      busy_step sc app op n d hreg hbusy (hops op (List.mem_cons_self _ _))
    obtain ⟨f, hf, hfs, hfe⟩ :=
      ih (Op.apply sc app op) e he hs (fun o ho => hops o (List.mem_cons_of_mem _ ho))
    exact ⟨f, by simpa [execOps] using hf, hfs, hfe.trans hearn⟩

/-- C3. No double claim.  Let driver `d` be registered and available, let `r1` and `r2`
both name `d`, and let `ops` be any operations run between the two that contain neither
`ChangeDriverStatus(d, true)` nor an `AddDriver` for `d`.  Processing `r1`, then `ops`,
then `r2` starts exactly one ride: `r1` is claimed (`ChooseRide` says "Ride started"),
`r2` finds the driver unavailable and leaves the driver directory, the rider directory
and the queue as they were, and at the end `d` has earned the fare of `r1` and nothing else
(the `int` sum of line 190, which is the plain sum whenever that fits the `int` range). -/
theorem no_double_claim (sc : Scanner) (app : CabBookingApplication) (r1 r2 : RideRequest)
    (d : Driver) (ops : List Op)
    (hreg : Map.get r1.DriverName app.Drivers = some d) (hav : d.Status = true)
    (hsame : r2.DriverName = r1.DriverName)
    (hops : ∀ op ∈ ops, reactivates sc r1.DriverName op = false) :
    ChooseRide app r1.Username r1.DriverName = "Ride started" ∧
    ChooseRide (execOps sc (ProcessRideRequest app r1).state ops) r2.Username r2.DriverName =
      "Driver is not available" ∧
    (ProcessRideRequest (execOps sc (ProcessRideRequest app r1).state ops) r2).state.Drivers =
      (execOps sc (ProcessRideRequest app r1).state ops).Drivers ∧
    (ProcessRideRequest (execOps sc (ProcessRideRequest app r1).state ops) r2).state.Users =
      (execOps sc (ProcessRideRequest app r1).state ops).Users ∧
    (ProcessRideRequest (execOps sc (ProcessRideRequest app r1).state ops) r2).state.RideRequestQueue
      = (execOps sc (ProcessRideRequest app r1).state ops).RideRequestQueue ∧
    ∃ e,
      Map.get r1.DriverName
        (ProcessRideRequest (execOps sc (ProcessRideRequest app r1).state ops) r2).state.Drivers =
          some e ∧
      e.Status = false ∧
      e.Earning = wrapInt64 (d.Earning + CalculateBill app r1.Username r1.Source r1.Destination) ∧
      (-2 ^ 63 ≤ d.Earning + CalculateBill app r1.Username r1.Source r1.Destination →
        d.Earning + CalculateBill app r1.Username r1.Source r1.Destination < 2 ^ 63 →
        e.Earning = d.Earning + CalculateBill app r1.Username r1.Source r1.Destination) := by
  have h1 : Map.get r1.DriverName (ProcessRideRequest app r1).state.Drivers =
      some (settle d (CalculateBill app r1.Username r1.Source r1.Destination) r1.Destination) := by
    simp [ProcessRideRequest_get, hreg, hav]
  obtain ⟨e, he, hes, hee⟩ :=
    busy_execOps sc ops (ProcessRideRequest app r1).state r1.DriverName _ h1 rfl hops
  have hD := ProcessRideRequest_state_Drivers_dropped
    (execOps sc (ProcessRideRequest app r1).state ops) r2
    (by intro f hf; rw [hsame, he] at hf; cases hf; exact hes)
  refine ⟨(ChooseRide_started_iff app _ _).2 ⟨d, hreg, hav⟩, ?_, hD,
    ProcessRideRequest_state_Users _ _, (ProcessRideRequest_state_frame _ _).1, e, ?_, hes, ?_,
    ?_⟩
  · simp [ChooseRide, hsame, he, hes]
  · rw [hD]; exact he
  · rw [hee]; rfl
  · intro h1 h2
    rw [hee]
    exact wrapInt64_eq _ h1 h2

theorem no_double_claim_witness :
    Map.get sampleRequest.DriverName sampleApp.Drivers = some driver1 ∧
    driver1.Status = true ∧
    secondRequest.DriverName = sampleRequest.DriverName ∧
    (∀ op ∈ sampleOps, reactivates sampleScanner sampleRequest.DriverName op = false) ∧
    ChooseRide sampleApp sampleRequest.Username sampleRequest.DriverName = "Ride started" ∧
    ChooseRide (execOps sampleScanner (ProcessRideRequest sampleApp sampleRequest).state sampleOps)
        secondRequest.Username secondRequest.DriverName =
      "Driver is not available" ∧
    (ProcessRideRequest
        (execOps sampleScanner (ProcessRideRequest sampleApp sampleRequest).state sampleOps)
        secondRequest).state.Drivers =
      (execOps sampleScanner (ProcessRideRequest sampleApp sampleRequest).state sampleOps).Drivers ∧
    (ProcessRideRequest
        (execOps sampleScanner (ProcessRideRequest sampleApp sampleRequest).state sampleOps)
        secondRequest).state.Users =
      (execOps sampleScanner (ProcessRideRequest sampleApp sampleRequest).state sampleOps).Users ∧
    (ProcessRideRequest
        (execOps sampleScanner (ProcessRideRequest sampleApp sampleRequest).state sampleOps)
        secondRequest).state.RideRequestQueue =
      (execOps sampleScanner (ProcessRideRequest sampleApp sampleRequest).state
        sampleOps).RideRequestQueue ∧
    ∃ e,
      Map.get sampleRequest.DriverName
        (ProcessRideRequest
          (execOps sampleScanner (ProcessRideRequest sampleApp sampleRequest).state sampleOps)
          secondRequest).state.Drivers = some e ∧
      e.Status = false ∧
      e.Earning = wrapInt64 (driver1.Earning +
        CalculateBill sampleApp sampleRequest.Username sampleRequest.Source
          sampleRequest.Destination) ∧
      (-2 ^ 63 ≤ driver1.Earning + CalculateBill sampleApp sampleRequest.Username
          sampleRequest.Source sampleRequest.Destination →
        driver1.Earning + CalculateBill sampleApp sampleRequest.Username
          sampleRequest.Source sampleRequest.Destination < 2 ^ 63 →
        e.Earning = driver1.Earning +
          CalculateBill sampleApp sampleRequest.Username sampleRequest.Source
            sampleRequest.Destination) :=
  ⟨by decide, by decide, by decide, by decide,
    no_double_claim sampleScanner sampleApp sampleRequest secondRequest driver1 sampleOps
      (by decide) (by decide) (by decide) (by decide)⟩

/-! ## Geometry: the float64 distance against the reals -/

/-- The test of line 126 in terms of the coordinate differences as the program computes
them, in `int`. -/
theorem calculateDistance_le_five_iff (a b : Point) :
    F64.le (calculateDistance a b) (F64.ofNat 5) = true ↔
      wrapInt64 (b.1 - a.1) * wrapInt64 (b.1 - a.1) +
        wrapInt64 (b.2 - a.2) * wrapInt64 (b.2 - a.2) ≤ 25 :=
  hypot_le_five_iff _ _

/-- The comparison on radicands is the comparison of the real square root. -/
theorem real_sqrt_le_iff (n : ℤ) (k : Nat) : Real.sqrt (n : ℝ) ≤ (k : ℝ) ↔ n ≤ (k : ℤ) ^ 2 := by
  rw [Real.sqrt_le_left (by positivity)]
  exact_mod_cast Iff.rfl

/-- Truncating `k * √n` gives the integer square root of `k * k * n`. -/
theorem floor_mul_sqrt (n k : Nat) :
    ⌊(k : ℝ) * Real.sqrt (n : ℝ)⌋ = (Nat.sqrt (k * k * n) : ℤ) := by
  have hk : (k : ℝ) * Real.sqrt (n : ℝ) = Real.sqrt ((k * k * n : ℕ) : ℝ) := by
    push_cast
    rw [Real.sqrt_mul (by positivity), Real.sqrt_mul_self (by positivity)]
  rw [hk, Int.floor_eq_iff]
  constructor
  · rw [Real.le_sqrt (by positivity) (by positivity)]
    exact_mod_cast Nat.sqrt_le' (k * k * n)
  · rw [Real.sqrt_lt' (by positivity)]
    exact_mod_cast Nat.lt_succ_sqrt' (k * k * n)

/-- The squared distance as a natural number. -/
theorem sq_natAbs (x y : Int) :
    ((x.natAbs * x.natAbs + y.natAbs * y.natAbs : Nat) : Int) = x ^ 2 + y ^ 2 := by
  push_cast
  rw [abs_mul_abs_self, abs_mul_abs_self]
  ring

/-! ## Matching -/

/-- The candidates of `FindRide`, as the entries of the driver directory that pass the
test of line 126. -/
theorem FindRide_mem (app : CabBookingApplication) (u : String) (user : User) (s t : Point)
    (hu : Map.get u app.Users = some user) (drv : Driver) :
    drv ∈ (FindRide app u s t).getD [] ↔
      (∃ k, (k, drv) ∈ app.Drivers) ∧ drv.Status = true ∧
        F64.le (calculateDistance drv.Location user.Location) (F64.ofNat 5) = true := by
  unfold FindRide
  simp only [hu]
  split
  · simp only [Option.getD_some, List.mem_map, List.mem_filter, Bool.and_eq_true]
    constructor
    · rintro ⟨⟨k, d⟩, ⟨hmem, hs, hd⟩, rfl⟩
      exact ⟨⟨k, hmem⟩, hs, hd⟩
    · rintro ⟨⟨k, hmem⟩, hs, hd⟩
      exact ⟨(k, drv), ⟨hmem, hs, hd⟩, rfl⟩
  · rename_i hlen
    simp only [Option.getD_none, List.not_mem_nil, false_iff]
    rintro ⟨⟨k, hmem⟩, hs, hd⟩
    apply hlen
    apply List.length_pos_of_mem (a := drv)
    simp only [List.mem_map, List.mem_filter, Bool.and_eq_true]
    exact ⟨(k, drv), ⟨hmem, hs, hd⟩, rfl⟩

/-- C4, as stated, fails: with the rider at `(-2^63, 0)` and an available driver at
`(2^63 - 1, 0)` the subtraction of line 143 wraps round to `1`, so `FindRide` returns the
driver, whose squared distance from the rider is `(2^64 - 1)^2` and not at most 25. -/
theorem FindRide_wraps :
    Map.get "Thu" farApp.Users = some farRider ∧
    FindRide farApp "Thu" (0, 0) (0, 0) = some [farDriver] ∧
    (farRider.Location.1 - farDriver.Location.1) * (farRider.Location.1 - farDriver.Location.1) +
      (farRider.Location.2 - farDriver.Location.2) * (farRider.Location.2 - farDriver.Location.2) =
      (2 ^ 64 - 1) ^ 2 ∧
    ¬ ((farRider.Location.1 - farDriver.Location.1) *
        (farRider.Location.1 - farDriver.Location.1) +
      (farRider.Location.2 - farDriver.Location.2) *
        (farRider.Location.2 - farDriver.Location.2) ≤ 25) := by
  refine ⟨by decide, by decide, by decide, by decide⟩

/-- C4, amended. For a registered rider `u` with stored record `user`, the candidates
returned by `FindRide(u, source, destination)` are, as a set, exactly the registered
drivers whose `Status` is true and for which `dx * dx + dy * dy ≤ 25`, where `dx` and `dy`
are the coordinate differences from `user.Location` as the program computes them, in
`int`.  For a driver whose differences fit the `int` range these are the true differences,
and the test is the same as Euclidean distance at most 5 over the reals, boundary
included.  The result is the same for all `source` and `destination` arguments. -/
theorem FindRide_spec (app : CabBookingApplication) (u : String) (user : User) (s t : Point)
    (hwf : Map.WF app.Drivers) (hu : Map.get u app.Users = some user) :
    (∀ drv : Driver, drv ∈ (FindRide app u s t).getD [] ↔
      (∃ k, Map.get k app.Drivers = some drv) ∧ drv.Status = true ∧
        wrapInt64 (user.Location.1 - drv.Location.1) *
            wrapInt64 (user.Location.1 - drv.Location.1) +
          wrapInt64 (user.Location.2 - drv.Location.2) *
            wrapInt64 (user.Location.2 - drv.Location.2) ≤ 25) ∧
    (∀ drv : Driver,
      -2 ^ 63 ≤ user.Location.1 - drv.Location.1 → user.Location.1 - drv.Location.1 < 2 ^ 63 →
      -2 ^ 63 ≤ user.Location.2 - drv.Location.2 → user.Location.2 - drv.Location.2 < 2 ^ 63 →
      (drv ∈ (FindRide app u s t).getD [] ↔
        (∃ k, Map.get k app.Drivers = some drv) ∧ drv.Status = true ∧
          (user.Location.1 - drv.Location.1) * (user.Location.1 - drv.Location.1) +
            (user.Location.2 - drv.Location.2) * (user.Location.2 - drv.Location.2) ≤ 25) ∧
      (drv ∈ (FindRide app u s t).getD [] ↔
        (∃ k, Map.get k app.Drivers = some drv) ∧ drv.Status = true ∧
          Real.sqrt
            (((user.Location.1 - drv.Location.1) ^ 2 +
              (user.Location.2 - drv.Location.2) ^ 2 : ℤ) : ℝ) ≤ 5)) ∧
    (∀ s1 t1 : Point, FindRide app u s1 t1 = FindRide app u s t) := by
  have hmem : ∀ drv : Driver, drv ∈ (FindRide app u s t).getD [] ↔
      (∃ k, Map.get k app.Drivers = some drv) ∧ drv.Status = true ∧
        wrapInt64 (user.Location.1 - drv.Location.1) *
            wrapInt64 (user.Location.1 - drv.Location.1) +
          wrapInt64 (user.Location.2 - drv.Location.2) *
            wrapInt64 (user.Location.2 - drv.Location.2) ≤ 25 := by
    intro drv
    rw [FindRide_mem app u user s t hu drv, calculateDistance_le_five_iff]
    have hk : (∃ k, (k, drv) ∈ app.Drivers) ↔ ∃ k, Map.get k app.Drivers = some drv :=
      exists_congr fun k => (Map.get_eq_some_iff k drv app.Drivers hwf).symm
    rw [hk]
  refine ⟨hmem, ?_, fun _ _ => rfl⟩
  intro drv hx1 hx2 hy1 hy2
  have hint := hmem drv
  rw [wrapInt64_eq _ hx1 hx2, wrapInt64_eq _ hy1 hy2] at hint
  refine ⟨hint, ?_⟩
  rw [hint]
  have h := real_sqrt_le_iff
    ((user.Location.1 - drv.Location.1) ^ 2 + (user.Location.2 - drv.Location.2) ^ 2) 5
  have h25 : (user.Location.1 - drv.Location.1) * (user.Location.1 - drv.Location.1) +
      (user.Location.2 - drv.Location.2) * (user.Location.2 - drv.Location.2) ≤ 25 ↔
      Real.sqrt
        (((user.Location.1 - drv.Location.1) ^ 2 + (user.Location.2 - drv.Location.2) ^ 2 : ℤ) : ℝ)
        ≤ 5 := by
    rw [← sq, ← sq]
    constructor
    · intro h25
      have := h.2 (by norm_num; exact h25)
      simpa using this
    · intro hr
      have := h.1 (by simpa using hr)
      norm_num at this
      exact this
  rw [h25]

theorem FindRide_spec_witness :
    Map.WF sampleApp.Drivers ∧ Map.get "Thu" sampleApp.Users = some rider1 ∧
    (∀ drv : Driver, drv ∈ (FindRide sampleApp "Thu" (10, 0) (15, 3)).getD [] ↔
      (∃ k, Map.get k sampleApp.Drivers = some drv) ∧ drv.Status = true ∧
        wrapInt64 (rider1.Location.1 - drv.Location.1) *
            wrapInt64 (rider1.Location.1 - drv.Location.1) +
          wrapInt64 (rider1.Location.2 - drv.Location.2) *
            wrapInt64 (rider1.Location.2 - drv.Location.2) ≤ 25) ∧
    (∀ drv : Driver,
      -2 ^ 63 ≤ rider1.Location.1 - drv.Location.1 → rider1.Location.1 - drv.Location.1 < 2 ^ 63 →
      -2 ^ 63 ≤ rider1.Location.2 - drv.Location.2 → rider1.Location.2 - drv.Location.2 < 2 ^ 63 →
      (drv ∈ (FindRide sampleApp "Thu" (10, 0) (15, 3)).getD [] ↔
        (∃ k, Map.get k sampleApp.Drivers = some drv) ∧ drv.Status = true ∧
          (rider1.Location.1 - drv.Location.1) * (rider1.Location.1 - drv.Location.1) +
            (rider1.Location.2 - drv.Location.2) * (rider1.Location.2 - drv.Location.2) ≤ 25) ∧
      (drv ∈ (FindRide sampleApp "Thu" (10, 0) (15, 3)).getD [] ↔
        (∃ k, Map.get k sampleApp.Drivers = some drv) ∧ drv.Status = true ∧
          Real.sqrt
            (((rider1.Location.1 - drv.Location.1) ^ 2 +
              (rider1.Location.2 - drv.Location.2) ^ 2 : ℤ) : ℝ) ≤ 5)) ∧
    (∀ s1 t1 : Point, FindRide sampleApp "Thu" s1 t1 = FindRide sampleApp "Thu" (10, 0) (15, 3)) :=
  ⟨by unfold Map.WF Map.keys; decide, by decide,
    FindRide_spec sampleApp "Thu" rider1 (10, 0) (15, 3) (by unfold Map.WF Map.keys; decide)
      (by decide)⟩

example : FindRide sampleApp "Thu" (10, 0) (15, 3) = some [driver1] := by decide

/-! ## Fares -/

/-- Within two million units per axis the subtractions of line 143 do not wrap and the
bill is the integer square root of a hundred times the squared distance. -/
theorem CalculateBill_eq (app : CabBookingApplication) (u : String) (s t : Point)
    (hx : |t.1 - s.1| ≤ 2000000) (hy : |t.2 - s.2| ≤ 2000000) :
    CalculateBill app u s t =
      (Nat.sqrt (100 * ((t.1 - s.1).natAbs * (t.1 - s.1).natAbs +
        (t.2 - s.2).natAbs * (t.2 - s.2).natAbs)) : ℤ) := by
  have hx1 := abs_le.1 hx
  have hy1 := abs_le.1 hy
  have ex : wrapInt64 (t.1 - s.1) = t.1 - s.1 :=
    wrapInt64_eq _ (by have := hx1.1; norm_num; linarith) (by have := hx1.2; norm_num; linarith)
  have ey : wrapInt64 (t.2 - s.2) = t.2 - s.2 :=
    wrapInt64_eq _ (by have := hy1.1; norm_num; linarith) (by have := hy1.2; norm_num; linarith)
  have hnx : (t.1 - s.1).natAbs ≤ 2000000 := by
    have : ((t.1 - s.1).natAbs : ℤ) ≤ 2000000 := by rw [Int.natCast_natAbs]; exact hx
    exact_mod_cast this
  have hny : (t.2 - s.2).natAbs ≤ 2000000 := by
    have : ((t.2 - s.2).natAbs : ℤ) ≤ 2000000 := by rw [Int.natCast_natAbs]; exact hy
    exact_mod_cast this
  unfold CalculateBill calculateDistance
  simp only [ex, ey]
  exact fare_eq_sqrt _ _ hnx hny

theorem CalculateBill_eq_floor (app : CabBookingApplication) (u : String) (s t : Point)
    (hx : |t.1 - s.1| ≤ 2000000) (hy : |t.2 - s.2| ≤ 2000000) :
    CalculateBill app u s t =
      ⌊(10 : ℝ) * Real.sqrt (((t.1 - s.1) ^ 2 + (t.2 - s.2) ^ 2 : ℤ) : ℝ)⌋ := by
  rw [CalculateBill_eq app u s t hx hy, ← sq_natAbs]
  have := floor_mul_sqrt ((t.1 - s.1).natAbs * (t.1 - s.1).natAbs +
    (t.2 - s.2).natAbs * (t.2 - s.2).natAbs) 10
  rw [Int.cast_natCast]
  norm_num at this ⊢
  exact this.symm

/-- A bill is settled by the two inequalities that define the integer square root. -/
theorem CalculateBill_eq_of (app : CabBookingApplication) (u : String) (s t : Point) (n : ℕ)
    (hx : |t.1 - s.1| ≤ 2000000) (hy : |t.2 - s.2| ≤ 2000000)
    (h1 : (n : ℤ) * n ≤ 100 * ((t.1 - s.1) ^ 2 + (t.2 - s.2) ^ 2))
    (h2 : 100 * ((t.1 - s.1) ^ 2 + (t.2 - s.2) ^ 2) < ((n : ℤ) + 1) * (n + 1)) :
    CalculateBill app u s t = n := by
  rw [CalculateBill_eq app u s t hx hy]
  rw [← sq_natAbs] at h1 h2
  congr 1
  symm
  rw [Nat.eq_sqrt]
  constructor
  · exact_mod_cast h1
  · exact_mod_cast h2

/-- From `(0,0)` to `(6050000,1100)` the float64 product reaches `60500001`. -/
theorem CalculateBill_far : CalculateBill sampleApp "Thu" (0, 0) (6050000, 1100) = 60500001 := by
  decide

/-- Ten times the distance from `(0,0)` to `(6050000,1100)` lies below `60500001`. -/
theorem floor_far :
    ⌊(10 : ℝ) * Real.sqrt ((((6050000 : ℤ) - 0) ^ 2 + ((1100 : ℤ) - 0) ^ 2 : ℤ) : ℝ)⌋ =
      60500000 := by
  have h := floor_mul_sqrt (6050000 * 6050000 + 1100 * 1100) 10
  have hs : Nat.sqrt (10 * 10 * (6050000 * 6050000 + 1100 * 1100)) = 60500000 := by
    symm
    rw [Nat.eq_sqrt]
    norm_num
  rw [hs] at h
  norm_num at h ⊢
  exact h

/-- C5, as stated, fails: from `(0,0)` to `(6050000,1100)` the code bills `60500001`,
while the integer `n` with `n * n ≤ 100 * d2 < (n+1) * (n+1)` - the floor of ten times the
distance over exact arithmetic - is `60500000`. -/
theorem CalculateBill_not_floor :
    CalculateBill sampleApp "Thu" (0, 0) (6050000, 1100) = 60500001 ∧
    (60500000 : ℤ) * 60500000 ≤ 100 * ((6050000 - 0) ^ 2 + (1100 - 0) ^ 2) ∧
    100 * ((6050000 - 0) ^ 2 + (1100 - 0) ^ 2) < ((60500000 : ℤ) + 1) * (60500000 + 1) ∧
    ⌊(10 : ℝ) * Real.sqrt ((((6050000 : ℤ) - 0) ^ 2 + ((1100 : ℤ) - 0) ^ 2 : ℤ) : ℝ)⌋ =
      60500000 :=
  ⟨CalculateBill_far, by norm_num, by norm_num, floor_far⟩

/-- C5, amended. For integer coordinates `s` and `t` that differ by at most two million
along each axis, `CalculateBill(_, s, t)` is the floor of ten times the Euclidean distance
over exact arithmetic: it is the unique integer `n ≥ 0` with
`n * n ≤ 100 * ((t0-s0)^2 + (t1-s1)^2) < (n+1) * (n+1)`, it equals
`⌊10 * √((t0-s0)^2 + (t1-s1)^2)⌋` over the reals, it is 50 from `(0,0)` to `(3,4)` and it
is 0 whenever `s = t`. -/
theorem CalculateBill_spec (app : CabBookingApplication) (u : String) (s t : Point)
    (hx : |t.1 - s.1| ≤ 2000000) (hy : |t.2 - s.2| ≤ 2000000) :
    0 ≤ CalculateBill app u s t ∧
    CalculateBill app u s t * CalculateBill app u s t ≤
      100 * ((t.1 - s.1) ^ 2 + (t.2 - s.2) ^ 2) ∧
    100 * ((t.1 - s.1) ^ 2 + (t.2 - s.2) ^ 2) <
      (CalculateBill app u s t + 1) * (CalculateBill app u s t + 1) ∧
    (∀ n : ℤ, 0 ≤ n → n * n ≤ 100 * ((t.1 - s.1) ^ 2 + (t.2 - s.2) ^ 2) →
      100 * ((t.1 - s.1) ^ 2 + (t.2 - s.2) ^ 2) < (n + 1) * (n + 1) →
      n = CalculateBill app u s t) ∧
    CalculateBill app u s t =
      ⌊(10 : ℝ) * Real.sqrt (((t.1 - s.1) ^ 2 + (t.2 - s.2) ^ 2 : ℤ) : ℝ)⌋ ∧
    CalculateBill app u (0, 0) (3, 4) = 50 ∧
    CalculateBill app u s s = 0 := by
  have hr := sq_natAbs (t.1 - s.1) (t.2 - s.2)
  have hle := Nat.sqrt_le' (100 * ((t.1 - s.1).natAbs * (t.1 - s.1).natAbs +
        (t.2 - s.2).natAbs * (t.2 - s.2).natAbs))
  have hlt := Nat.lt_succ_sqrt' (100 * ((t.1 - s.1).natAbs * (t.1 - s.1).natAbs +
        (t.2 - s.2).natAbs * (t.2 - s.2).natAbs))
  have he := CalculateBill_eq app u s t hx hy
  generalize (t.1 - s.1).natAbs * (t.1 - s.1).natAbs +
        (t.2 - s.2).natAbs * (t.2 - s.2).natAbs = N at hr hle hlt he
  have hle' : (Nat.sqrt (100 * N) : ℤ) * Nat.sqrt (100 * N) ≤
      100 * ((t.1 - s.1) ^ 2 + (t.2 - s.2) ^ 2) := by
    rw [← hr]
    have := Int.ofNat_le.2 hle
    push_cast at this
    linarith
  have hlt' : 100 * ((t.1 - s.1) ^ 2 + (t.2 - s.2) ^ 2) <
      ((Nat.sqrt (100 * N) : ℤ) + 1) * ((Nat.sqrt (100 * N) : ℤ) + 1) := by
    rw [← hr]
    have := Int.ofNat_lt.2 hlt
    push_cast [Nat.succ_eq_add_one] at this
    linarith
  refine ⟨?_, ?_, ?_, ?_, CalculateBill_eq_floor app u s t hx hy, ?_, ?_⟩
  · rw [he]; positivity
  · rw [he]; exact hle'
  · rw [he]; exact hlt'
  · intro n hn h1 h2
    obtain ⟨m, rfl⟩ := Int.eq_ofNat_of_zero_le hn
    exact (CalculateBill_eq_of app u s t m hx hy h1 h2).symm
  · exact CalculateBill_eq_of app u (0, 0) (3, 4) 50 (by norm_num) (by norm_num) (by norm_num)
      (by norm_num)
  · exact CalculateBill_eq_of app u s s 0 (by simp) (by simp) (by simp) (by simp)

theorem CalculateBill_spec_witness :
    |((15, 3) : Point).1 - ((10, 0) : Point).1| ≤ 2000000 ∧
    |((15, 3) : Point).2 - ((10, 0) : Point).2| ≤ 2000000 ∧
    0 ≤ CalculateBill sampleApp "Thu" (10, 0) (15, 3) ∧
    CalculateBill sampleApp "Thu" (10, 0) (15, 3) * CalculateBill sampleApp "Thu" (10, 0) (15, 3) ≤
      100 * ((((15, 3) : Point).1 - ((10, 0) : Point).1) ^ 2 +
        (((15, 3) : Point).2 - ((10, 0) : Point).2) ^ 2) ∧
    100 * ((((15, 3) : Point).1 - ((10, 0) : Point).1) ^ 2 +
        (((15, 3) : Point).2 - ((10, 0) : Point).2) ^ 2) <
      (CalculateBill sampleApp "Thu" (10, 0) (15, 3) + 1) *
        (CalculateBill sampleApp "Thu" (10, 0) (15, 3) + 1) ∧
    (∀ n : ℤ, 0 ≤ n →
      n * n ≤ 100 * ((((15, 3) : Point).1 - ((10, 0) : Point).1) ^ 2 +
        (((15, 3) : Point).2 - ((10, 0) : Point).2) ^ 2) →
      100 * ((((15, 3) : Point).1 - ((10, 0) : Point).1) ^ 2 +
        (((15, 3) : Point).2 - ((10, 0) : Point).2) ^ 2) < (n + 1) * (n + 1) →
      n = CalculateBill sampleApp "Thu" (10, 0) (15, 3)) ∧
    CalculateBill sampleApp "Thu" (10, 0) (15, 3) =
      ⌊(10 : ℝ) * Real.sqrt
        (((((15, 3) : Point).1 - ((10, 0) : Point).1) ^ 2 +
          (((15, 3) : Point).2 - ((10, 0) : Point).2) ^ 2 : ℤ) : ℝ)⌋ ∧
    CalculateBill sampleApp "Thu" (0, 0) (3, 4) = 50 ∧
    CalculateBill sampleApp "Thu" (10, 0) (10, 0) = 0 :=
  ⟨by decide, by decide,
    CalculateBill_spec sampleApp "Thu" (10, 0) (15, 3) (by decide) (by decide)⟩

/-- C6, as stated, fails: from `(0,0)` to `(1,3)` the code bills 31 while the integer
nearest to ten times the distance `√10` is 32.  Nor is the bill the truncation, or
non-negative, for all coordinates: from `(0,0)` to `(6050000,1100)` ten times the distance
lies below `60500001` and the code bills `60500001`, and from `(0,0)` to `(10^18,0)` the
product leaves the `int` range and the code bills `-2^63`. -/
theorem CalculateBill_not_round :
    CalculateBill sampleApp "Thu" (0, 0) (1, 3) = 31 ∧
    round ((10 : ℝ) * Real.sqrt ((((1 : ℤ) - 0) ^ 2 + ((3 : ℤ) - 0) ^ 2 : ℤ) : ℝ)) = 32 ∧
    CalculateBill sampleApp "Thu" (0, 0) (6050000, 1100) = 60500001 ∧
    ⌊(10 : ℝ) * Real.sqrt ((((6050000 : ℤ) - 0) ^ 2 + ((1100 : ℤ) - 0) ^ 2 : ℤ) : ℝ)⌋ =
      60500000 ∧
    CalculateBill sampleApp "Thu" (0, 0) (10 ^ 18, 0) = -2 ^ 63 := by
  refine ⟨by decide, ?_, CalculateBill_far, floor_far, by decide⟩
  rw [round_eq, Int.floor_eq_iff]
  have h1 : (3.15 : ℝ) ≤ Real.sqrt 10 := by
    rw [Real.le_sqrt (by norm_num) (by norm_num)]; norm_num
  have h2 : Real.sqrt 10 < (3.25 : ℝ) := by
    rw [Real.sqrt_lt' (by norm_num)]; norm_num
  norm_num
  constructor <;> linarith

/-- C6, amended. For a started ride from `s` to `t` that differ by at most two million
along each axis, the fare the worker bills - the amount `ProcessRideRequest` adds to the
driver's earnings in line 190 - is ten times the Euclidean distance truncated to an
integer, `⌊10 * √((t0-s0)^2 + (t1-s1)^2)⌋`, and it is non-negative; the earnings rise by
exactly that amount whenever the sum fits the `int` range. -/
theorem worker_fare_floor (app : CabBookingApplication) (r : RideRequest) (d : Driver)
    (hreg : Map.get r.DriverName app.Drivers = some d) (hav : d.Status = true)
    (hx : |r.Destination.1 - r.Source.1| ≤ 2000000)
    (hy : |r.Destination.2 - r.Source.2| ≤ 2000000) :
    ∃ e, Map.get r.DriverName (ProcessRideRequest app r).state.Drivers = some e ∧
      e.Earning = wrapInt64 (d.Earning +
        ⌊(10 : ℝ) * Real.sqrt
          (((r.Destination.1 - r.Source.1) ^ 2 + (r.Destination.2 - r.Source.2) ^ 2 : ℤ) : ℝ)⌋) ∧
      CalculateBill app r.Username r.Source r.Destination =
        ⌊(10 : ℝ) * Real.sqrt
          (((r.Destination.1 - r.Source.1) ^ 2 + (r.Destination.2 - r.Source.2) ^ 2 : ℤ) : ℝ)⌋ ∧
      0 ≤ ⌊(10 : ℝ) * Real.sqrt
          (((r.Destination.1 - r.Source.1) ^ 2 + (r.Destination.2 - r.Source.2) ^ 2 : ℤ) : ℝ)⌋ ∧
      (-2 ^ 63 ≤ d.Earning → d.Earning < 2 ^ 63 - 2 ^ 25 →
        e.Earning - d.Earning =
          ⌊(10 : ℝ) * Real.sqrt
            (((r.Destination.1 - r.Source.1) ^ 2 + (r.Destination.2 - r.Source.2) ^ 2 : ℤ) :
              ℝ)⌋) := by
  have hfl := CalculateBill_eq_floor app r.Username r.Source r.Destination hx hy
  have heq := CalculateBill_eq app r.Username r.Source r.Destination hx hy
  have hnx : (r.Destination.1 - r.Source.1).natAbs ≤ 2000000 := by
    have : ((r.Destination.1 - r.Source.1).natAbs : ℤ) ≤ 2000000 := by
      rw [Int.natCast_natAbs]; exact hx
    exact_mod_cast this
  have hny : (r.Destination.2 - r.Source.2).natAbs ≤ 2000000 := by
    have : ((r.Destination.2 - r.Source.2).natAbs : ℤ) ≤ 2000000 := by
      rw [Int.natCast_natAbs]; exact hy
    exact_mod_cast this
  have hlt := sqrt_fare_lt _ _ hnx hny
  have hnn : 0 ≤ CalculateBill app r.Username r.Source r.Destination := by
    rw [heq]; positivity
  have hub : CalculateBill app r.Username r.Source r.Destination < 2 ^ 25 := by
    rw [heq]; exact_mod_cast hlt
  refine ⟨settle d (CalculateBill app r.Username r.Source r.Destination) r.Destination, ?_, ?_,
    hfl, ?_, ?_⟩
  · simp [ProcessRideRequest_get, hreg, hav]
  · rw [← hfl]; rfl
  · rw [← hfl]; exact hnn
  · intro h1 h2
    rw [← hfl]
    have : (settle d (CalculateBill app r.Username r.Source r.Destination) r.Destination).Earning =
        d.Earning + CalculateBill app r.Username r.Source r.Destination :=
      wrapInt64_eq _ (by linarith) (by linarith)
    rw [this]
    ring

theorem worker_fare_floor_witness :
    Map.get sampleRequest.DriverName sampleApp.Drivers = some driver1 ∧ driver1.Status = true ∧
    |sampleRequest.Destination.1 - sampleRequest.Source.1| ≤ 2000000 ∧
    |sampleRequest.Destination.2 - sampleRequest.Source.2| ≤ 2000000 ∧
    ∃ e, Map.get sampleRequest.DriverName
        (ProcessRideRequest sampleApp sampleRequest).state.Drivers = some e ∧
      e.Earning = wrapInt64 (driver1.Earning +
        ⌊(10 : ℝ) * Real.sqrt
          (((sampleRequest.Destination.1 - sampleRequest.Source.1) ^ 2 +
            (sampleRequest.Destination.2 - sampleRequest.Source.2) ^ 2 : ℤ) : ℝ)⌋) ∧
      CalculateBill sampleApp sampleRequest.Username sampleRequest.Source
          sampleRequest.Destination =
        ⌊(10 : ℝ) * Real.sqrt
          (((sampleRequest.Destination.1 - sampleRequest.Source.1) ^ 2 +
            (sampleRequest.Destination.2 - sampleRequest.Source.2) ^ 2 : ℤ) : ℝ)⌋ ∧
      0 ≤ ⌊(10 : ℝ) * Real.sqrt
          (((sampleRequest.Destination.1 - sampleRequest.Source.1) ^ 2 +
            (sampleRequest.Destination.2 - sampleRequest.Source.2) ^ 2 : ℤ) : ℝ)⌋ ∧
      (-2 ^ 63 ≤ driver1.Earning → driver1.Earning < 2 ^ 63 - 2 ^ 25 →
        e.Earning - driver1.Earning =
          ⌊(10 : ℝ) * Real.sqrt
            (((sampleRequest.Destination.1 - sampleRequest.Source.1) ^ 2 +
              (sampleRequest.Destination.2 - sampleRequest.Source.2) ^ 2 : ℤ) : ℝ)⌋) :=
  ⟨by decide, by decide, by decide, by decide,
    worker_fare_floor sampleApp sampleRequest driver1 (by decide) (by decide) (by decide)
      (by decide)⟩

/-! ## Earnings accumulate -/

/-- One operation leaves the earnings of a registered driver alone or raises them, in
`int`, by the fare it settles for that driver, unless it registers the driver anew. -/
theorem earning_step (sc : Scanner) (app : CabBookingApplication) (op : Op) (n : String)
    (d : Driver) (hreg : Map.get n app.Drivers = some d) (hop : addsDriver sc n op = false) :
    ∃ e, Map.get n (Op.apply sc app op).Drivers = some e ∧
      ((e.Earning = d.Earning ∧ settledFare n app op = 0) ∨
        e.Earning = wrapInt64 (d.Earning + settledFare n app op)) := by
  cases op with
  | addUser dd =>
    exact ⟨d, by simpa [Op.apply, AddUser] using hreg, Or.inl ⟨rfl, by simp [settledFare]⟩⟩
  | updateUserLocation u l =>
    refine ⟨d, ?_, Or.inl ⟨rfl, by simp [settledFare]⟩⟩
    simp only [Op.apply, UpdateUserLocation]
    cases Map.get u app.Users <;> simpa using hreg
  | addDriver dd vd l =>
    have hne : (sc.person dd).1 ≠ n := by simpa [addsDriver] using hop
    exact ⟨d, by simpa [Op.apply, AddDriver_get sc app dd vd l n hne] using hreg,
      Or.inl ⟨rfl, by simp [settledFare]⟩⟩
  | updateDriverLocation m l =>
    simp only [Op.apply, UpdateDriverLocation_get, hreg]
    by_cases h : m = n
    · exact ⟨{ d with Location := l }, by simp [h], Or.inl ⟨rfl, by simp [settledFare]⟩⟩
    · exact ⟨d, by simp [h], Or.inl ⟨rfl, by simp [settledFare]⟩⟩
  | changeDriverStatus m st =>
    simp only [Op.apply, ChangeDriverStatus_get, hreg]
    by_cases h : m = n
    · exact ⟨{ d with Status := st }, by simp [h], Or.inl ⟨rfl, by simp [settledFare]⟩⟩
    · exact ⟨d, by simp [h], Or.inl ⟨rfl, by simp [settledFare]⟩⟩
  | findRide u s t => exact ⟨d, hreg, Or.inl ⟨rfl, by simp [settledFare]⟩⟩
  | requestRide u s t =>
    exact ⟨d, by simpa [Op.apply, (RequestRide_state app u s t).1] using hreg,
      Or.inl ⟨rfl, by simp [settledFare]⟩⟩
  | processRideRequest r =>
    simp only [Op.apply, ProcessRideRequest_get, hreg, settledFare]
    by_cases h : r.DriverName = n
    · subst h
      cases hs : d.Status with
      | true =>
        have hc : ChooseRide app r.Username r.DriverName = "Ride started" :=
          (ChooseRide_started_iff app _ _).2 ⟨d, hreg, hs⟩
        exact ⟨settle d (CalculateBill app r.Username r.Source r.Destination) r.Destination,
          by simp [hs], Or.inr (by simp [hc, settle])⟩
      | false =>
        have hc : ChooseRide app r.Username r.DriverName ≠ "Ride started" := by
          intro hc
          obtain ⟨e, he, hes⟩ := (ChooseRide_started_iff app _ _).1 hc
          rw [hreg] at he
          cases he
          rw [hs] at hes
          exact Bool.noConfusion hes
        exact ⟨d, by simp [hs], Or.inl ⟨rfl, by simp [hc]⟩⟩
    · exact ⟨d, by simp [h], Or.inl ⟨rfl, by simp [h]⟩⟩
  | await => exact ⟨d, hreg, Or.inl ⟨rfl, by simp [settledFare]⟩⟩

/-- Earnings that start in the `int` range are, after any operations that do not register
the driver anew, the `int` sum of the old earnings and the fares settled for the driver. -/
theorem earning_execOps (sc : Scanner) (ops : List Op) (app : CabBookingApplication) (n : String)
    (d : Driver) (hreg : Map.get n app.Drivers = some d)
    (hlo : -2 ^ 63 ≤ d.Earning) (hhi : d.Earning < 2 ^ 63)
    (hops : ∀ op ∈ ops, addsDriver sc n op = false) :
    ∃ e, Map.get n (execOps sc app ops).Drivers = some e ∧
      e.Earning = wrapInt64 (d.Earning + settledFares sc n app ops) := by
  induction ops generalizing app d with
  | nil => exact ⟨d, hreg, by simp [settledFares, wrapInt64_eq _ hlo hhi]⟩
  | cons op rest ih =>
    obtain ⟨e, he, hearn⟩ := earning_step sc app op n d hreg (hops op (List.mem_cons_self _ _))
    have hearn1 : e.Earning = wrapInt64 (d.Earning + settledFare n app op) := by
      rcases hearn with ⟨h1, h2⟩ | h
      · rw [h1, h2, add_zero, wrapInt64_eq _ hlo hhi]
      · exact h
    have hr := wrapInt64_range (d.Earning + settledFare n app op)
    obtain ⟨f, hf, hfe⟩ :=
      ih (Op.apply sc app op) e he (by rw [hearn1]; exact hr.1) (by rw [hearn1]; exact hr.2)
        (fun o ho => hops o (List.mem_cons_of_mem _ ho))
    refine ⟨f, by simpa [execOps] using hf, ?_⟩
    rw [hfe, hearn1, settledFares, wrapInt64_add, add_assoc]

/-- C7. Earnings accumulation.  Register a driver with `AddDriver` and then run any finite
sequence of operations (processing of requests for any driver, `RequestRide`, `FindRide`,
location and status updates, `AddUser`, `AddDriver`, a receive on `Event`) in which no
`AddDriver` registers the same identity again.  The driver is still registered at the end
and its `Earning` is the sum, in `int`, of `CalculateBill(r.Source, r.Destination)` over
exactly the processed requests `r` that named the driver and found it available, whatever
was settled for other drivers in between; it is the plain sum whenever that fits the `int`
range. -/
theorem earnings_accumulate (sc : Scanner) (app : CabBookingApplication)
    (driverDetails vehicleDetails : String) (loc : Point) (ops : List Op)
    (hops : ∀ op ∈ ops, addsDriver sc (sc.person driverDetails).1 op = false) :
    ∃ e,
      Map.get (sc.person driverDetails).1
        (execOps sc (AddDriver sc app driverDetails vehicleDetails loc) ops).Drivers = some e ∧
      e.Earning =
        wrapInt64 (settledFares sc (sc.person driverDetails).1
          (AddDriver sc app driverDetails vehicleDetails loc) ops) ∧
      (-2 ^ 63 ≤ settledFares sc (sc.person driverDetails).1
          (AddDriver sc app driverDetails vehicleDetails loc) ops →
        settledFares sc (sc.person driverDetails).1
          (AddDriver sc app driverDetails vehicleDetails loc) ops < 2 ^ 63 →
        e.Earning =
          settledFares sc (sc.person driverDetails).1
            (AddDriver sc app driverDetails vehicleDetails loc) ops) := by
  have hreg : ∃ d, Map.get (sc.person driverDetails).1
      (AddDriver sc app driverDetails vehicleDetails loc).Drivers = some d ∧ d.Earning = 0 :=
    ⟨{ Name := (sc.person driverDetails).1, Gender := (sc.person driverDetails).2.1,
        Age := (sc.person driverDetails).2.2, Vehicle := (sc.vehicle vehicleDetails).1,
        VehicleNumber := (sc.vehicle vehicleDetails).2, Location := loc, Status := true,
        Earning := 0 },
      by simp [AddDriver, Map.get_set_same], rfl⟩
  obtain ⟨d, hd, h0⟩ := hreg
  obtain ⟨e, he, hearn⟩ :=
    earning_execOps sc ops _ _ d hd (by rw [h0]; norm_num) (by rw [h0]; norm_num) hops
  rw [h0, zero_add] at hearn
  exact ⟨e, he, hearn, fun h1 h2 => by rw [hearn]; exact wrapInt64_eq _ h1 h2⟩

theorem earnings_accumulate_witness :
    (∀ op ∈ rideOps, addsDriver sampleScanner (sampleScanner.person "Driver1 M 22").1 op = false) ∧
    ∃ e,
      Map.get (sampleScanner.person "Driver1 M 22").1
        (execOps sampleScanner (AddDriver sampleScanner sampleApp "Driver1 M 22" "Swift KA" (10, 1))
          rideOps).Drivers = some e ∧
      e.Earning =
        wrapInt64 (settledFares sampleScanner (sampleScanner.person "Driver1 M 22").1
          (AddDriver sampleScanner sampleApp "Driver1 M 22" "Swift KA" (10, 1)) rideOps) ∧
      (-2 ^ 63 ≤ settledFares sampleScanner (sampleScanner.person "Driver1 M 22").1
          (AddDriver sampleScanner sampleApp "Driver1 M 22" "Swift KA" (10, 1)) rideOps →
        settledFares sampleScanner (sampleScanner.person "Driver1 M 22").1
          (AddDriver sampleScanner sampleApp "Driver1 M 22" "Swift KA" (10, 1)) rideOps < 2 ^ 63 →
        e.Earning =
          settledFares sampleScanner (sampleScanner.person "Driver1 M 22").1
            (AddDriver sampleScanner sampleApp "Driver1 M 22" "Swift KA" (10, 1)) rideOps) :=
  ⟨by decide, earnings_accumulate sampleScanner sampleApp "Driver1 M 22" "Swift KA" (10, 1) rideOps
    (by decide)⟩

/-! ## Requesting a ride -/

theorem FindRide_ne_some_nil (app : CabBookingApplication) (u : String) (s t : Point) :
    FindRide app u s t ≠ some [] := by
  unfold FindRide
  cases Map.get u app.Users with
  | none => simp
  | some user =>
    simp only
    split
    · rename_i hlen
      intro h
      have heq := Option.some.inj h
      rw [heq] at hlen
      simp at hlen
    · simp

theorem FindRide_unknown (app : CabBookingApplication) (u : String) (s t : Point)
    (h : Map.get u app.Users = none) : FindRide app u s t = none := by
  simp [FindRide, h]

/-- C8. With the queue open and not full: when `FindRide(u, s, t)` is non-empty,
`RequestRide(u, s, t)` returns having appended exactly one request
`(u, s, t, Name of the first candidate)` at the tail of the queue; when it is nil (in
particular when `u` is unknown) it returns with the state unchanged; `FindRide` never
yields an empty non-nil slice; and in every case the rider directory and the driver
directory are unchanged, so the chosen driver stays available. -/
theorem RequestRide_spec (app : CabBookingApplication) (u : String) (s t : Point)
    (hopen : app.RideRequestQueue.closed = false)
    (hroom : app.RideRequestQueue.buf.length < app.RideRequestQueue.cap) :
    (∀ drv rest, FindRide app u s t = some (drv :: rest) →
      RequestRide app u s t = .returned
        { app with
          RideRequestQueue :=
            { app.RideRequestQueue with
              buf := app.RideRequestQueue.buf ++
                [{ Username := u, Source := s, Destination := t, DriverName := drv.Name }] } }) ∧
    (FindRide app u s t = none → RequestRide app u s t = .returned app) ∧
    (Map.get u app.Users = none → RequestRide app u s t = .returned app) ∧
    FindRide app u s t ≠ some [] ∧
    ∃ app1, RequestRide app u s t = .returned app1 ∧ app1.Users = app.Users ∧
      app1.Drivers = app.Drivers := by
  have hsome : ∀ drv rest, FindRide app u s t = some (drv :: rest) →
      RequestRide app u s t = .returned
        { app with
          RideRequestQueue :=
            { app.RideRequestQueue with
              buf := app.RideRequestQueue.buf ++
                [{ Username := u, Source := s, Destination := t, DriverName := drv.Name }] } } := by
    intro drv rest hf
    simp [RequestRide, hf, Chan.send, hopen, hroom]
  have hnone : FindRide app u s t = none → RequestRide app u s t = .returned app := by
    intro hf
    simp [RequestRide, hf]
  refine ⟨hsome, hnone, fun h => hnone (FindRide_unknown app u s t h),
    FindRide_ne_some_nil app u s t, ?_⟩
  cases hf : FindRide app u s t with
  | none => exact ⟨app, hnone hf, rfl, rfl⟩
  | some rides =>
    cases rides with
    | nil => exact absurd hf (FindRide_ne_some_nil app u s t)
    | cons drv rest => exact ⟨_, hsome drv rest hf, rfl, rfl⟩

theorem RequestRide_spec_witness :
    sampleApp.RideRequestQueue.closed = false ∧
    sampleApp.RideRequestQueue.buf.length < sampleApp.RideRequestQueue.cap ∧
    (∀ drv rest, FindRide sampleApp "Thu" (10, 0) (15, 3) = some (drv :: rest) →
      RequestRide sampleApp "Thu" (10, 0) (15, 3) = .returned
        { sampleApp with
          RideRequestQueue :=
            { sampleApp.RideRequestQueue with
              buf := sampleApp.RideRequestQueue.buf ++
                [{ Username := "Thu", Source := (10, 0), Destination := (15, 3),
                   DriverName := drv.Name }] } }) ∧
    (FindRide sampleApp "Thu" (10, 0) (15, 3) = none →
      RequestRide sampleApp "Thu" (10, 0) (15, 3) = .returned sampleApp) ∧
    (Map.get "Thu" sampleApp.Users = none →
      RequestRide sampleApp "Thu" (10, 0) (15, 3) = .returned sampleApp) ∧
    FindRide sampleApp "Thu" (10, 0) (15, 3) ≠ some [] ∧
    ∃ app1, RequestRide sampleApp "Thu" (10, 0) (15, 3) = .returned app1 ∧
      app1.Users = sampleApp.Users ∧ app1.Drivers = sampleApp.Drivers :=
  ⟨by decide, by decide,
    RequestRide_spec sampleApp "Thu" (10, 0) (15, 3) (by decide) (by decide)⟩

/-- The request of `main` (line 257) on the sample state: `Driver1` is the only candidate
and the request for it is the only element of the queue afterwards. -/
theorem RequestRide_sample :
    FindRide sampleApp "Thu" (10, 0) (15, 3) = some [driver1] ∧
    RequestRide sampleApp "Thu" (10, 0) (15, 3) = .returned
      { sampleApp with
        RideRequestQueue := { buf := [sampleRequest], cap := 10, closed := false } } := by
  decide

/-! ## Location and status updates -/

theorem UpdateUserLocation_get (app : CabBookingApplication) (m n : String) (loc : Point) :
    Map.get n (UpdateUserLocation app m loc).Users =
      if m = n then (Map.get n app.Users).map fun u => { u with Location := loc }
      else Map.get n app.Users := by
  unfold UpdateUserLocation
  by_cases h : m = n
  · subst h
    cases hg : Map.get m app.Users with
    | none => simp [hg]
    | some d => simp [Map.get_set_same]
  · cases hg : Map.get m app.Users with
    | none => simp [h]
    | some d => simp [h, Map.get_set]

/-- C9. `UpdateDriverLocation`, `UpdateUserLocation` and `ChangeDriverStatus` leave the
whole state as it is when the identity is not registered.  When it is registered they
set the named field (`Location`, resp. `Status`) of that one record to the given value
and keep the record's other fields, among them `Earning`; all other records of that
directory, its key set, the other directory, the queue, the `Running` flag and the `Event`
channel are unchanged. -/
theorem update_frame (app : CabBookingApplication) (driverName username : String) (loc : Point)
    (flag : Bool) :
    (Map.get driverName app.Drivers = none → UpdateDriverLocation app driverName loc = app) ∧
    (∀ d, Map.get driverName app.Drivers = some d →
      Map.get driverName (UpdateDriverLocation app driverName loc).Drivers =
        some { d with Location := loc } ∧
      (∀ k, k ≠ driverName →
        Map.get k (UpdateDriverLocation app driverName loc).Drivers = Map.get k app.Drivers) ∧
      Map.keys (UpdateDriverLocation app driverName loc).Drivers = Map.keys app.Drivers ∧
      (UpdateDriverLocation app driverName loc).Users = app.Users ∧
      (UpdateDriverLocation app driverName loc).RideRequestQueue = app.RideRequestQueue ∧
      (UpdateDriverLocation app driverName loc).Running = app.Running ∧
      (UpdateDriverLocation app driverName loc).Event = app.Event) ∧
    (Map.get username app.Users = none → UpdateUserLocation app username loc = app) ∧
    (∀ u, Map.get username app.Users = some u →
      Map.get username (UpdateUserLocation app username loc).Users =
        some { u with Location := loc } ∧
      (∀ k, k ≠ username →
        Map.get k (UpdateUserLocation app username loc).Users = Map.get k app.Users) ∧
      Map.keys (UpdateUserLocation app username loc).Users = Map.keys app.Users ∧
      (UpdateUserLocation app username loc).Drivers = app.Drivers ∧
      (UpdateUserLocation app username loc).RideRequestQueue = app.RideRequestQueue ∧
      (UpdateUserLocation app username loc).Running = app.Running ∧
      (UpdateUserLocation app username loc).Event = app.Event) ∧
    (Map.get driverName app.Drivers = none → ChangeDriverStatus app driverName flag = app) ∧
    (∀ d, Map.get driverName app.Drivers = some d →
      Map.get driverName (ChangeDriverStatus app driverName flag).Drivers =
        some { d with Status := flag } ∧
      (∀ k, k ≠ driverName →
        Map.get k (ChangeDriverStatus app driverName flag).Drivers = Map.get k app.Drivers) ∧
      Map.keys (ChangeDriverStatus app driverName flag).Drivers = Map.keys app.Drivers ∧
      (ChangeDriverStatus app driverName flag).Users = app.Users ∧
      (ChangeDriverStatus app driverName flag).RideRequestQueue = app.RideRequestQueue ∧
      (ChangeDriverStatus app driverName flag).Running = app.Running ∧
      (ChangeDriverStatus app driverName flag).Event = app.Event) := by
  refine ⟨?_, ?_, ?_, ?_, ?_, ?_⟩
  · intro h
    simp [UpdateDriverLocation, h]
  · intro d hd
    refine ⟨by simp [UpdateDriverLocation_get, hd], ?_, ?_, ?_⟩
    · intro k hk
      simp [UpdateDriverLocation_get, Ne.symm hk]
    · simp only [UpdateDriverLocation, hd]
      exact Map.keys_set_of_get _ _ _ _ hd
    · simp [UpdateDriverLocation, hd]
  · intro h
    simp [UpdateUserLocation, h]
  · intro u hu
    refine ⟨by simp [UpdateUserLocation_get, hu], ?_, ?_, ?_⟩
    · intro k hk
      simp [UpdateUserLocation_get, Ne.symm hk]
    · simp only [UpdateUserLocation, hu]
      exact Map.keys_set_of_get _ _ _ _ hu
    · simp [UpdateUserLocation, hu]
  · intro h
    simp [ChangeDriverStatus, h]
  · intro d hd
    refine ⟨by simp [ChangeDriverStatus_get, hd], ?_, ?_, ?_⟩
    · intro k hk
      simp [ChangeDriverStatus_get, Ne.symm hk]
    · simp only [ChangeDriverStatus, hd]
      exact Map.keys_set_of_get _ _ _ _ hd
    · simp [ChangeDriverStatus, hd]

theorem update_frame_witness :
    UpdateDriverLocation sampleApp "Driver9" (1, 1) = sampleApp ∧
    Map.get "Driver1" (UpdateDriverLocation sampleApp "Driver1" (1, 1)).Drivers =
      some { driver1 with Location := (1, 1) } ∧
    UpdateUserLocation sampleApp "Khanh" (1, 1) = sampleApp ∧
    Map.get "Thu" (UpdateUserLocation sampleApp "Thu" (1, 1)).Users =
      some { rider1 with Location := (1, 1) } ∧
    ChangeDriverStatus sampleApp "Driver9" false = sampleApp ∧
    Map.get "Driver1" (ChangeDriverStatus sampleApp "Driver1" false).Drivers =
      some { driver1 with Status := false } :=
  ⟨(update_frame sampleApp "Driver9" "Khanh" (1, 1) false).1 (by decide),
    ((update_frame sampleApp "Driver1" "Thu" (1, 1) false).2.1 driver1 (by decide)).1,
    (update_frame sampleApp "Driver9" "Khanh" (1, 1) false).2.2.1 (by decide),
    ((update_frame sampleApp "Driver1" "Thu" (1, 1) false).2.2.2.1 rider1 (by decide)).1,
    (update_frame sampleApp "Driver9" "Khanh" (1, 1) false).2.2.2.2.1 (by decide),
    ((update_frame sampleApp "Driver1" "Thu" (1, 1) false).2.2.2.2.2 driver1 (by decide)).1⟩

/-! ## Unknown identities -/

/-- C10, as stated, fails: the update operations hand nothing back to their caller.  On the
sample state an update of the registered rider `Thu` to the location it already has and
an update of the unregistered rider `Khanh` yield the same result, and likewise for the
drivers `Driver1` and `Driver9`; so nothing computed from the result tells whether the
identity was known. -/
theorem UpdateLocation_reports_nothing :
    (Map.get "Thu" sampleApp.Users).isSome = true ∧
    (Map.get "Khanh" sampleApp.Users).isSome = false ∧
    UpdateUserLocation sampleApp "Thu" (10, 0) = UpdateUserLocation sampleApp "Khanh" (10, 0) ∧
    (Map.get "Driver1" sampleApp.Drivers).isSome = true ∧
    (Map.get "Driver9" sampleApp.Drivers).isSome = false ∧
    UpdateDriverLocation sampleApp "Driver1" (10, 1) =
      UpdateDriverLocation sampleApp "Driver9" (10, 1) ∧
    (¬ ∃ report : CabBookingApplication → Bool, ∀ app id loc,
      report (UpdateUserLocation app id loc) = (Map.get id app.Users).isSome) ∧
    (¬ ∃ report : CabBookingApplication → Bool, ∀ app id loc,
      report (UpdateDriverLocation app id loc) = (Map.get id app.Drivers).isSome) := by
  refine ⟨by decide, by decide, by decide, by decide, by decide, by decide, ?_, ?_⟩
  · rintro ⟨report, h⟩
    have h1 := h sampleApp "Thu" (10, 0)
    have h2 := h sampleApp "Khanh" (10, 0)
    have e : UpdateUserLocation sampleApp "Thu" (10, 0) =
        UpdateUserLocation sampleApp "Khanh" (10, 0) := by decide
    rw [e, h2] at h1
    exact absurd h1 (by decide)
  · rintro ⟨report, h⟩
    have h1 := h sampleApp "Driver1" (10, 1)
    have h2 := h sampleApp "Driver9" (10, 1)
    have e : UpdateDriverLocation sampleApp "Driver1" (10, 1) =
        UpdateDriverLocation sampleApp "Driver9" (10, 1) := by decide
    rw [e, h2] at h1
    exact absurd h1 (by decide)

/-- C10, amended. `UpdateUserLocation` for an unregistered rider and `UpdateDriverLocation`
for an unregistered driver leave the whole state unchanged.  (The operations have no
result, so the unknown identity is ignored silently.) -/
theorem UpdateLocation_unknown_noop (app : CabBookingApplication) (id : String) (loc : Point) :
    (Map.get id app.Users = none → UpdateUserLocation app id loc = app) ∧
    (Map.get id app.Drivers = none → UpdateDriverLocation app id loc = app) := by
  constructor
  · intro h
    simp [UpdateUserLocation, h]
  · intro h
    simp [UpdateDriverLocation, h]

theorem UpdateLocation_unknown_noop_witness :
    Map.get "Khanh" sampleApp.Users = none ∧ Map.get "Khanh" sampleApp.Drivers = none ∧
    UpdateUserLocation sampleApp "Khanh" (3, 4) = sampleApp ∧
    UpdateDriverLocation sampleApp "Khanh" (3, 4) = sampleApp :=
  ⟨by decide, by decide,
    (UpdateLocation_unknown_noop sampleApp "Khanh" (3, 4)).1 (by decide),
    (UpdateLocation_unknown_noop sampleApp "Khanh" (3, 4)).2 (by decide)⟩

/-! ## Well-formed directories -/

theorem processRide_state_Drivers (app : CabBookingApplication) (r : RideRequest) :
    (processRide app r).state.Drivers = app.Drivers ∨
      ∃ d, (processRide app r).state.Drivers = Map.set r.DriverName d app.Drivers := by
  cases hg : Map.get r.DriverName app.Drivers with
  | none =>
    left
    rw [processRide_dropped app r (by intro d hd; rw [hg] at hd; exact Option.noConfusion hd)]
    rfl
  | some d =>
    cases hs : d.Status with
    | true =>
      right
      rw [processRide_started app r d hg hs]
      exact ⟨_, rfl⟩
    | false =>
      left
      rw [processRide_dropped app r (by intro e he; rw [hg] at he; cases he; exact hs)]
      rfl

/-- Every operation keeps the keys of both directories distinct. -/
theorem Op.apply_WF (sc : Scanner) (app : CabBookingApplication) (op : Op)
    (h : Map.WF app.Users ∧ Map.WF app.Drivers) :
    Map.WF (Op.apply sc app op).Users ∧ Map.WF (Op.apply sc app op).Drivers := by
  obtain ⟨hu, hd⟩ := h
  cases op with
  | addUser dd => exact ⟨Map.WF_set _ _ _ hu, hd⟩
  | updateUserLocation u l =>
    simp only [Op.apply, UpdateUserLocation]
    cases Map.get u app.Users with
    | none => exact ⟨hu, hd⟩
    | some x => exact ⟨Map.WF_set _ _ _ hu, hd⟩
  | addDriver dd vd l => exact ⟨hu, Map.WF_set _ _ _ hd⟩
  | updateDriverLocation m l =>
    simp only [Op.apply, UpdateDriverLocation]
    cases Map.get m app.Drivers with
    | none => exact ⟨hu, hd⟩
    | some x => exact ⟨hu, Map.WF_set _ _ _ hd⟩
  | changeDriverStatus m st =>
    simp only [Op.apply, ChangeDriverStatus]
    cases Map.get m app.Drivers with
    | none => exact ⟨hu, hd⟩
    | some x => exact ⟨hu, Map.WF_set _ _ _ hd⟩
  | findRide u s t => exact ⟨hu, hd⟩
  | requestRide u s t =>
    simp only [Op.apply, (RequestRide_state app u s t).1, (RequestRide_state app u s t).2.1]
    exact ⟨hu, hd⟩
  | processRideRequest r =>
    simp only [Op.apply, ProcessRideRequest, (signalEvent_state _).1, (signalEvent_state _).2.1,
      processRide_state_Users]
    refine ⟨hu, ?_⟩
    rcases processRide_state_Drivers app r with h | ⟨d, h⟩
    · rw [h]; exact hd
    · rw [h]; exact Map.WF_set _ _ _ hd
  | await => exact ⟨hu, hd⟩

/-- Every state reached from the initial one has directories with distinct keys. -/
theorem execOps_WF (sc : Scanner) (ops : List Op) :
    Map.WF (execOps sc NewCabBookingApplication ops).Users ∧
      Map.WF (execOps sc NewCabBookingApplication ops).Drivers := by
  have key : ∀ (l : List Op) (app : CabBookingApplication),
      Map.WF app.Users ∧ Map.WF app.Drivers →
      Map.WF (execOps sc app l).Users ∧ Map.WF (execOps sc app l).Drivers := by
    intro l
    induction l with
    | nil => intro app h; exact h
    | cons op rest ih =>
      intro app h
      exact ih (Op.apply sc app op) (Op.apply_WF sc app op h)
  exact key ops NewCabBookingApplication ⟨List.nodup_nil, List.nodup_nil⟩

/-- `RequestRide` does not reserve the driver: the candidates of every later `FindRide`
are the same as before the request. -/
theorem FindRide_after_RequestRide (app : CabBookingApplication) (u v : String)
    (s t s1 t1 : Point) :
    FindRide (RequestRide app u s t).state v s1 t1 = FindRide app v s1 t1 := by
  unfold FindRide
  rw [(RequestRide_state app u s t).1, (RequestRide_state app u s t).2.1]

/-- The ride of `main` on the sample state: the fare from `(10,0)` to `(15,3)` is 58
(ten times `√34 = 5.83...`, truncated), and `Driver1` ends with it at the destination,
unavailable. -/
theorem ProcessRideRequest_sample :
    CalculateBill sampleApp "Thu" (10, 0) (15, 3) = 58 ∧
    Map.get "Driver1" (ProcessRideRequest sampleApp sampleRequest).state.Drivers =
      some { driver1 with Earning := 58, Location := (15, 3), Status := false } := by
  have hb : CalculateBill sampleApp "Thu" (10, 0) (15, 3) = 58 :=
    CalculateBill_eq_of sampleApp "Thu" (10, 0) (15, 3) 58 (by norm_num) (by norm_num) (by norm_num) (by norm_num)
  refine ⟨hb, ?_⟩
  rw [ProcessRideRequest_get]
  have hg : Map.get "Driver1" sampleApp.Drivers = some driver1 := by decide
  have hn : sampleRequest.DriverName = "Driver1" := rfl
  have hu : sampleRequest.Username = "Thu" := rfl
  have hs : sampleRequest.Source = (10, 0) := rfl
  have ht : sampleRequest.Destination = (15, 3) := rfl
  rw [hn, hu, hs, ht, hg, hb]
  decide

/-- The sample run of `rideOps` after registering `Driver1`: the two rides that found the
driver available bill 58 and 53, the one that found it busy bills nothing. -/
theorem earnings_sample :
    (Map.get "Driver1"
      (execOps sampleScanner (AddDriver sampleScanner sampleApp "Driver1 M 22" "Swift KA" (10, 1))
        rideOps).Drivers).map Driver.Earning = some 111 := by
  have b1 : ∀ app u, CalculateBill app u (10, 0) (15, 3) = 58 := fun app u =>
    CalculateBill_eq_of app u (10, 0) (15, 3) 58 (by norm_num) (by norm_num) (by norm_num) (by norm_num)
  have b2 : ∀ app u, CalculateBill app u (15, 6) (20, 4) = 53 := fun app u =>
    CalculateBill_eq_of app u (15, 6) (20, 4) 53 (by norm_num) (by norm_num) (by norm_num) (by norm_num)
  simp only [execOps, rideOps, List.foldl, Op.apply, ProcessRideRequest_get, ChangeDriverStatus_get,
    (RequestRide_state _ _ _ _).1, sampleRequest, secondRequest, thirdRequest, b1, b2]
  decide

theorem AddDriver_get_self (sc : Scanner) (app : CabBookingApplication)
    (driverDetails vehicleDetails : String) (loc : Point) :
    Map.get (sc.person driverDetails).1
        (AddDriver sc app driverDetails vehicleDetails loc).Drivers =
      some
        { Name := (sc.person driverDetails).1, Gender := (sc.person driverDetails).2.1,
          Age := (sc.person driverDetails).2.2, Vehicle := (sc.vehicle vehicleDetails).1,
          VehicleNumber := (sc.vehicle vehicleDetails).2, Location := loc, Status := true,
          Earning := 0 } := by
  simp [AddDriver, Map.get_set_same]

/-! ## Unknown riders -/

/-- C11. For an identity `u` that is not a registered rider, `FindRide(u, s, t)` returns
the nil candidate sequence for all `s` and `t`, and `RequestRide(u, s, t)` returns with
the whole state as it was: nothing is enqueued and no rider record, driver record or
queue entry changes.  This holds for every state, also with a full or closed queue. -/
theorem unknown_rider (app : CabBookingApplication) (u : String) (s t : Point)
    (h : Map.get u app.Users = none) :
    FindRide app u s t = none ∧ RequestRide app u s t = .returned app := by
  have hf : FindRide app u s t = none := by simp [FindRide, h]
  exact ⟨hf, by simp [RequestRide, hf]⟩

theorem unknown_rider_witness :
    Map.get "Khanh" sampleApp.Users = none ∧
    FindRide sampleApp "Khanh" (0, 0) (20, 1) = none ∧
    RequestRide sampleApp "Khanh" (0, 0) (20, 1) = .returned sampleApp :=
  ⟨by decide, unknown_rider sampleApp "Khanh" (0, 0) (20, 1) (by decide)⟩

/-! ## Registering a driver -/

/-- C12. After `AddDriver` has registered the scanned identity `n` at location `loc`,
`Drivers[n]` is the fresh record: `Name = n`, `Status = true`, `Earning = 0`,
`Location = loc`, whatever was stored under `n` before (so a former record's earnings and
availability are overwritten).  Every other driver record, the rider directory, the
queue, the `Running` flag and the `Event` channel are unchanged. -/
theorem AddDriver_spec (sc : Scanner) (app : CabBookingApplication)
    (driverDetails vehicleDetails : String) (loc : Point) :
    Map.get (sc.person driverDetails).1
        (AddDriver sc app driverDetails vehicleDetails loc).Drivers =
      some
        { Name := (sc.person driverDetails).1, Gender := (sc.person driverDetails).2.1,
          Age := (sc.person driverDetails).2.2, Vehicle := (sc.vehicle vehicleDetails).1,
          VehicleNumber := (sc.vehicle vehicleDetails).2, Location := loc, Status := true,
          Earning := 0 } ∧
    (∀ k, k ≠ (sc.person driverDetails).1 →
      Map.get k (AddDriver sc app driverDetails vehicleDetails loc).Drivers =
        Map.get k app.Drivers) ∧
    (AddDriver sc app driverDetails vehicleDetails loc).Users = app.Users ∧
    (AddDriver sc app driverDetails vehicleDetails loc).RideRequestQueue =
      app.RideRequestQueue ∧
    (AddDriver sc app driverDetails vehicleDetails loc).Running = app.Running ∧
    (AddDriver sc app driverDetails vehicleDetails loc).Event = app.Event := by
  refine ⟨AddDriver_get_self sc app driverDetails vehicleDetails loc, ?_, rfl, rfl, rfl, rfl⟩
  intro k hk
  exact AddDriver_get sc app driverDetails vehicleDetails loc k (Ne.symm hk)

/-- A driver that has earned a fare and is busy is overwritten by a second `AddDriver`
under the same name: it is available again with no earnings. -/
theorem AddDriver_overwrites :
    Map.get "Driver1" (AddDriver sampleScanner
        (ProcessRideRequest sampleApp sampleRequest).state "Driver1 M 22" "Swift KA" (7, 7)).Drivers =
      some
        { Name := "Driver1", Gender := "", Age := 0, Vehicle := "Swift", VehicleNumber := "",
          Location := (7, 7), Status := true, Earning := 0 } := by
  have h := (AddDriver_get_self sampleScanner (ProcessRideRequest sampleApp sampleRequest).state
    "Driver1 M 22" "Swift KA" (7, 7))
  have hn : (sampleScanner.person "Driver1 M 22").1 = "Driver1" := by decide
  rw [hn] at h
  rw [h]
  decide

/-! ## Scanning never gets past the first word -/

theorem dropWhile_notSpace_head (l : List Char) (c : Char) (cs : List Char)
    (h : (l.dropWhile fun x => !fmtIsSpace x) = c :: cs) : fmtIsSpace c = true := by
  induction l with
  | nil => simp at h
  | cons a as ih =>
    by_cases ha : fmtIsSpace a = true
    · simp [List.dropWhile, ha] at h
      rw [← h.1]
      exact ha
    · simp [List.dropWhile, ha] at h
      exact ih h

/-- After the verb `%s` the input is at its end or at white space, never at a comma. -/
theorem fmtScanString_rest (input : List Char) (w : String) (rest rest1 : List Char)
    (h : fmtScanString input = some (w, rest)) : rest ≠ ',' :: rest1 := by
  unfold fmtScanString at h
  intro hr
  cases hs : fmtSkipSpace input with
  | none => simp [hs] at h
  | some l =>
    cases l with
    | nil => simp [hs] at h
    | cons c cs =>
      simp only [hs, Option.some.injEq, Prod.mk.injEq] at h
      have := dropWhile_notSpace_head (c :: cs) ',' rest1 (by rw [h.2, hr])
      exact absurd this (by decide)

/-- The scan of a person stops after the first word, whatever the rest of the format would
do: the name is that word, gender and age keep their zero values, and the scan has not
succeeded in full. -/
theorem fmtSscanfPerson_eq (rest : List Char → String × Int × Bool) (d : String) :
    fmtSscanfPerson rest d =
      (((fmtScanString d.data).map Prod.fst).getD "", "", 0, false) := by
  unfold fmtSscanfPerson
  cases hs : fmtScanString d.data with
  | none => rfl
  | some p =>
    obtain ⟨name, input⟩ := p
    cases input with
    | nil => rfl
    | cons c cs =>
      by_cases hc : c = ','
      · subst hc
        exact absurd rfl (fmtScanString_rest d.data name _ cs hs)
      · simp only [Option.map_some', Option.getD_some]
        split
        · rename_i heq
          cases heq
          exact absurd rfl hc
        · rfl

theorem fmtSscanfVehicle_eq (rest : List Char → String × Bool) (d : String) :
    fmtSscanfVehicle rest d = (((fmtScanString d.data).map Prod.fst).getD "", "", false) := by
  unfold fmtSscanfVehicle
  cases hs : fmtScanString d.data with
  | none => rfl
  | some p =>
    obtain ⟨name, input⟩ := p
    cases input with
    | nil => rfl
    | cons c cs =>
      by_cases hc : c = ','
      · subst hc
        exact absurd rfl (fmtScanString_rest d.data name _ cs hs)
      · simp only [Option.map_some', Option.getD_some]
        split
        · rename_i heq
          cases heq
          exact absurd rfl hc
        · rfl

/-- The registrations of `main`, lines 238-239 and 245, with the scanner of the running
program (C13).  No scan with the format `"%s, %s, %d"` ever succeeds in full, and `AddUser`
and `AddDriver` insert a record all the same: `AddUser("Thu Tr., F, 22")` stores a rider
under the key `Thu` with empty gender and age 0, `Thu Tr.` is not registered, the
`UpdateUserLocation("Thu Tr.", ...)` that follows changes nothing, and
`AddDriver("Driver1, M, 22", "Swift, KA-01-12345", ...)` stores a driver under the key
`Driver1,` with empty gender, age 0, vehicle `Swift,` and no vehicle number. -/
theorem registration_keeps_partial_record (restPerson : List Char → String × Int × Bool)
    (restVehicle : List Char → String × Bool) :
    (∀ d, (fmtSscanfPerson restPerson d).2.2.2 = false) ∧
    (∀ d, (fmtSscanfVehicle restVehicle d).2.2 = false) ∧
    (∀ (sc : Scanner) (app : CabBookingApplication) (d : String),
      Map.get (sc.person d).1 (AddUser sc app d).Users =
        some { Name := (sc.person d).1, Gender := (sc.person d).2.1, Age := (sc.person d).2.2,
               Location := (0, 0) }) ∧
    AddUser (fmtScanner restPerson restVehicle) NewCabBookingApplication "Thu Tr., F, 22" =
      { NewCabBookingApplication with
        Users := [("Thu", { Name := "Thu", Gender := "", Age := 0, Location := (0, 0) })] } ∧
    Map.get "Thu Tr."
      (AddUser (fmtScanner restPerson restVehicle) NewCabBookingApplication
        "Thu Tr., F, 22").Users = none ∧
    UpdateUserLocation
        (AddUser (fmtScanner restPerson restVehicle) NewCabBookingApplication "Thu Tr., F, 22")
        "Thu Tr." (10, 0) =
      AddUser (fmtScanner restPerson restVehicle) NewCabBookingApplication "Thu Tr., F, 22" ∧
    AddDriver (fmtScanner restPerson restVehicle) NewCabBookingApplication "Driver1, M, 22"
        "Swift, KA-01-12345" (10, 1) =
      { NewCabBookingApplication with
        Drivers :=
          [("Driver1,",
            { Name := "Driver1,", Gender := "", Age := 0, Vehicle := "Swift,",
              VehicleNumber := "", Location := (10, 1), Status := true, Earning := 0 })] } := by
  have hu : AddUser (fmtScanner restPerson restVehicle) NewCabBookingApplication
      "Thu Tr., F, 22" =
      { NewCabBookingApplication with
        Users := [("Thu", { Name := "Thu", Gender := "", Age := 0, Location := (0, 0) })] } := by
    simp only [AddUser, fmtScanner, fmtSscanfPerson_eq]
    decide
  refine ⟨fun d => by rw [fmtSscanfPerson_eq], fun d => by rw [fmtSscanfVehicle_eq],
    fun sc app d => by simp [AddUser, Map.get_set_same], hu, ?_, ?_, ?_⟩
  · rw [hu]; decide
  · rw [hu]; decide
  · simp only [AddDriver, fmtScanner, fmtSscanfPerson_eq, fmtSscanfVehicle_eq]
    decide

/-! ## After the queue is closed -/

theorem RequestRide_closed (app : CabBookingApplication) (u : String) (s t : Point)
    (drv : Driver) (rest : List Driver) (hclosed : app.RideRequestQueue.closed = true)
    (hf : FindRide app u s t = some (drv :: rest)) :
    RequestRide app u s t = .panicked app := by
  simp [RequestRide, hf, Chan.send, hclosed]

/-- What the code does on the inputs of C14.  After `StopWorker`, a `RequestRide` that
finds a candidate panics at the send on the closed queue, and a second `StopWorker` panics
at the `close` of the closed queue - on the state reached by registering a rider and a
driver and stopping the worker, and the second for every state.  The rider and driver
directories are as before the panic. -/
theorem closed_queue_panics :
    stoppedApp.RideRequestQueue.closed = true ∧
    FindRide stoppedApp "Thu" (10, 0) (15, 3) =
      some [{ Name := "Driver1", Gender := "", Age := 0, Vehicle := "Swift",
              VehicleNumber := "", Location := (10, 1), Status := true, Earning := 0 }] ∧
    RequestRide stoppedApp "Thu" (10, 0) (15, 3) = .panicked stoppedApp ∧
    StopWorker stoppedApp = .panicked stoppedApp ∧
    (∀ app : CabBookingApplication,
      StopWorker (StopWorker app).state = .panicked (StopWorker app).state) := by
  refine ⟨by decide, by decide, by decide, by decide, ?_⟩
  intro app
  unfold StopWorker Chan.close
  by_cases h : app.RideRequestQueue.closed = true
  · simp [h, Outcome.state]
  · simp [h, Outcome.state]

/-! ## The worker and the completion signal -/

/-- The body of `ProcessRideRequest` always returns: the lookup of line 188 succeeds
whenever `ChooseRide` has answered "Ride started". -/
theorem processRide_returns (app : CabBookingApplication) (r : RideRequest) :
    processRide app r = .returned (processRide app r).state := by
  cases hg : Map.get r.DriverName app.Drivers with
  | none =>
    rw [processRide_dropped app r (by intro d hd; rw [hg] at hd; exact Option.noConfusion hd)]
    rfl
  | some d =>
    cases hs : d.Status with
    | true =>
      rw [processRide_started app r d hg hs]
      rfl
    | false =>
      rw [processRide_dropped app r (by intro e he; rw [hg] at he; cases he; exact hs)]
      rfl

theorem processRide_state_Event (app : CabBookingApplication) (r : RideRequest) :
    (processRide app r).state.Event = app.Event := by
  unfold processRide
  by_cases hc : ChooseRide app r.Username r.DriverName = "Ride started"
  · obtain ⟨d, hd, -⟩ := (ChooseRide_started_iff app _ _).1 hc
    simp [hc, hd, Outcome.state, UpdateDriverLocation, ChangeDriverStatus, Map.get_set_same]
  · simp [hc, Outcome.state]

/-- With a receiver parked on `Event` the call returns and the receiver is released. -/
theorem ProcessRideRequest_returned (app : CabBookingApplication) (r : RideRequest)
    (h : 0 < app.Event.recvq) :
    ProcessRideRequest app r = .returned
      { (processRide app r).state with
        Event := { app.Event with recvq := app.Event.recvq - 1 } } := by
  unfold ProcessRideRequest
  rw [processRide_returns, signalEvent_returned, processRide_state_Event]
  simp [h, Outcome.state]

/-- With no receiver parked on `Event` the call parks at the deferred send. -/
theorem ProcessRideRequest_blocked (app : CabBookingApplication) (r : RideRequest)
    (h : app.Event.recvq = 0) :
    ProcessRideRequest app r = .blocked
      { (processRide app r).state with
        Event := { app.Event with sendq := app.Event.sendq + 1 } } := by
  unfold ProcessRideRequest
  rw [processRide_returns, signalEvent_returned, processRide_state_Event]
  simp [h, Outcome.state]

theorem workerStep_processing_fst (app : CabBookingApplication) (r : RideRequest) :
    (workerStep (app, .processing r)).1 = (ProcessRideRequest app r).state := by
  cases h : ProcessRideRequest app r <;> simp [workerStep, h, Outcome.state]

theorem workerRun_stopped (n : Nat) (app : CabBookingApplication) :
    workerRun n (app, .stopped) = (app, .stopped) := by
  induction n with
  | zero => rfl
  | succ k ih => simpa [workerRun, workerStep] using ih

theorem workerRun_parked (n : Nat) (app : CabBookingApplication) :
    workerRun n (app, .parked) = (app, .parked) := by
  induction n with
  | zero => rfl
  | succ k ih => simpa [workerRun, workerStep] using ih

theorem workerTrace_stopped (n : Nat) (app : CabBookingApplication) :
    workerTrace n (app, .stopped) = [] := by
  induction n with
  | zero => rfl
  | succ k ih => simpa [workerTrace, workerStep] using ih

theorem workerTrace_parked (n : Nat) (app : CabBookingApplication) :
    workerTrace n (app, .parked) = [] := by
  induction n with
  | zero => rfl
  | succ k ih => simpa [workerTrace, workerStep] using ih

theorem workerTrace_crashed (n : Nat) (app : CabBookingApplication) :
    workerTrace n (app, .crashed) = [] := by
  induction n with
  | zero => rfl
  | succ k ih => simpa [workerTrace, workerStep] using ih

/-! ## Stopping the worker -/

/-- C15, as stated, fails for a worker that has passed the check of `Running` and stands
in the `select` when `StopWorker` runs.  With the request of line 257 still buffered, the
worker dequeues and processes it after the stop: the queue is drained and `Driver1` has
earned 58.  With an empty queue the receive on the closed channel yields the zero-valued
request, and the worker hands it to `ProcessRideRequest`. -/
theorem stop_not_graceful :
    (StopWorker queuedApp).state.Running = false ∧
    (StopWorker queuedApp).state.RideRequestQueue =
      { buf := [sampleRequest], cap := 10, closed := true } ∧
    workerTrace 2 ((StopWorker queuedApp).state, .select) = [sampleRequest] ∧
    (workerRun 2 ((StopWorker queuedApp).state, .select)).1.RideRequestQueue.buf = [] ∧
    Map.get "Driver1" (workerRun 2 ((StopWorker queuedApp).state, .select)).1.Drivers =
      some { driver1 with Earning := 58, Location := (15, 3), Status := false } ∧
    (StopWorker sampleApp).state.RideRequestQueue = { buf := [], cap := 10, closed := true } ∧
    workerTrace 2 ((StopWorker sampleApp).state, .select) = [zeroRequest] := by
  have hb : ∀ app, CalculateBill app "Thu" (10, 0) (15, 3) = 58 := fun app =>
    CalculateBill_eq_of app "Thu" (10, 0) (15, 3) 58 (by norm_num) (by norm_num) (by norm_num) (by norm_num)
  have h1 : workerStep ((StopWorker queuedApp).state, .select) =
      ({ sampleApp with
          RideRequestQueue := { buf := [], cap := 10, closed := true }, Running := false },
        .processing sampleRequest) := by decide
  refine ⟨by decide, by decide, by decide, ?_, ?_, by decide, by decide⟩
  · simp only [workerRun, h1, workerStep_processing_fst,
      (ProcessRideRequest_state_frame _ _).1]
  · simp only [workerRun, h1, workerStep_processing_fst, ProcessRideRequest_get]
    have hn : sampleRequest.DriverName = "Driver1" := rfl
    have hu : sampleRequest.Username = "Thu" := rfl
    have hs : sampleRequest.Source = (10, 0) := rfl
    have ht : sampleRequest.Destination = (15, 3) := rfl
    rw [hn, hu, hs, ht, hb]
    decide

/-- C15, amended.  Once `StopWorker` has run (`Running` is false), a worker that stands at
the check of `Running` stops there: it dequeues and processes nothing, however many steps
it is given, and the state, with the requests still buffered, stays as it is.  A request
whose processing has begun is completed: its driver has earned the fare (added in `int`,
line 190: the plain sum whenever that fits the `int` range), stands at the destination and
is unavailable, and when a receiver takes the
completion signal the worker returns to the check and stops. -/
theorem graceful_stop (app : CabBookingApplication) (hstop : app.Running = false) :
    (∀ n, workerRun (n + 1) (app, .check) = (app, .stopped)) ∧
    (∀ n, workerTrace n (app, .check) = []) ∧
    (∀ (r : RideRequest) (d : Driver), Map.get r.DriverName app.Drivers = some d →
      d.Status = true →
      Map.get r.DriverName (workerStep (app, .processing r)).1.Drivers =
        some { d with
          Earning := wrapInt64 (d.Earning + CalculateBill app r.Username r.Source r.Destination),
          Location := r.Destination,
          Status := false } ∧
      (-2 ^ 63 ≤ d.Earning + CalculateBill app r.Username r.Source r.Destination →
        d.Earning + CalculateBill app r.Username r.Source r.Destination < 2 ^ 63 →
        Map.get r.DriverName (workerStep (app, .processing r)).1.Drivers =
          some { d with
            Earning := d.Earning + CalculateBill app r.Username r.Source r.Destination,
            Location := r.Destination,
            Status := false }) ∧
      (0 < app.Event.recvq →
        ∀ n, (workerRun (n + 2) (app, .processing r)).2 = .stopped ∧
          workerTrace (n + 2) (app, .processing r) = [r])) := by
  have hcheck : ∀ a : CabBookingApplication, a.Running = false →
      workerStep (a, .check) = (a, .stopped) := by
    intro a ha
    simp [workerStep, ha]
  refine ⟨?_, ?_, ?_⟩
  · intro n
    rw [workerRun, hcheck app hstop, workerRun_stopped]
  · intro n
    cases n with
    | zero => rfl
    | succ k =>
      rw [workerTrace]
      simp only [hcheck app hstop, workerTrace_stopped]
  · intro r d hreg hav
    refine ⟨?_, ?_, ?_⟩
    · rw [workerStep_processing_fst, ProcessRideRequest_get]
      simp [hreg, hav, settle]
    · intro h1 h2
      rw [workerStep_processing_fst, ProcessRideRequest_get]
      simp [hreg, hav, settle, wrapInt64_eq _ h1 h2]
    · intro hq n
      have hstep : workerStep (app, .processing r) =
          ({ (processRide app r).state with
              Event := { app.Event with recvq := app.Event.recvq - 1 } }, .check) := by
        simp [workerStep, ProcessRideRequest_returned app r hq]
      have hrun : ({ (processRide app r).state with
          Event := { app.Event with recvq := app.Event.recvq - 1 } } :
            CabBookingApplication).Running = false := by
        have := (ProcessRideRequest_state_frame app r).2
        rw [ProcessRideRequest_returned app r hq] at this
        simpa [Outcome.state, hstop] using this
      constructor
      · rw [workerRun, hstep, workerRun, hcheck _ hrun, workerRun_stopped]
      · rw [workerTrace]
        simp only [hstep]
        cases n with
        | zero =>
          rw [workerTrace]
          simp only [hcheck _ hrun]
          rfl
        | succ k =>
          rw [workerTrace]
          simp only [hcheck _ hrun, workerTrace_stopped]

theorem graceful_stop_witness :
    (StopWorker queuedApp).state.Running = false ∧
    (∀ n, workerRun (n + 1) ((StopWorker queuedApp).state, .check) =
      ((StopWorker queuedApp).state, .stopped)) ∧
    (∀ n, workerTrace n ((StopWorker queuedApp).state, .check) = []) ∧
    (∀ (r : RideRequest) (d : Driver),
      Map.get r.DriverName (StopWorker queuedApp).state.Drivers = some d →
      d.Status = true →
      Map.get r.DriverName (workerStep ((StopWorker queuedApp).state, .processing r)).1.Drivers =
        some { d with
          Earning := wrapInt64 (d.Earning +
            CalculateBill (StopWorker queuedApp).state r.Username r.Source r.Destination),
          Location := r.Destination,
          Status := false } ∧
      (-2 ^ 63 ≤ d.Earning +
          CalculateBill (StopWorker queuedApp).state r.Username r.Source r.Destination →
        d.Earning +
          CalculateBill (StopWorker queuedApp).state r.Username r.Source r.Destination < 2 ^ 63 →
        Map.get r.DriverName
            (workerStep ((StopWorker queuedApp).state, .processing r)).1.Drivers =
          some { d with
            Earning := d.Earning +
              CalculateBill (StopWorker queuedApp).state r.Username r.Source r.Destination,
            Location := r.Destination,
            Status := false }) ∧
      (0 < (StopWorker queuedApp).state.Event.recvq →
        ∀ n, (workerRun (n + 2) ((StopWorker queuedApp).state, .processing r)).2 = .stopped ∧
          workerTrace (n + 2) ((StopWorker queuedApp).state, .processing r) = [r])) :=
  ⟨by decide, graceful_stop (StopWorker queuedApp).state (by decide)⟩

/-! ## The completion signal -/

/-- C16, as stated, fails: a request whose claim fails is signalled as well.  On the
sample state with one goroutine waiting on `Event`, the request for the unregistered
`Driver9` is refused by `ChooseRide`, and `ProcessRideRequest` still hands the signal to
the waiting goroutine (the receiver is gone from the channel afterwards) and returns. -/
theorem signal_on_failed_claim :
    (awaitEvent sampleApp).Event = { recvq := 1, sendq := 0 } ∧
    ChooseRide (awaitEvent sampleApp) strayRequest.Username strayRequest.DriverName =
      "Driver not found" ∧
    ProcessRideRequest (awaitEvent sampleApp) strayRequest = .returned sampleApp ∧
    sampleApp.Event = { recvq := 0, sendq := 0 } := by
  decide

/-- C16, amended.  When the claim fails, `ProcessRideRequest` skips Bill, Settle and
Release (steps 2-4): the driver and rider directories stay as they were.  The completion
signal of step 5 is sent in every case, whether the ride was started or not: the `Event`
channel afterwards is the channel after one send. -/
theorem completion_signal_always (app : CabBookingApplication) (r : RideRequest) :
    (ProcessRideRequest app r).state.Event = (app.Event.send).state ∧
    (ChooseRide app r.Username r.DriverName ≠ "Ride started" →
      (ProcessRideRequest app r).state.Drivers = app.Drivers ∧
      (ProcessRideRequest app r).state.Users = app.Users) := by
  constructor
  · by_cases h : 0 < app.Event.recvq
    · rw [ProcessRideRequest_returned app r h]
      simp [SyncChan.send, h, Outcome.state]
    · have h0 : app.Event.recvq = 0 := Nat.eq_zero_of_not_pos h
      rw [ProcessRideRequest_blocked app r h0]
      simp [SyncChan.send, h0, Outcome.state]
  · intro hc
    refine ⟨?_, ProcessRideRequest_state_Users app r⟩
    apply ProcessRideRequest_state_Drivers_dropped
    intro d hd
    cases hs : d.Status with
    | false => rfl
    | true => exact absurd ((ChooseRide_started_iff app _ _).2 ⟨d, hd, hs⟩) hc

/-- C17, as stated, fails: the send on the unbuffered `Event` channel blocks.  On the
sample state nobody waits on `Event`; `ProcessRideRequest` parks at the deferred send, the
signal is pending rather than dropped, and a worker with two buffered requests processes
the first, parks and never dequeues the second. -/
theorem signal_send_blocks :
    ProcessRideRequest sampleApp strayRequest =
      .blocked { sampleApp with Event := { recvq := 0, sendq := 1 } } ∧
    workerRun 3 (twoQueuedApp, .check) =
      ({ sampleApp with
          RideRequestQueue := { buf := [sampleRequest], cap := 10, closed := false },
          Event := { recvq := 0, sendq := 1 } }, .parked) ∧
    (∀ n, workerRun (n + 3) (twoQueuedApp, .check) =
      ({ sampleApp with
          RideRequestQueue := { buf := [sampleRequest], cap := 10, closed := false },
          Event := { recvq := 0, sendq := 1 } }, .parked)) ∧
    (∀ n, workerTrace (n + 3) (twoQueuedApp, .check) = [strayRequest]) := by
  have h3 : workerRun 3 (twoQueuedApp, .check) =
      ({ sampleApp with
          RideRequestQueue := { buf := [sampleRequest], cap := 10, closed := false },
          Event := { recvq := 0, sendq := 1 } }, .parked) := by decide
  have hrun : ∀ (n m : Nat) (s : CabBookingApplication × WorkerPc),
      workerRun (n + m) s = workerRun n (workerRun m s) := by
    intro n m
    induction m with
    | zero => intro s; rfl
    | succ k ih => intro s; exact ih (workerStep s)
  refine ⟨by decide, h3, ?_, ?_⟩
  · intro n
    rw [hrun, h3, workerRun_parked]
  · intro n
    have e1 : workerStep (twoQueuedApp, .check) = (twoQueuedApp, .select) := by decide
    have e2 : workerStep (twoQueuedApp, .select) =
        ({ sampleApp with
            RideRequestQueue := { buf := [sampleRequest], cap := 10, closed := false } },
          .processing strayRequest) := by decide
    have e3 : workerStep ({ sampleApp with
            RideRequestQueue := { buf := [sampleRequest], cap := 10, closed := false } },
          .processing strayRequest) =
        ({ sampleApp with
            RideRequestQueue := { buf := [sampleRequest], cap := 10, closed := false },
            Event := { recvq := 0, sendq := 1 } }, .parked) := by decide
    rw [workerTrace]
    simp only [e1]
    rw [workerTrace]
    simp only [e2]
    rw [workerTrace]
    simp only [e3, workerTrace_parked]

/-- C17, amended.  The completion signal is a blocking hand-over.  When
`ProcessRideRequest` has done its updates and no goroutine waits on `Event`, the send
blocks: the call does not return, the signal stays pending on the channel, and the worker
is parked and dequeues nothing, however many steps it is given, until a goroutine
receives from `Event`; that receive takes the signal and puts the worker back at its
loop.  The send does not panic. -/
theorem completion_signal_blocks (app : CabBookingApplication) (r : RideRequest)
    (hnone : app.Event.recvq = 0) :
    ∃ app1 : CabBookingApplication,
      ProcessRideRequest app r = .blocked app1 ∧
      app1.Event = { app.Event with sendq := app.Event.sendq + 1 } ∧
      workerStep (app, .processing r) = (app1, .parked) ∧
      (∀ n, workerRun n (app1, .parked) = (app1, .parked)) ∧
      (∀ n, workerTrace n (app1, .parked) = []) ∧
      receiveEvent (app1, .parked) = ({ app1 with Event := app.Event }, .check) := by
  refine ⟨_, ProcessRideRequest_blocked app r hnone, rfl, ?_, fun n => workerRun_parked n _,
    fun n => workerTrace_parked n _, ?_⟩
  · simp [workerStep, ProcessRideRequest_blocked app r hnone]
  · simp [receiveEvent, awaitEvent, SyncChan.recv]

theorem completion_signal_blocks_witness :
    sampleApp.Event.recvq = 0 ∧
    ∃ app1 : CabBookingApplication,
      ProcessRideRequest sampleApp sampleRequest = .blocked app1 ∧
      app1.Event = { sampleApp.Event with sendq := sampleApp.Event.sendq + 1 } ∧
      workerStep (sampleApp, .processing sampleRequest) = (app1, .parked) ∧
      (∀ n, workerRun n (app1, .parked) = (app1, .parked)) ∧
      (∀ n, workerTrace n (app1, .parked) = []) ∧
      receiveEvent (app1, .parked) = ({ app1 with Event := sampleApp.Event }, .check) :=
  ⟨by decide, completion_signal_blocks sampleApp sampleRequest (by decide)⟩

/-! ## First in, first out -/

theorem ProcessRideRequest_outcome_frame (app : CabBookingApplication) (r : RideRequest) :
    (workerStep (app, .processing r)).1.RideRequestQueue = app.RideRequestQueue ∧
    (workerStep (app, .processing r)).1.Running = app.Running ∧
    (workerStep (app, .processing r)).2 ≠ .select ∧
    ∀ q, (workerStep (app, .processing r)).2 ≠ .processing q := by
  rw [workerStep_processing_fst]
  refine ⟨(ProcessRideRequest_state_frame app r).1, (ProcessRideRequest_state_frame app r).2, ?_, ?_⟩
  · cases h : ProcessRideRequest app r <;> simp [workerStep, h]
  · intro q
    cases h : ProcessRideRequest app r <;> simp [workerStep, h]

/-- With an open queue, what the worker processes is an initial segment of what is
buffered, in the buffered order. -/
theorem workerTrace_initial (n : Nat) :
    ∀ app : CabBookingApplication, app.RideRequestQueue.closed = false →
      workerTrace n (app, .check) <+: app.RideRequestQueue.buf ∧
      workerTrace n (app, .select) <+: app.RideRequestQueue.buf ∧
      ∀ r, workerTrace n (app, .processing r) <+: r :: app.RideRequestQueue.buf := by
  induction n with
  | zero =>
    intro app _
    exact ⟨List.nil_prefix, List.nil_prefix, fun _ => List.nil_prefix⟩
  | succ k ih =>
    intro app hopen
    refine ⟨?_, ?_, ?_⟩
    · rw [workerTrace]
      by_cases hr : app.Running = true
      · simp only [workerStep, hr, if_true]
        exact (ih app hopen).2.1
      · have hf : app.Running = false := by simpa using hr
        simp only [workerStep, hf, Bool.false_eq_true, if_false]
        rw [workerTrace_stopped]
        exact List.nil_prefix
    · rw [workerTrace]
      cases hb : app.RideRequestQueue.buf with
      | nil =>
        simp only [workerStep, Chan.recv, hb, hopen]
        have := (ih app hopen).1
        rw [hb] at this
        exact this
      | cons v rest =>
        simp only [workerStep, Chan.recv, hb]
        have := (ih { app with RideRequestQueue := { app.RideRequestQueue with buf := rest } }
          hopen).2.2 v
        exact this
    · intro r
      rw [workerTrace]
      simp only
      obtain ⟨hq, -, hns, hnp⟩ := ProcessRideRequest_outcome_frame app r
      have hopen1 : (workerStep (app, .processing r)).1.RideRequestQueue.closed = false := by
        rw [hq]; exact hopen
      have hih := ih (workerStep (app, .processing r)).1 hopen1
      rw [hq] at hih
      have hpre : workerTrace k (workerStep (app, .processing r)) <+:
          app.RideRequestQueue.buf := by
        cases hpc : (workerStep (app, .processing r)).2 with
        | check =>
          have : workerStep (app, .processing r) =
              ((workerStep (app, .processing r)).1, .check) := by rw [← hpc]
          rw [this]; exact hih.1
        | select => exact absurd hpc hns
        | processing q => exact absurd hpc (hnp q)
        | parked =>
          have : workerStep (app, .processing r) =
              ((workerStep (app, .processing r)).1, .parked) := by rw [← hpc]
          rw [this, workerTrace_parked]; exact List.nil_prefix
        | stopped =>
          have : workerStep (app, .processing r) =
              ((workerStep (app, .processing r)).1, .stopped) := by rw [← hpc]
          rw [this, workerTrace_stopped]; exact List.nil_prefix
        | crashed =>
          have : workerStep (app, .processing r) =
              ((workerStep (app, .processing r)).1, .crashed) := by rw [← hpc]
          rw [this, workerTrace_crashed]; exact List.nil_prefix
      exact (List.prefix_cons_inj r).2 hpre

theorem workerStep_processing_returned (a : CabBookingApplication) (v : RideRequest)
    (hq : 0 < a.Event.recvq) :
    ∃ a1 : CabBookingApplication, workerStep (a, .processing v) = (a1, .check) ∧
      a1.Running = a.Running ∧ a1.RideRequestQueue = a.RideRequestQueue ∧
      a1.Event.recvq = a.Event.recvq - 1 := by
  have hframe := ProcessRideRequest_state_frame a v
  rw [ProcessRideRequest_returned a v hq] at hframe
  exact ⟨{ (processRide a v).state with
      Event := { a.Event with recvq := a.Event.recvq - 1 } },
    by simp [workerStep, ProcessRideRequest_returned a v hq], hframe.2, hframe.1, rfl⟩

/-- With the flag `Running` set and a receiver waiting on `Event` for every buffered
request, the worker processes the whole buffer, oldest request first, three steps
(check, select, process) per request. -/
theorem workerTrace_all (l : List RideRequest) :
    ∀ app : CabBookingApplication, app.Running = true → app.RideRequestQueue.buf = l →
      l.length ≤ app.Event.recvq → workerTrace (3 * l.length) (app, .check) = l := by
  induction l with
  | nil => intro app _ _ _; rfl
  | cons v rest ih =>
    intro app hrun hbuf hrecv
    have hlen : 3 * (v :: rest).length = 3 * rest.length + 1 + 1 + 1 := by
      simp [List.length_cons]; ring
    have hq : 0 < app.Event.recvq := by
      simp only [List.length_cons] at hrecv
      omega
    rw [hlen, workerTrace]
    simp only [workerStep, hrun, if_true]
    rw [workerTrace]
    simp only [workerStep, Chan.recv, hbuf]
    rw [workerTrace]
    simp only
    obtain ⟨a1, hs, hr1, hq1, he1⟩ := workerStep_processing_returned
      { app with RideRequestQueue := { app.RideRequestQueue with buf := rest } } v hq
    rw [hs, ih a1 (by rw [hr1]; exact hrun) (by rw [hq1])
      (by rw [he1]; simp only [List.length_cons] at hrecv; simp only; omega)]

theorem RequestRide_enqueues (a : CabBookingApplication) (u : String) (s t : Point)
    (d : Driver) (c : List Driver) (ho : a.RideRequestQueue.closed = false)
    (hl : a.RideRequestQueue.buf.length < a.RideRequestQueue.cap)
    (hf : FindRide a u s t = some (d :: c)) :
    ∃ b : CabBookingApplication, RequestRide a u s t = .returned b ∧
      b.Users = a.Users ∧ b.Drivers = a.Drivers ∧ b.Running = a.Running ∧ b.Event = a.Event ∧
      b.RideRequestQueue.closed = false ∧ b.RideRequestQueue.cap = a.RideRequestQueue.cap ∧
      b.RideRequestQueue.buf = a.RideRequestQueue.buf ++
        [{ Username := u, Source := s, Destination := t, DriverName := d.Name }] := by
  exact ⟨{ a with
      RideRequestQueue :=
        { a.RideRequestQueue with
          buf := a.RideRequestQueue.buf ++
            [{ Username := u, Source := s, Destination := t, DriverName := d.Name }] } },
    by simp [RequestRide, hf, Chan.send, ho, hl], rfl, rfl, rfl, rfl, ho, rfl, rfl⟩

theorem FindRide_congr (a b : CabBookingApplication) (u : String) (s t : Point)
    (hu : b.Users = a.Users) (hd : b.Drivers = a.Drivers) :
    FindRide b u s t = FindRide a u s t := by
  unfold FindRide
  rw [hu, hd]

/-- With `Running` set, a request buffered and nobody waiting on `Event`, the worker
processes the oldest request and parks at the completion signal: from its third step on it
has processed that one request and the rest of the buffer stays where it is. -/
theorem workerTrace_stall (app : CabBookingApplication) (v : RideRequest)
    (rest : List RideRequest) (hrun : app.Running = true)
    (hbuf : app.RideRequestQueue.buf = v :: rest) (hrecv : app.Event.recvq = 0) (n : Nat) :
    workerTrace (n + 3) (app, .check) = [v] ∧
    (workerRun (n + 3) (app, .check)).2 = .parked ∧
    (workerRun (n + 3) (app, .check)).1.RideRequestQueue.buf = rest := by
  have h1 : workerStep (app, .check) = (app, .select) := by simp [workerStep, hrun]
  have h2 : workerStep (app, .select) =
      ({ app with RideRequestQueue := { app.RideRequestQueue with buf := rest } },
        .processing v) := by
    simp [workerStep, Chan.recv, hbuf]
  have hb := ProcessRideRequest_blocked
    { app with RideRequestQueue := { app.RideRequestQueue with buf := rest } } v hrecv
  have h3 : workerStep
      ({ app with RideRequestQueue := { app.RideRequestQueue with buf := rest } },
        .processing v) =
      ((ProcessRideRequest
          { app with RideRequestQueue := { app.RideRequestQueue with buf := rest } } v).state,
        .parked) := by
    simp [workerStep, hb, Outcome.state]
  have hq := (ProcessRideRequest_state_frame
    { app with RideRequestQueue := { app.RideRequestQueue with buf := rest } } v).1
  refine ⟨?_, ?_, ?_⟩
  · have e : n + 3 = n + 1 + 1 + 1 := by omega
    rw [e, workerTrace]
    simp only [h1]
    rw [workerTrace]
    simp only [h2]
    rw [workerTrace]
    simp only [h3, workerTrace_parked]
  · have e : n + 3 = n + 1 + 1 + 1 := by omega
    rw [e, workerRun, h1, workerRun, h2, workerRun, h3, workerRun_parked]
  · have e : n + 3 = n + 1 + 1 + 1 := by omega
    rw [e, workerRun, h1, workerRun, h2, workerRun, h3, workerRun_parked]
    simp only [hq]

/-- C18, as stated, fails.  In the fleet state with an empty open queue of capacity 10 and
nobody waiting on `Event`, three calls of `RequestRide` enqueue `A`, `B`, `C`; the worker
dequeues and processes `A` and then parks at the completion signal of line 182: however
many steps it is given, it has processed `A` alone, and `B` and `C` stay in the queue. -/
theorem worker_parks_after_first :
    idleFleetApp.RideRequestQueue = { buf := [], cap := 10, closed := false } ∧
    idleFleetApp.Running = true ∧
    ∃ app1 app2 app3 : CabBookingApplication,
      RequestRide idleFleetApp "Thu" (10, 0) (15, 3) = .returned app1 ∧
      RequestRide app1 "Blue" (5, 6) (20, 4) = .returned app2 ∧
      RequestRide app2 "Khanh" (11, 8) (0, 0) = .returned app3 ∧
      app3.RideRequestQueue.buf =
        [{ Username := "Thu", Source := (10, 0), Destination := (15, 3),
           DriverName := "Driver1" },
         { Username := "Blue", Source := (5, 6), Destination := (20, 4),
           DriverName := "Driver3" },
         { Username := "Khanh", Source := (11, 8), Destination := (0, 0),
           DriverName := "Driver2" }] ∧
      ∀ n, workerTrace (n + 3) (app3, .check) =
          [{ Username := "Thu", Source := (10, 0), Destination := (15, 3),
             DriverName := "Driver1" }] ∧
        (workerRun (n + 3) (app3, .check)).2 = .parked ∧
        (workerRun (n + 3) (app3, .check)).1.RideRequestQueue.buf =
          [{ Username := "Blue", Source := (5, 6), Destination := (20, 4),
             DriverName := "Driver3" },
           { Username := "Khanh", Source := (11, 8), Destination := (0, 0),
             DriverName := "Driver2" }] := by
  refine ⟨by decide, by decide,
    (RequestRide idleFleetApp "Thu" (10, 0) (15, 3)).state,
    (RequestRide (RequestRide idleFleetApp "Thu" (10, 0) (15, 3)).state "Blue" (5, 6)
      (20, 4)).state,
    (RequestRide (RequestRide (RequestRide idleFleetApp "Thu" (10, 0) (15, 3)).state "Blue"
      (5, 6) (20, 4)).state "Khanh" (11, 8) (0, 0)).state,
    by decide, by decide, by decide, by decide, ?_⟩
  intro n
  exact workerTrace_stall _ _ _ (by decide) (by decide) (by decide) n

/-- C18, amended. Queue FIFO.  Start from a state with an empty open queue of capacity at
least 3 (the constructor gives 10), with `Running` set and three receivers waiting on
`Event` for the completion signals, and let three calls of `RequestRide` find candidates.
They return having enqueued the requests `A`, `B`, `C` in that order, and the worker
processes exactly `A, B, C`, in that order, in nine steps.  Without the receivers it still
processes an initial segment of `A, B, C` in that order, however many steps it is given.
In general, with an open queue the requests the worker processes are an initial segment
of the buffered ones, and with `Running` set and a receiver for every buffered request it
processes the whole buffer in order: the k-th request dequeued is the k-th one enqueued. -/
theorem queue_fifo (app : CabBookingApplication) (u1 u2 u3 : String)
    (s1 t1 s2 t2 s3 t3 : Point) (d1 d2 d3 : Driver) (c1 c2 c3 : List Driver)
    (hempty : app.RideRequestQueue.buf = []) (hopen : app.RideRequestQueue.closed = false)
    (hcap : 3 ≤ app.RideRequestQueue.cap)
    (hrun : app.Running = true) (hrecv : 3 ≤ app.Event.recvq)
    (h1 : FindRide app u1 s1 t1 = some (d1 :: c1))
    (h2 : FindRide app u2 s2 t2 = some (d2 :: c2))
    (h3 : FindRide app u3 s3 t3 = some (d3 :: c3)) :
    ∃ app1 app2 app3 : CabBookingApplication,
      RequestRide app u1 s1 t1 = .returned app1 ∧
      RequestRide app1 u2 s2 t2 = .returned app2 ∧
      RequestRide app2 u3 s3 t3 = .returned app3 ∧
      app3.RideRequestQueue.buf =
        [{ Username := u1, Source := s1, Destination := t1, DriverName := d1.Name },
         { Username := u2, Source := s2, Destination := t2, DriverName := d2.Name },
         { Username := u3, Source := s3, Destination := t3, DriverName := d3.Name }] ∧
      workerTrace 9 (app3, .check) =
        [{ Username := u1, Source := s1, Destination := t1, DriverName := d1.Name },
         { Username := u2, Source := s2, Destination := t2, DriverName := d2.Name },
         { Username := u3, Source := s3, Destination := t3, DriverName := d3.Name }] ∧
      (∀ n, workerTrace n (app3, .check) <+:
        [{ Username := u1, Source := s1, Destination := t1, DriverName := d1.Name },
         { Username := u2, Source := s2, Destination := t2, DriverName := d2.Name },
         { Username := u3, Source := s3, Destination := t3, DriverName := d3.Name }]) ∧
      (∀ (other : CabBookingApplication) (n : Nat), other.RideRequestQueue.closed = false →
        workerTrace n (other, .check) <+: other.RideRequestQueue.buf) ∧
      (∀ other : CabBookingApplication, other.Running = true →
        other.RideRequestQueue.buf.length ≤ other.Event.recvq →
        workerTrace (3 * other.RideRequestQueue.buf.length) (other, .check) =
          other.RideRequestQueue.buf) := by
  obtain ⟨a1, e1, hu1, hd1, hr1, hv1, ho1, hc1, hb1⟩ :=
    RequestRide_enqueues app u1 s1 t1 d1 c1 hopen (by rw [hempty]; simp; omega) h1
  obtain ⟨a2, e2, hu2, hd2, hr2, hv2, ho2, hc2, hb2⟩ :=
    RequestRide_enqueues a1 u2 s2 t2 d2 c2 ho1 (by rw [hb1, hc1, hempty]; simp; omega)
      ((FindRide_congr app a1 u2 s2 t2 hu1 hd1).trans h2)
  obtain ⟨a3, e3, hu3, hd3, hr3, hv3, ho3, hc3, hb3⟩ :=
    RequestRide_enqueues a2 u3 s3 t3 d3 c3 ho2 (by rw [hb2, hb1, hc2, hc1, hempty]; simp; omega)
      ((FindRide_congr app a2 u3 s3 t3 (hu2.trans hu1) (hd2.trans hd1)).trans h3)
  have hbuf : a3.RideRequestQueue.buf =
      [{ Username := u1, Source := s1, Destination := t1, DriverName := d1.Name },
       { Username := u2, Source := s2, Destination := t2, DriverName := d2.Name },
       { Username := u3, Source := s3, Destination := t3, DriverName := d3.Name }] := by
    rw [hb3, hb2, hb1, hempty]; rfl
  refine ⟨a1, a2, a3, e1, e2, e3, hbuf, ?_, ?_, ?_, ?_⟩
  · have := workerTrace_all _ a3 (by rw [hr3, hr2, hr1]; exact hrun) hbuf
      (by rw [hv3, hv2, hv1]; simpa using hrecv)
    simpa using this
  · intro n
    have := (workerTrace_initial n a3 ho3).1
    rw [hbuf] at this
    exact this
  · intro other n ho
    exact (workerTrace_initial n other ho).1
  · intro other hr hl
    exact workerTrace_all _ other hr rfl hl

theorem queue_fifo_witness :
    fleetApp.RideRequestQueue.buf = [] ∧ fleetApp.RideRequestQueue.closed = false ∧
    3 ≤ fleetApp.RideRequestQueue.cap ∧
    fleetApp.Running = true ∧ 3 ≤ fleetApp.Event.recvq ∧
    FindRide fleetApp "Thu" (10, 0) (15, 3) = some (driver1 :: []) ∧
    FindRide fleetApp "Blue" (5, 6) (20, 4) = some (driver3 :: []) ∧
    FindRide fleetApp "Khanh" (11, 8) (0, 0) = some (driver2 :: []) ∧
    ∃ app1 app2 app3 : CabBookingApplication,
      RequestRide fleetApp "Thu" (10, 0) (15, 3) = .returned app1 ∧
      RequestRide app1 "Blue" (5, 6) (20, 4) = .returned app2 ∧
      RequestRide app2 "Khanh" (11, 8) (0, 0) = .returned app3 ∧
      app3.RideRequestQueue.buf =
        [{ Username := "Thu", Source := (10, 0), Destination := (15, 3),
           DriverName := driver1.Name },
         { Username := "Blue", Source := (5, 6), Destination := (20, 4),
           DriverName := driver3.Name },
         { Username := "Khanh", Source := (11, 8), Destination := (0, 0),
           DriverName := driver2.Name }] ∧
      workerTrace 9 (app3, .check) =
        [{ Username := "Thu", Source := (10, 0), Destination := (15, 3),
           DriverName := driver1.Name },
         { Username := "Blue", Source := (5, 6), Destination := (20, 4),
           DriverName := driver3.Name },
         { Username := "Khanh", Source := (11, 8), Destination := (0, 0),
           DriverName := driver2.Name }] ∧
      (∀ n, workerTrace n (app3, .check) <+:
        [{ Username := "Thu", Source := (10, 0), Destination := (15, 3),
           DriverName := driver1.Name },
         { Username := "Blue", Source := (5, 6), Destination := (20, 4),
           DriverName := driver3.Name },
         { Username := "Khanh", Source := (11, 8), Destination := (0, 0),
           DriverName := driver2.Name }]) ∧
      (∀ (other : CabBookingApplication) (n : Nat), other.RideRequestQueue.closed = false →
        workerTrace n (other, .check) <+: other.RideRequestQueue.buf) ∧
      (∀ other : CabBookingApplication, other.Running = true →
        other.RideRequestQueue.buf.length ≤ other.Event.recvq →
        workerTrace (3 * other.RideRequestQueue.buf.length) (other, .check) =
          other.RideRequestQueue.buf) :=
  ⟨by decide, by decide, by decide, by decide, by decide, by decide, by decide, by decide,
    queue_fifo fleetApp "Thu" "Blue" "Khanh" (10, 0) (15, 3) (5, 6) (20, 4) (11, 8) (0, 0)
      driver1 driver3 driver2 [] [] [] (by decide) (by decide) (by decide) (by decide)
      (by decide) (by decide) (by decide) (by decide)⟩

/-! ## Earnings never go down -/

/-- The fare of a short ride is not negative and stays below `2 ^ 25`. -/
theorem settledFare_bounds (n : String) (app : CabBookingApplication) (op : Op)
    (hshort : Op.short op = true) :
    0 ≤ settledFare n app op ∧ settledFare n app op < 2 ^ 25 := by
  cases op with
  | processRideRequest r =>
    simp only [settledFare]
    split
    · simp only [Op.short, RideRequest.short, decide_eq_true_eq] at hshort
      have hnx : (r.Destination.1 - r.Source.1).natAbs ≤ 2000000 := by
        have : ((r.Destination.1 - r.Source.1).natAbs : ℤ) ≤ 2000000 := by
          rw [Int.natCast_natAbs]; exact hshort.1
        exact_mod_cast this
      have hny : (r.Destination.2 - r.Source.2).natAbs ≤ 2000000 := by
        have : ((r.Destination.2 - r.Source.2).natAbs : ℤ) ≤ 2000000 := by
          rw [Int.natCast_natAbs]; exact hshort.2
        exact_mod_cast this
      rw [CalculateBill_eq app r.Username r.Source r.Destination hshort.1 hshort.2]
      exact ⟨by positivity, by exact_mod_cast sqrt_fare_lt _ _ hnx hny⟩
    · exact ⟨le_refl 0, by norm_num⟩
  | _ => exact ⟨le_refl 0, by simp [settledFare]⟩

/-- An operation registers no driver other than the one an `AddDriver` names. -/
theorem none_step (sc : Scanner) (app : CabBookingApplication) (op : Op) (n : String)
    (hnone : Map.get n app.Drivers = none) (hop : addsDriver sc n op = false) :
    Map.get n (Op.apply sc app op).Drivers = none := by
  cases op with
  | addUser dd => simpa [Op.apply, AddUser] using hnone
  | updateUserLocation u l =>
    simp only [Op.apply, UpdateUserLocation]
    cases Map.get u app.Users <;> simpa using hnone
  | addDriver dd vd l =>
    have hne : (sc.person dd).1 ≠ n := by simpa [addsDriver] using hop
    simpa [Op.apply, AddDriver_get sc app dd vd l n hne] using hnone
  | updateDriverLocation m l =>
    simp only [Op.apply, UpdateDriverLocation_get, hnone]
    by_cases h : m = n <;> simp [h]
  | changeDriverStatus m st =>
    simp only [Op.apply, ChangeDriverStatus_get, hnone]
    by_cases h : m = n <;> simp [h]
  | findRide u s t => exact hnone
  | requestRide u s t => simpa [Op.apply, (RequestRide_state app u s t).1] using hnone
  | processRideRequest r =>
    simp only [Op.apply, ProcessRideRequest_get, hnone]
    by_cases h : r.DriverName = n <;> simp [h]
  | await => exact hnone

/-- The driver directory after any call is the one after some operation, which processes
the same request if the call processes one. -/
theorem Call.apply_Drivers (sc : Scanner) (app : CabBookingApplication) (call : Call) :
    ∃ o : Op, (Call.apply sc app call).Drivers = (Op.apply sc app o).Drivers ∧
      (∀ n, CabBooking.addsDriver sc n o = Call.addsDriver sc n call) ∧
      Op.short o = Call.short call := by
  cases call with
  | op o => exact ⟨o, rfl, fun _ => rfl, rfl⟩
  | stopWorker =>
    refine ⟨.await, ?_, fun _ => rfl, rfl⟩
    simp only [Call.apply, StopWorker, Chan.close]
    by_cases h : app.RideRequestQueue.closed = true <;> simp [h, Outcome.state, Op.apply, awaitEvent]
  | worker pc =>
    cases pc with
    | check =>
      refine ⟨.await, ?_, fun _ => rfl, rfl⟩
      simp only [Call.apply, workerStep]
      by_cases h : app.Running = true <;> simp [h, Op.apply, awaitEvent]
    | select =>
      refine ⟨.await, ?_, fun _ => rfl, rfl⟩
      simp only [Call.apply, workerStep]
      cases h : app.RideRequestQueue.recv <;> simp [Op.apply, awaitEvent]
    | processing r =>
      exact ⟨.processRideRequest r, by rw [Call.apply, workerStep_processing_fst]; rfl,
        fun _ => rfl, rfl⟩
    | parked => exact ⟨.await, rfl, fun _ => rfl, rfl⟩
    | stopped => exact ⟨.await, rfl, fun _ => rfl, rfl⟩
    | crashed => exact ⟨.await, rfl, fun _ => rfl, rfl⟩

/-- A call that processes at most a short ride does not lower earnings that leave room
for one more fare. -/
theorem earning_monotone (sc : Scanner) (app : CabBookingApplication) (call : Call)
    (n : String) (d : Driver) (hreg : Map.get n app.Drivers = some d)
    (hlo : -2 ^ 63 ≤ d.Earning) (hhi : d.Earning < 2 ^ 63 - 2 ^ 25)
    (hshort : Call.short call = true) (hcall : Call.addsDriver sc n call = false) :
    ∃ e, Map.get n (Call.apply sc app call).Drivers = some e ∧ d.Earning ≤ e.Earning := by
  obtain ⟨o, hD, hadd, hsh⟩ := Call.apply_Drivers sc app call
  obtain ⟨e, he, hearn⟩ := earning_step sc app o n d hreg (by rw [hadd n]; exact hcall)
  refine ⟨e, by rw [hD]; exact he, ?_⟩
  have hb := settledFare_bounds n app o (by rw [hsh]; exact hshort)
  rcases hearn with ⟨h1, -⟩ | h
  · rw [h1]
  · rw [h, wrapInt64_eq _ (by linarith [hb.1]) (by linarith [hb.2])]
    linarith [hb.1]

/-- Earnings between `0` and `B` stay between `0` and `B + 2 ^ 25` under a call that
processes at most a short ride. -/
theorem earning_bound_step (sc : Scanner) (app : CabBookingApplication) (call : Call) (B : Int)
    (hB : 0 ≤ B) (hB2 : B + 2 ^ 25 < 2 ^ 63) (hshort : Call.short call = true)
    (hinv : ∀ n d, Map.get n app.Drivers = some d → 0 ≤ d.Earning ∧ d.Earning ≤ B) :
    ∀ n e, Map.get n (Call.apply sc app call).Drivers = some e →
      0 ≤ e.Earning ∧ e.Earning ≤ B + 2 ^ 25 := by
  intro n e he
  obtain ⟨o, hD, -, hsh⟩ := Call.apply_Drivers sc app call
  rw [hD] at he
  by_cases hadd : addsDriver sc n o = true
  · cases o with
    | addDriver dd vd l =>
      have hn : (sc.person dd).1 = n := by simpa [addsDriver] using hadd
      subst hn
      simp only [Op.apply] at he
      rw [AddDriver_get_self] at he
      cases he
      exact ⟨le_refl 0, by simp only; linarith⟩
    | _ => simp [addsDriver] at hadd
  · have hadd' : addsDriver sc n o = false := by simpa using hadd
    cases hg : Map.get n app.Drivers with
    | none =>
      rw [none_step sc app o n hg hadd'] at he
      exact Option.noConfusion he
    | some d =>
      obtain ⟨f, hf, hearn⟩ := earning_step sc app o n d hg hadd'
      rw [hf] at he
      cases he
      have h1 := hinv n d hg
      have hb := settledFare_bounds n app o (by rw [hsh]; exact hshort)
      rcases hearn with ⟨h2, -⟩ | h
      · rw [h2]
        exact ⟨h1.1, by linarith [h1.2]⟩
      · rw [h, wrapInt64_eq _ (by linarith [hb.1, h1.1]) (by linarith [hb.2, h1.2])]
        exact ⟨by linarith [hb.1, h1.1], by linarith [hb.2, h1.2]⟩

/-- Along calls that process short rides only, earnings that start between `0` and `B`
grow by less than `2 ^ 25` per call. -/
theorem earning_bound_run (sc : Scanner) (calls : List Call) :
    ∀ (app : CabBookingApplication) (B : Int), 0 ≤ B → B + 2 ^ 25 * calls.length < 2 ^ 63 →
      (∀ c ∈ calls, Call.short c = true) →
      (∀ n d, Map.get n app.Drivers = some d → 0 ≤ d.Earning ∧ d.Earning ≤ B) →
      ∀ n d, Map.get n (runCalls sc app calls).Drivers = some d →
        0 ≤ d.Earning ∧ d.Earning ≤ B + 2 ^ 25 * calls.length := by
  induction calls with
  | nil =>
    intro app B _ _ _ hinv n d h
    simpa [runCalls] using hinv n d h
  | cons c rest ih =>
    intro app B hB hlen hshort hinv n d h
    have hl : ((c :: rest).length : Int) = rest.length + 1 := by simp
    rw [hl] at hlen ⊢
    have hr : (0 : Int) ≤ rest.length := by positivity
    have hstep := earning_bound_step sc app c B hB (by linarith) (hshort c (List.mem_cons_self _ _))
      hinv
    have := ih (Call.apply sc app c) (B + 2 ^ 25) (by linarith) (by linarith)
      (fun x hx => hshort x (List.mem_cons_of_mem _ hx)) hstep n d
      (by simpa [runCalls] using h)
    exact ⟨this.1, by linarith [this.2]⟩

/-- C19, as stated, fails.  Register `Driver1`, process a ride of `5 * 10 ^ 17` units,
make the driver available again and process the same ride once more: each fare is
`5 * 10 ^ 18`, the second addition of line 190 leaves the `int` range, and `Earning` drops
from `5 * 10 ^ 18` to `10 ^ 19 - 2 ^ 64`, which is negative. -/
theorem earnings_overflow :
    CalculateBill NewCabBookingApplication "Thu" (0, 0) (5 * 10 ^ 17, 0) = 5 * 10 ^ 18 ∧
    (Map.get "Driver1"
      (runCalls (fmtScanner noRestPerson noRestVehicle) NewCabBookingApplication
        longCalls).Drivers).map Driver.Earning = some (5 * 10 ^ 18) ∧
    (Map.get "Driver1"
      (runCalls (fmtScanner noRestPerson noRestVehicle) NewCabBookingApplication
        (longCalls ++ [Call.op (Op.processRideRequest longRequest)])).Drivers).map
          Driver.Earning = some (10 ^ 19 - 2 ^ 64) ∧
    (10 ^ 19 - 2 ^ 64 : Int) < 0 ∧
    Call.addsDriver (fmtScanner noRestPerson noRestVehicle) "Driver1"
      (Call.op (Op.processRideRequest longRequest)) = false := by
  refine ⟨by decide, by decide, by decide, by decide, by decide⟩

/-- C19, amended.  Let the state be reached from `NewCabBookingApplication` by at most
`2 ^ 37` calls of the operations, of `StopWorker` and steps of the worker, every processed
request having endpoints that differ by at most two million along each axis.  Then every
registered driver's `Earning` is non-negative (and at most `2 ^ 25` per call made), and no
further such call other than an `AddDriver` for the same identity lowers a driver's
`Earning`. -/
theorem earnings_nonneg (sc : Scanner) (calls : List Call)
    (hshort : ∀ c ∈ calls, Call.short c = true) (hlen : calls.length ≤ 2 ^ 37) :
    (∀ n d, Map.get n (runCalls sc NewCabBookingApplication calls).Drivers = some d →
      0 ≤ d.Earning ∧ d.Earning ≤ 2 ^ 25 * (calls.length : Int)) ∧
    (∀ (call : Call) (n : String) (d : Driver), Call.short call = true →
      Map.get n (runCalls sc NewCabBookingApplication calls).Drivers = some d →
      Call.addsDriver sc n call = false →
      ∃ e, Map.get n (Call.apply sc (runCalls sc NewCabBookingApplication calls) call).Drivers =
          some e ∧
        d.Earning ≤ e.Earning) := by
  have hl : (calls.length : Int) ≤ 2 ^ 37 := by exact_mod_cast hlen
  have hbound : ∀ n d, Map.get n (runCalls sc NewCabBookingApplication calls).Drivers = some d →
      0 ≤ d.Earning ∧ d.Earning ≤ 2 ^ 25 * (calls.length : Int) := by
    intro n d h
    have := earning_bound_run sc calls NewCabBookingApplication 0 (le_refl 0)
      (by norm_num; linarith) hshort
      (by intro n d h; simp [NewCabBookingApplication, Map.get] at h) n d h
    simpa using this
  refine ⟨hbound, ?_⟩
  intro call n d hs hreg hadd
  have hb := hbound n d hreg
  exact earning_monotone sc _ call n d hreg (by linarith [hb.1])
    (by have := hb.2; norm_num at this ⊢; linarith) hs hadd

theorem earnings_nonneg_witness :
    (∀ c ∈ shortCalls, Call.short c = true) ∧ shortCalls.length ≤ 2 ^ 37 ∧
    (∀ n d,
      Map.get n (runCalls (fmtScanner noRestPerson noRestVehicle) NewCabBookingApplication
        shortCalls).Drivers = some d →
      0 ≤ d.Earning ∧ d.Earning ≤ 2 ^ 25 * (shortCalls.length : Int)) ∧
    (∀ (call : Call) (n : String) (d : Driver), Call.short call = true →
      Map.get n (runCalls (fmtScanner noRestPerson noRestVehicle) NewCabBookingApplication
        shortCalls).Drivers = some d →
      Call.addsDriver (fmtScanner noRestPerson noRestVehicle) n call = false →
      ∃ e, Map.get n (Call.apply (fmtScanner noRestPerson noRestVehicle)
          (runCalls (fmtScanner noRestPerson noRestVehicle) NewCabBookingApplication shortCalls)
          call).Drivers = some e ∧
        d.Earning ≤ e.Earning) :=
  ⟨by decide, by decide,
    earnings_nonneg (fmtScanner noRestPerson noRestVehicle) shortCalls (by decide) (by decide)⟩

/-! ## The lookups of the ride path -/

/-- No call removes a driver from the directory. -/
theorem registered_step (sc : Scanner) (app : CabBookingApplication) (call : Call) (k : String)
    (h : k ∈ Map.keys app.Drivers) : k ∈ Map.keys (Call.apply sc app call).Drivers := by
  have hsome : Map.get k app.Drivers ≠ none := fun hn => (Map.get_eq_none_iff k _).1 hn h
  by_contra hk
  have hnone := (Map.get_eq_none_iff k _).2 hk
  obtain ⟨o, hD, -⟩ := Call.apply_Drivers sc app call
  rw [hD] at hnone
  by_cases hadd : addsDriver sc k o = true
  · cases o with
    | addDriver dd vd l =>
      have hn : (sc.person dd).1 = k := by simpa [addsDriver] using hadd
      subst hn
      simp only [Op.apply] at hnone
      rw [AddDriver_get_self] at hnone
      exact Option.noConfusion hnone
    | _ => simp [addsDriver] at hadd
  · have hadd' : addsDriver sc k o = false := by simpa using hadd
    cases hg : Map.get k app.Drivers with
    | none => exact hsome hg
    | some d =>
      obtain ⟨e, he, -⟩ := earning_step sc app o k d hg hadd'
      rw [he] at hnone
      exact Option.noConfusion hnone

/-- C20. While the queue is open the lookups of the ride path cannot fail.  `FindRide`
never returns an empty non-nil slice, so `RequestRide` reads `availableRides[0]` only from
a non-empty slice and does not panic.  Whenever `ChooseRide` answers "Ride started" the
driver is registered, so the lookup at settlement finds a record: neither the body of
`ProcessRideRequest`, nor the call, nor the worker that makes it panics.  No call removes
a driver from the directory. -/
theorem ride_path_lookups_safe (sc : Scanner) (app : CabBookingApplication) (u : String)
    (s t : Point) (r : RideRequest) (hopen : app.RideRequestQueue.closed = false) :
    FindRide app u s t ≠ some [] ∧
    (∀ app1, RequestRide app u s t ≠ .panicked app1) ∧
    (ChooseRide app r.Username r.DriverName = "Ride started" →
      ∃ d, Map.get r.DriverName app.Drivers = some d) ∧
    (∀ app1, processRide app r ≠ .panicked app1) ∧
    (∀ app1, ProcessRideRequest app r ≠ .panicked app1) ∧
    (workerStep (app, .processing r)).2 ≠ .crashed ∧
    (∀ (call : Call) (k : String), k ∈ Map.keys app.Drivers →
      k ∈ Map.keys (Call.apply sc app call).Drivers) := by
  have hproc : ∀ app1, ProcessRideRequest app r ≠ .panicked app1 := by
    intro app1
    by_cases hq : 0 < app.Event.recvq
    · rw [ProcessRideRequest_returned app r hq]
      exact fun h => Outcome.noConfusion h
    · rw [ProcessRideRequest_blocked app r (Nat.eq_zero_of_not_pos hq)]
      exact fun h => Outcome.noConfusion h
  refine ⟨FindRide_ne_some_nil app u s t, ?_, ?_, ?_, hproc, ?_,
    fun call k hk => registered_step sc app call k hk⟩
  · intro app1
    unfold RequestRide
    cases hf : FindRide app u s t with
    | none => exact fun h => Outcome.noConfusion h
    | some rides =>
      cases rides with
      | nil => exact absurd hf (FindRide_ne_some_nil app u s t)
      | cons d c =>
        simp only [List.head?_cons, Chan.send, hopen]
        by_cases hl : app.RideRequestQueue.buf.length < app.RideRequestQueue.cap
        · simp [hl]
        · simp [hl]
  · intro hc
    obtain ⟨d, hd, -⟩ := (ChooseRide_started_iff app _ _).1 hc
    exact ⟨d, hd⟩
  · intro app1
    rw [processRide_returns]
    exact fun h => Outcome.noConfusion h
  · cases h : ProcessRideRequest app r with
    | returned a => simp [workerStep, h]
    | blocked a => simp [workerStep, h]
    | panicked a => exact absurd h (hproc a)

theorem ride_path_lookups_safe_witness :
    sampleApp.RideRequestQueue.closed = false ∧
    FindRide sampleApp "Thu" (10, 0) (15, 3) ≠ some [] ∧
    (∀ app1, RequestRide sampleApp "Thu" (10, 0) (15, 3) ≠ .panicked app1) ∧
    (ChooseRide sampleApp sampleRequest.Username sampleRequest.DriverName = "Ride started" →
      ∃ d, Map.get sampleRequest.DriverName sampleApp.Drivers = some d) ∧
    (∀ app1, processRide sampleApp sampleRequest ≠ .panicked app1) ∧
    (∀ app1, ProcessRideRequest sampleApp sampleRequest ≠ .panicked app1) ∧
    (workerStep (sampleApp, .processing sampleRequest)).2 ≠ .crashed ∧
    (∀ (call : Call) (k : String), k ∈ Map.keys sampleApp.Drivers →
      k ∈ Map.keys (Call.apply sampleScanner sampleApp call).Drivers) :=
  ⟨by decide,
    ride_path_lookups_safe sampleScanner sampleApp "Thu" (10, 0) (15, 3) sampleRequest
      (by decide)⟩

end CabBooking
